import Mathlib

/-!
Oriented boxes of the ASV geometry kernel (`box2d.h`), the motion primitives of the
hybrid A* planner (`HybridAStar.h`) and the moving-average filter (`lowpass.h`)

A shallow embedding of `ASV::common::math::Box2d`, of the search node
`HybridState4DNode` with `update_movement_step` and of `GenerateSearchConfig` of the
planner, of `OpenSpacePlanner::GenerateTrajectory` (`OpenSpacePlanner.h`), and of the
class `lowpass` of the estimator.  The C++
`double` (and the `float` of the planner) is read as an element of a linearly ordered
field `α`: the definitions are computable and the theorems hold in particular over the
reals.  Where a property depends on the rounding of the operations, the function is
embedded a second time, with the rounding `rnd` of every operation as a parameter (the
definitions `..._rounded`): `binary64` and `binary32` are the roundings of `double` and of
`float` (IEEE 754, to the nearest number of the format, a tie to the even one, every
operation rounded on its own, overflow left out), and with the identity for `rnd` the
exact reading is back.  An `int` is an integer in the 32-bit range.  The library calls `std::cos`,
`std::sin` and `std::hypot` are the three fields of `Libm`; what the proofs use of them
is `Libm.Sound`, which the real functions satisfy (`real_sound`).  The tolerance
`kMathEpsilon`, declared outside `box2d.h`, is the parameter `eps`.  A division has no
result when the divisor is zero, so the functions that divide return an `Option`.

The definitions come first, then the lemmas, then one theorem for each property of the
specification, with an instance at a concrete input where the theorem has
hypotheses.
-/

namespace ASV

/-- Plane vector, the `Eigen::Vector2d` of the source: `x` is coefficient `(0)`,
`y` is coefficient `(1)`. -/
@[ext] structure Vector2d (α : Type) where
  x : α
  y : α

/-- The four columns of the `Eigen::Matrix<double, 2, 4>` that holds the corners. -/
structure Corners (α : Type) where
  col0 : Vector2d α
  col1 : Vector2d α
  col2 : Vector2d α
  col3 : Vector2d α

/-- The calls into the C mathematics library made by `box2d.h`. -/
structure Libm (α : Type) where
  cos : α → α
  sin : α → α
  hypot : α → α → α

/-- Modelled from the spec: the line segment of `linesegment2d.h`, which is not among
the sources.  The spec gives it as `{start, end}` with the derived `length`; the
heading fields it also lists are not read by the operations embedded here. -/
structure LineSegment2d (α : Type) where
  start : Vector2d α
  end_ : Vector2d α
  length : α

/-- Fields of `class Box2d`, in the order of the private section of the class. -/
structure Box2d (α : Type) where
  center : Vector2d α
  length : α
  width : α
  half_length : α
  half_width : α
  heading : α
  cos_heading : α
  sin_heading : α
  max_x : α
  min_x : α
  max_y : α
  min_y : α
  corners : Corners α

/-- Modelled from the spec: the axis-aligned box of `aabox2d.h`, which is not among the
sources.  `AABox2d(center, length, width)` keeps the centre, the extent along the x axis
(`length`) and the extent along the y axis (`width`). -/
structure AABox2d (α : Type) where
  center : Vector2d α
  length : α
  width : α

/-- Modelled from the spec: the fields of `HybridAStarConfig` (declared in
`openspacedata.h`, not among the sources) that `GenerateSearchConfig` reads. -/
structure HybridAStarConfig (α : Type) where
  move_length : α
  penalty_turning : α
  penalty_reverse : α
  penalty_switch : α

/-- Modelled from the spec: the field of `CollisionData` (declared outside the sources)
that `GenerateSearchConfig` reads. -/
structure CollisionData (α : Type) where
  MAX_CURVATURE : α

/-- Modelled from the spec: `SearchConfig` (declared in `openspacedata.h`, not among the
sources): step length, maximum turning angle of a step, and the 6×6 transition-cost
matrix `cost_map[previous][next]`. -/
structure SearchConfig (α : Type) where
  move_length : α
  turning_angle : α
  cost_map : Fin 6 → Fin 6 → α

/-- The calls that change a box after its construction, with their arguments. -/
inductive Mutator (α : Type) where
  | RotateFromCenter (rotate_angle : α)
  | Shift (shift_vec : Vector2d α)
  | LongitudinalExtend (extension_length : α)
  | LateralExtend (extension_width : α)

/-- The `enum MovementType` of `HybridState4DNode`, in the order of its enumerators
(values 0 to 5). -/
inductive MovementType where
  | STRAIGHT_FORWARD
  | LEFTTURN_FORWARD
  | RIGHTTURN_FORWARD
  | STRAIGHT_REVERSE
  | RIGHTTURN_REVERSE
  | LEFTTURN_REVERSE
  deriving DecidableEq

/-- The private fields of `class HybridState4DNode`. -/
structure HybridState4DNode (α : Type) where
  x_ : α
  y_ : α
  theta_ : α
  type_ : MovementType

/-- Modelled from the spec: a state of a smoothed segment (`PathSmoothing.h` is not among
the sources); `GenerateTrajectory` reads its `x()` and `y()`. -/
structure SmoothState (α : Type) where
  x : α
  y : α

/-- The state of `class OpenSpacePlanner`: the two stored paths, and the three members
`collision_checker_`, `Hybrid_AStar_` and `path_smoother_` taken together as `components`
(their classes are declared outside the sources). -/
structure OpenSpacePlanner (κ α : Type) where
  components : κ
  coarse_path_ : List (α × α × α)
  fine_path_ : List (α × α × α)

/-- The private field of `class lowpass<num_lowpass>`: the window
`Eigen::Matrix<double, num_lowpass, 1>`. -/
structure lowpass (num_lowpass : Nat) (α : Type) where
  averagevector : Fin num_lowpass → α

section Defs

variable {α : Type} [LinearOrderedField α]

/-- What the code relies on from the mathematics library: the Pythagorean identity
for `cos` and `sin`, and `hypot x y` being the non-negative root of `x² + y²`. -/
def Libm.Sound (m : Libm α) : Prop :=
  (∀ h, m.cos h * m.cos h + m.sin h * m.sin h = 1) ∧
  (∀ x y, 0 ≤ m.hypot x y) ∧
  (∀ x y, m.hypot x y * m.hypot x y = x * x + y * y)

/-- Difference of two vectors (`point - center_`). -/
def Vector2d.sub (p q : Vector2d α) : Vector2d α := ⟨p.x - q.x, p.y - q.y⟩

/-- Sum of two vectors (`center_ + ...`). -/
def Vector2d.add (p q : Vector2d α) : Vector2d α := ⟨p.x + q.x, p.y + q.y⟩

/-- `Box2d::Local2Global`: rotation by the heading. -/
def Box2d.Local2Global (b : Box2d α) (local_coord : Vector2d α) : Vector2d α :=
  ⟨local_coord.x * b.cos_heading - local_coord.y * b.sin_heading,
   local_coord.x * b.sin_heading + local_coord.y * b.cos_heading⟩

/-- `Box2d::Global2Local`: inverse rotation by the heading. -/
def Box2d.Global2Local (b : Box2d α) (global_coord : Vector2d α) : Vector2d α :=
  ⟨global_coord.x * b.cos_heading + global_coord.y * b.sin_heading,
   -global_coord.x * b.sin_heading + global_coord.y * b.cos_heading⟩

/-- `Box2d::InitCorners`: the four corners in the fixed winding order and the
axis-aligned extents, `maxCoeff` and `minCoeff` of the rows of the corner matrix. -/
def Box2d.InitCorners (b : Box2d α) : Box2d α :=
  let c0 := b.center.add (b.Local2Global ⟨b.half_length, -b.half_width⟩)
  let c1 := b.center.add (b.Local2Global ⟨b.half_length, b.half_width⟩)
  let c2 := b.center.add (b.Local2Global ⟨-b.half_length, b.half_width⟩)
  let c3 := b.center.add (b.Local2Global ⟨-b.half_length, -b.half_width⟩)
  { b with
    corners := ⟨c0, c1, c2, c3⟩
    max_x := max (max (max c0.x c1.x) c2.x) c3.x
    min_x := min (min (min c0.x c1.x) c2.x) c3.x
    max_y := max (max (max c0.y c1.y) c2.y) c3.y
    min_y := min (min (min c0.y c1.y) c2.y) c3.y }

/-- The constructor `Box2d(center, heading, length, width)`. -/
def Box2d.new (m : Libm α) (center : Vector2d α) (heading length width : α) : Box2d α :=
  Box2d.InitCorners
    { center := center
      length := length
      width := width
      half_length := 0.5 * length
      half_width := 0.5 * width
      heading := heading
      cos_heading := m.cos heading
      sin_heading := m.sin heading
      max_x := 0
      min_x := 0
      max_y := 0
      min_y := 0
      corners := ⟨⟨0, 0⟩, ⟨0, 0⟩, ⟨0, 0⟩, ⟨0, 0⟩⟩ }

/-- `Box2d::IsPointIn`. -/
def Box2d.IsPointIn (eps : α) (b : Box2d α) (point : Vector2d α) : Bool :=
  let local_coord := b.Global2Local (point.sub b.center)
  let dx := |local_coord.x|
  let dy := |local_coord.y|
  decide (dx ≤ b.half_length + eps) && decide (dy ≤ b.half_width + eps)

/-- `Box2d::DistanceTo(const Eigen::Vector2d &)`. -/
def Box2d.DistanceTo_point (m : Libm α) (b : Box2d α) (point : Vector2d α) : α :=
  let local_coord := b.Global2Local (point.sub b.center)
  let dx := |local_coord.x| - b.half_length
  let dy := |local_coord.y| - b.half_width
  if dx ≤ 0 then max 0 dy
  else if dy ≤ 0 then dx
  else m.hypot dx dy

/-- `Box2d::HasOverlap(const Box2d &)`: the bounding-extent reject followed by the
projection test on the two heading axes of each box.  The arithmetic is exact here;
`Box2d.HasOverlap_box_rounded` has the rounding of the operations. -/
def Box2d.HasOverlap_box (a box : Box2d α) : Bool :=
  if box.max_x < a.min_x ∨ box.min_x > a.max_x ∨
      box.max_y < a.min_y ∨ box.min_y > a.max_y then false
  else
    let shift_x := box.center.x - a.center.x
    let shift_y := box.center.y - a.center.y
    let dx1 := a.cos_heading * a.half_length
    let dy1 := a.sin_heading * a.half_length
    let dx2 := a.sin_heading * a.half_width
    let dy2 := -a.cos_heading * a.half_width
    let dx3 := box.cos_heading * box.half_length
    let dy3 := box.sin_heading * box.half_length
    let dx4 := box.sin_heading * box.half_width
    let dy4 := -box.cos_heading * box.half_width
    decide (|shift_x * a.cos_heading + shift_y * a.sin_heading| ≤
        |dx3 * a.cos_heading + dy3 * a.sin_heading| +
          |dx4 * a.cos_heading + dy4 * a.sin_heading| + a.half_length) &&
    decide (|shift_x * a.sin_heading - shift_y * a.cos_heading| ≤
        |dx3 * a.sin_heading - dy3 * a.cos_heading| +
          |dx4 * a.sin_heading - dy4 * a.cos_heading| + a.half_width) &&
    decide (|shift_x * box.cos_heading + shift_y * box.sin_heading| ≤
        |dx1 * box.cos_heading + dy1 * box.sin_heading| +
          |dx2 * box.cos_heading + dy2 * box.sin_heading| + box.half_length) &&
    decide (|shift_x * box.sin_heading - shift_y * box.cos_heading| ≤
        |dx1 * box.sin_heading - dy1 * box.cos_heading| +
          |dx2 * box.sin_heading - dy2 * box.cos_heading| + box.half_width)

/-- Modelled from the spec: the constructor of a line segment from its two end
points; the derived length is the Euclidean norm of `end - start`. -/
def LineSegment2d.new (m : Libm α) (start end_ : Vector2d α) : LineSegment2d α :=
  { start := start
    end_ := end_
    length := m.hypot (end_.x - start.x) (end_.y - start.y) }

/-- Modelled from the spec: `CrossProd` is declared outside `box2d.h`; the spec's
`cross(query, dir)`, the planar cross product of `(x0, y0)` and `(x1, y1)`. -/
def CrossProd (x0 y0 x1 y1 : α) : α := x0 * y1 - x1 * y0

/-- Modelled from the spec: `InnerProd` is declared outside `box2d.h`; the spec's
`dot(query, dir)`, the inner product of `(x0, y0)` and `(x1, y1)`. -/
def InnerProd (x0 y0 x1 y1 : α) : α := x0 * x1 + y0 * y1

/-- Division of two doubles; a zero divisor has no result. -/
def checkedDiv (x y : α) : Option α := if y = 0 then none else some (x / y)

/-- `Box2d::PtSegDistance`.  The function reads no field of the box.  Its only
division, by `length`, is the last statement. -/
def PtSegDistance (m : Libm α) (query_x query_y start_x start_y end_x end_y length : α) :
    Option α :=
  let x0 := query_x - start_x
  let y0 := query_y - start_y
  let dx := end_x - start_x
  let dy := end_y - start_y
  let proj := InnerProd x0 y0 dx dy
  if proj ≤ 0 then some (m.hypot x0 y0)
  else if proj ≥ length * length then some (m.hypot (x0 - dx) (y0 - dy))
  else checkedDiv |CrossProd x0 y0 dx dy| length

/-- The region code of one local coordinate: `(v >= box ? 1 : (v <= -box ? -1 : 0))`. -/
def regionCode (v box : α) : Int := if v ≥ box then 1 else if v ≤ -box then -1 else 0

/-- `Box2d::DistanceTo(const LineSegment2d &)`.  The three conditional blocks that
negate the abscissas, negate the ordinates and exchange the axes are the three flags
`flip_x`, `flip_y` and `swap_xy`; the two `switch` statements on `gx2 * 3 + gy2`
are chains of tests on `k`, and a label that matches no case reaches the final
`return 0.0`. -/
def Box2d.DistanceTo_segment (m : Libm α) (eps : α) (b : Box2d α)
    (line_segment : LineSegment2d α) : Option α :=
  if line_segment.length ≤ eps then some (b.DistanceTo_point m line_segment.start)
  else
    let box_x := b.half_length
    let box_y := b.half_width
    let local_coord1 := b.Global2Local (line_segment.start.sub b.center)
    let x1 := local_coord1.x
    let y1 := local_coord1.y
    let gx1 := regionCode x1 box_x
    let gy1 := regionCode y1 box_y
    if gx1 = 0 ∧ gy1 = 0 then some 0
    else
      let local_coord2 := b.Global2Local (line_segment.end_.sub b.center)
      let x2 := local_coord2.x
      let y2 := local_coord2.y
      let gx2 := regionCode x2 box_x
      let gy2 := regionCode y2 box_y
      if gx2 = 0 ∧ gy2 = 0 then some 0
      else
        let flip_x : Bool := decide (gx1 < 0 ∨ (gx1 = 0 ∧ gx2 < 0))
        let x1 := if flip_x then -x1 else x1
        let gx1 := if flip_x then -gx1 else gx1
        let x2 := if flip_x then -x2 else x2
        let gx2 := if flip_x then -gx2 else gx2
        let flip_y : Bool := decide (gy1 < 0 ∨ (gy1 = 0 ∧ gy2 < 0))
        let y1 := if flip_y then -y1 else y1
        let gy1 := if flip_y then -gy1 else gy1
        let y2 := if flip_y then -y2 else y2
        let gy2 := if flip_y then -gy2 else gy2
        let swap_xy : Bool := decide (gx1 < gy1 ∨ (gx1 = gy1 ∧ gx2 < gy2))
        let sx1 := if swap_xy then y1 else x1
        let sy1 := if swap_xy then x1 else y1
        let sgx1 := if swap_xy then gy1 else gx1
        let sgy1 := if swap_xy then gx1 else gy1
        let sx2 := if swap_xy then y2 else x2
        let sy2 := if swap_xy then x2 else y2
        let sgx2 := if swap_xy then gy2 else gx2
        let sgy2 := if swap_xy then gx2 else gy2
        let sbox_x := if swap_xy then box_y else box_x
        let sbox_y := if swap_xy then box_x else box_y
        let k := sgx2 * 3 + sgy2
        let len := line_segment.length
        if sgx1 = 1 ∧ sgy1 = 1 then
          if k = 4 then PtSegDistance m sbox_x sbox_y sx1 sy1 sx2 sy2 len
          else if k = 3 then
            (if sx1 > sx2 then some (sx2 - sbox_x)
             else PtSegDistance m sbox_x sbox_y sx1 sy1 sx2 sy2 len)
          else if k = 2 then
            (if sx1 > sx2 then PtSegDistance m sbox_x (-sbox_y) sx1 sy1 sx2 sy2 len
             else PtSegDistance m sbox_x sbox_y sx1 sy1 sx2 sy2 len)
          else if k = -1 then
            (if CrossProd (sx2 - sx1) (sy2 - sy1) (sbox_x - sx1) (-sbox_y - sy1) ≥ 0 then some 0
             else PtSegDistance m sbox_x (-sbox_y) sx1 sy1 sx2 sy2 len)
          else if k = -4 then
            (if CrossProd (sx2 - sx1) (sy2 - sy1) (sbox_x - sx1) (-sbox_y - sy1) ≤ 0 then
               PtSegDistance m sbox_x (-sbox_y) sx1 sy1 sx2 sy2 len
             else if CrossProd (sx2 - sx1) (sy2 - sy1) (-sbox_x - sx1) (sbox_y - sy1) ≤ 0 then
               some 0
             else PtSegDistance m (-sbox_x) sbox_y sx1 sy1 sx2 sy2 len)
          else some 0
        else
          if k = 4 then
            (if sx1 < sx2 then some (sx1 - sbox_x)
             else PtSegDistance m sbox_x sbox_y sx1 sy1 sx2 sy2 len)
          else if k = 3 then some (min sx1 sx2 - sbox_x)
          else if k = 1 ∨ k = -2 then
            (if CrossProd (sx2 - sx1) (sy2 - sy1) (sbox_x - sx1) (sbox_y - sy1) ≤ 0 then some 0
             else PtSegDistance m sbox_x sbox_y sx1 sy1 sx2 sy2 len)
          else if k = -3 then some 0
          else some 0

/-- `Box2d::DistanceTo(const Box2d &)`: the running minimum starts at `+infinity`
(the top element) and takes in the distances to the edges 0-1, 1-2, 2-3 (the loop)
and 3-0 of the other box. -/
def Box2d.DistanceTo_box (m : Libm α) (eps : α) (b other_box : Box2d α) :
    Option (WithTop α) := do
  let distance : WithTop α := ⊤
  let other_corners := other_box.corners
  let d0 ← b.DistanceTo_segment m eps (LineSegment2d.new m other_corners.col0 other_corners.col1)
  let distance := min distance (d0 : WithTop α)
  let d1 ← b.DistanceTo_segment m eps (LineSegment2d.new m other_corners.col1 other_corners.col2)
  let distance := min distance (d1 : WithTop α)
  let d2 ← b.DistanceTo_segment m eps (LineSegment2d.new m other_corners.col2 other_corners.col3)
  let distance := min distance (d2 : WithTop α)
  let d3 ← b.DistanceTo_segment m eps (LineSegment2d.new m other_corners.col3 other_corners.col0)
  let distance := min distance (d3 : WithTop α)
  pure distance

/-- The closed rectangle of a box: the points whose box-local coordinates are within
the half-length and the half-width. -/
def Box2d.Contains (b : Box2d α) (p : Vector2d α) : Prop :=
  |(b.Global2Local (p.sub b.center)).x| ≤ b.half_length ∧
  |(b.Global2Local (p.sub b.center)).y| ≤ b.half_width

/-- The two `switch` statements of `DistanceTo(segment)` as a function of the normalised
coordinates and region codes: the last part of `Box2d.DistanceTo_segment`, named so that
the region cases can be stated one by one (`DistanceTo_segment_eq` ties the two). -/
def segCases (m : Libm α) (sbox_x sbox_y sx1 sy1 : α) (sgx1 sgy1 : Int) (sx2 sy2 : α)
    (sgx2 sgy2 : Int) (len : α) : Option α :=
  let k := sgx2 * 3 + sgy2
  if sgx1 = 1 ∧ sgy1 = 1 then
    if k = 4 then PtSegDistance m sbox_x sbox_y sx1 sy1 sx2 sy2 len
    else if k = 3 then
      (if sx1 > sx2 then some (sx2 - sbox_x)
       else PtSegDistance m sbox_x sbox_y sx1 sy1 sx2 sy2 len)
    else if k = 2 then
      (if sx1 > sx2 then PtSegDistance m sbox_x (-sbox_y) sx1 sy1 sx2 sy2 len
       else PtSegDistance m sbox_x sbox_y sx1 sy1 sx2 sy2 len)
    else if k = -1 then
      (if CrossProd (sx2 - sx1) (sy2 - sy1) (sbox_x - sx1) (-sbox_y - sy1) ≥ 0 then some 0
       else PtSegDistance m sbox_x (-sbox_y) sx1 sy1 sx2 sy2 len)
    else if k = -4 then
      (if CrossProd (sx2 - sx1) (sy2 - sy1) (sbox_x - sx1) (-sbox_y - sy1) ≤ 0 then
         PtSegDistance m sbox_x (-sbox_y) sx1 sy1 sx2 sy2 len
       else if CrossProd (sx2 - sx1) (sy2 - sy1) (-sbox_x - sx1) (sbox_y - sy1) ≤ 0 then
         some 0
       else PtSegDistance m (-sbox_x) sbox_y sx1 sy1 sx2 sy2 len)
    else some 0
  else
    if k = 4 then
      (if sx1 < sx2 then some (sx1 - sbox_x)
       else PtSegDistance m sbox_x sbox_y sx1 sy1 sx2 sy2 len)
    else if k = 3 then some (min sx1 sx2 - sbox_x)
    else if k = 1 ∨ k = -2 then
      (if CrossProd (sx2 - sx1) (sy2 - sy1) (sbox_x - sx1) (sbox_y - sy1) ≤ 0 then some 0
       else PtSegDistance m sbox_x sbox_y sx1 sy1 sx2 sy2 len)
    else if k = -3 then some 0
    else some 0

/-- The part of `Box2d.DistanceTo_segment` after the early return, as a function of the
local coordinates of the two end points (`DistanceTo_segment_eq` ties the two). -/
def segLocal (m : Libm α) (box_x box_y x1 y1 x2 y2 len : α) : Option α :=
  let gx1 := regionCode x1 box_x
  let gy1 := regionCode y1 box_y
  let gx2 := regionCode x2 box_x
  let gy2 := regionCode y2 box_y
  if gx1 = 0 ∧ gy1 = 0 then some 0
  else if gx2 = 0 ∧ gy2 = 0 then some 0
  else
    let flip_x : Bool := decide (gx1 < 0 ∨ (gx1 = 0 ∧ gx2 < 0))
    let fgx1 := if flip_x then -gx1 else gx1
    let fgx2 := if flip_x then -gx2 else gx2
    let flip_y : Bool := decide (gy1 < 0 ∨ (gy1 = 0 ∧ gy2 < 0))
    let fgy1 := if flip_y then -gy1 else gy1
    let fgy2 := if flip_y then -gy2 else gy2
    let swap_xy : Bool := decide (fgx1 < fgy1 ∨ (fgx1 = fgy1 ∧ fgx2 < fgy2))
    segCases m (if swap_xy then box_y else box_x) (if swap_xy then box_x else box_y)
      (if swap_xy then (if flip_y then -y1 else y1) else (if flip_x then -x1 else x1))
      (if swap_xy then (if flip_x then -x1 else x1) else (if flip_y then -y1 else y1))
      (if swap_xy then fgy1 else fgx1) (if swap_xy then fgx1 else fgy1)
      (if swap_xy then (if flip_y then -y2 else y2) else (if flip_x then -x2 else x2))
      (if swap_xy then (if flip_x then -x2 else x2) else (if flip_y then -y2 else y2))
      (if swap_xy then fgy2 else fgx2) (if swap_xy then fgx2 else fgy2) len

/-- `Box2d::IsPointOnBoundary`. -/
def Box2d.IsPointOnBoundary (eps : α) (b : Box2d α) (point : Vector2d α) : Bool :=
  let local_coord := b.Global2Local (point.sub b.center)
  let dx := |local_coord.x|
  let dy := |local_coord.y|
  (decide (|dx - b.half_length| ≤ eps) && decide (dy ≤ b.half_width + eps)) ||
    (decide (|dy - b.half_width| ≤ eps) && decide (dx ≤ b.half_length + eps))

/-- `Box2d::GetSmallestAABox`, in exact arithmetic (`Box2d.GetSmallestAABox_rounded` has the
rounding of the operations). -/
def Box2d.GetSmallestAABox (b : Box2d α) : AABox2d α :=
  let dx1 := |b.cos_heading * b.half_length|
  let dy1 := |b.sin_heading * b.half_length|
  let dx2 := |b.sin_heading * b.half_width|
  let dy2 := |b.cos_heading * b.half_width|
  ⟨b.center, (dx1 + dx2) * 2.0, (dy1 + dy2) * 2.0⟩

/-- `Box2d::RotateFromCenter`.  `Normalizeheadingangle` is declared outside `box2d.h`
and is a parameter here. -/
def Box2d.RotateFromCenter (m : Libm α) (Normalizeheadingangle : α → α) (b : Box2d α)
    (rotate_angle : α) : Box2d α :=
  let heading := Normalizeheadingangle (b.heading + rotate_angle)
  Box2d.InitCorners
    { b with heading := heading, cos_heading := m.cos heading, sin_heading := m.sin heading }

/-- `Box2d::Shift`, in exact arithmetic (`Box2d.Shift_rounded` has the rounding of the
operations). -/
def Box2d.Shift (b : Box2d α) (shift_vec : Vector2d α) : Box2d α :=
  Box2d.InitCorners { b with center := b.center.add shift_vec }

/-- `Box2d::LongitudinalExtend`. -/
def Box2d.LongitudinalExtend (b : Box2d α) (extension_length : α) : Box2d α :=
  let length := b.length + extension_length
  Box2d.InitCorners { b with length := length, half_length := 0.5 * length }

/-- `Box2d::LateralExtend`. -/
def Box2d.LateralExtend (b : Box2d α) (extension_width : α) : Box2d α :=
  let width := b.width + extension_width
  Box2d.InitCorners { b with width := width, half_width := 0.5 * width }

/-- One call of a mutator on a box. -/
def Box2d.mutate (m : Libm α) (Normalizeheadingangle : α → α) (b : Box2d α) :
    Mutator α → Box2d α
  | Mutator.RotateFromCenter rotate_angle => b.RotateFromCenter m Normalizeheadingangle rotate_angle
  | Mutator.Shift shift_vec => b.Shift shift_vec
  | Mutator.LongitudinalExtend extension_length => b.LongitudinalExtend extension_length
  | Mutator.LateralExtend extension_width => b.LateralExtend extension_width

/-- The image of the box-local point `(lx, ly)`: the centre plus the rotation of the
point by the heading of the box. -/
def Box2d.cornerAt (m : Libm α) (b : Box2d α) (lx ly : α) : Vector2d α :=
  ⟨b.center.x + (lx * m.cos b.heading - ly * m.sin b.heading),
   b.center.y + (lx * m.sin b.heading + ly * m.cos b.heading)⟩

/-- The consistency of the derived fields of a box with its centre, heading, length and
width: the half extents, the cached cosine and sine, the four corners in their winding
order and the axis-aligned extents as the greatest and least corner coordinates. -/
def Box2d.Consistent (m : Libm α) (b : Box2d α) : Prop :=
  b.half_length = b.length / 2 ∧ b.half_width = b.width / 2 ∧
  b.cos_heading = m.cos b.heading ∧ b.sin_heading = m.sin b.heading ∧
  b.corners.col0 = b.cornerAt m (b.length / 2) (-(b.width / 2)) ∧
  b.corners.col1 = b.cornerAt m (b.length / 2) (b.width / 2) ∧
  b.corners.col2 = b.cornerAt m (-(b.length / 2)) (b.width / 2) ∧
  b.corners.col3 = b.cornerAt m (-(b.length / 2)) (-(b.width / 2)) ∧
  b.max_x = max (max (max b.corners.col0.x b.corners.col1.x) b.corners.col2.x) b.corners.col3.x ∧
  b.min_x = min (min (min b.corners.col0.x b.corners.col1.x) b.corners.col2.x) b.corners.col3.x ∧
  b.max_y = max (max (max b.corners.col0.y b.corners.col1.y) b.corners.col2.y) b.corners.col3.y ∧
  b.min_y = min (min (min b.corners.col0.y b.corners.col1.y) b.corners.col2.y) b.corners.col3.y

/-- The assignment `cost_map[i][j] = v`. -/
def SearchConfig.setCost (searchconfig : SearchConfig α) (i j : Fin 6) (v : α) :
    SearchConfig α :=
  { searchconfig with
    cost_map := fun p n => if p = i ∧ n = j then v else searchconfig.cost_map p n }

/-- `HybridAStar::GenerateSearchConfig`.  The local `SearchConfig searchconfig;` starts
with whatever its default construction leaves in it: the first argument.  The arithmetic
is exact here; `GenerateSearchConfig_rounded` has the rounding of the products. -/
def GenerateSearchConfig (searchconfig : SearchConfig α) (collisiondata : CollisionData α)
    (hybridastarconfig : HybridAStarConfig α) : SearchConfig α :=
  let L := hybridastarconfig.move_length
  let Ct := hybridastarconfig.penalty_turning
  let Cr := hybridastarconfig.penalty_reverse
  let Cs := hybridastarconfig.penalty_switch
  let searchconfig := { searchconfig with move_length := L }
  let searchconfig := { searchconfig with turning_angle := L * collisiondata.MAX_CURVATURE }
  let searchconfig := ([0, 1, 2] : List (Fin 6)).foldl (fun searchconfig i =>
    let searchconfig := ([0, 1, 2] : List (Fin 6)).foldl (fun searchconfig j =>
      if i = j then searchconfig.setCost i j L
      else searchconfig.setCost i j (L * Ct)) searchconfig
    ([3, 4, 5] : List (Fin 6)).foldl (fun searchconfig j =>
      searchconfig.setCost i j (L * Ct * Cr * Cs)) searchconfig) searchconfig
  let searchconfig := ([3, 4, 5] : List (Fin 6)).foldl (fun searchconfig i =>
    let searchconfig := ([0, 1, 2] : List (Fin 6)).foldl (fun searchconfig j =>
      searchconfig.setCost i j (L * Ct * Cs)) searchconfig
    ([3, 4, 5] : List (Fin 6)).foldl (fun searchconfig j =>
      if i = j then searchconfig.setCost i j (L * Cr)
      else searchconfig.setCost i j (L * Cr * Ct)) searchconfig) searchconfig
  searchconfig

/-- The penalty rule written as a comment in `HybridAStar::GetCost`, with `dx[0]` the
step length: the cost of the motion type `prim` after the motion type `pred`. -/
def referenceCost (L Ct Cr Cs : α) (pred prim : Fin 6) : α :=
  if prim < 3 then
    (if pred ≠ prim then (if pred > 2 then L * Ct * Cs else L * Ct) else L)
  else
    (if pred ≠ prim then (if pred < 3 then L * Ct * Cr * Cs else L * Ct * Cr) else L * Cr)

/-- The assignment `movement_step(r, c) = v`. -/
def setEntry (movement_step : Fin 3 → Fin 6 → α) (r : Fin 3) (c : Fin 6) (v : α) :
    Fin 3 → Fin 6 → α :=
  fun i j => if i = r ∧ j = c then v else movement_step i j

/-- `HybridAStar::update_movement_step`: the 3×6 matrix whose column `c` is the step
`(dx, dy, dtheta)` of the motion type `c`.  The two divisions by `varphi` have no result
when `varphi` is zero. -/
def update_movement_step (m : Libm α) (L varphi theta : α) : Option (Fin 3 → Fin 6 → α) := do
  let movement_step : Fin 3 → Fin 6 → α := fun _ _ => 0
  let L_cos_theta := L * m.cos theta
  let L_sin_theta := L * m.sin theta
  let sin_varphi ← checkedDiv (m.sin varphi) varphi
  let one_cos_varphi ← checkedDiv (1.0 - m.cos varphi) varphi
  let movement_step := setEntry movement_step 0 0 L_cos_theta
  let movement_step := setEntry movement_step 1 0 L_sin_theta
  let movement_step := setEntry movement_step 2 0 0
  let movement_step := setEntry movement_step 0 1
    (L_cos_theta * sin_varphi - L_sin_theta * one_cos_varphi)
  let movement_step := setEntry movement_step 1 1
    (L_sin_theta * sin_varphi + L_cos_theta * one_cos_varphi)
  let movement_step := setEntry movement_step 2 1 varphi
  let movement_step := setEntry movement_step 0 2
    (L_cos_theta * sin_varphi + L_sin_theta * one_cos_varphi)
  let movement_step := setEntry movement_step 1 2
    (L_sin_theta * sin_varphi - L_cos_theta * one_cos_varphi)
  let movement_step := setEntry movement_step 2 2 (-varphi)
  let movement_step := ([3, 4, 5] : List (Fin 6)).foldl (fun movement_step i =>
    let movement_step := setEntry movement_step 0 i (-movement_step 0 (i - 3))
    let movement_step := setEntry movement_step 1 i (-movement_step 1 (i - 3))
    setEntry movement_step 2 i (movement_step 2 (i - 3))) movement_step
  pure movement_step

/-- The integer value of an enumerator of `MovementType`. -/
def MovementType.val : MovementType → Fin 6
  | MovementType.STRAIGHT_FORWARD => 0
  | MovementType.LEFTTURN_FORWARD => 1
  | MovementType.RIGHTTURN_FORWARD => 2
  | MovementType.STRAIGHT_REVERSE => 3
  | MovementType.RIGHTTURN_REVERSE => 4
  | MovementType.LEFTTURN_REVERSE => 5

/-- `HybridState4DNode::GoalDistanceEstimate`, in exact arithmetic
(`HybridState4DNode.GoalDistanceEstimate_rounded` has the rounding of the operations). -/
def HybridState4DNode.GoalDistanceEstimate (n nodeGoal : HybridState4DNode α) : α :=
  (n.x_ - nodeGoal.x_) * (n.x_ - nodeGoal.x_) + (n.y_ - nodeGoal.y_) * (n.y_ - nodeGoal.y_)

/-- `HybridState4DNode::IsGoal`. -/
def HybridState4DNode.IsGoal (m : Libm α) (n nodeGoal : HybridState4DNode α) : Bool :=
  if m.hypot (n.x_ - nodeGoal.x_) (n.y_ - nodeGoal.y_) < 0.1 then true else false

/-- `HybridState4DNode::GetCost`: what is left of the function outside its comments. -/
def HybridState4DNode.GetCost (n successor : HybridState4DNode α) : α :=
  (successor.x_ - n.x_) * (successor.x_ - n.x_) + (successor.y_ - n.y_) * (successor.y_ - n.y_)

/-- The constant `_MAP_WIDTH` of `GetMap`. -/
def _MAP_WIDTH : Int := 20

/-- The constant `_MAP_HEIGHT` of `GetMap`. -/
def _MAP_HEIGHT : Int := 30

/-- The table `world_map` of `GetMap`, row by row. -/
def world_map : List Int := [
    -- 00 01 02 03 04 05 06 07 08 09 10 11 12 13 14 15 16 17 18 19
    1, 1, 1, 1, 1, 1, 1, 1, 1, 1, 1, 1, 1, 1, 1, 1, 1, 1, 1, 1,   -- 00
    1, 1, 1, 1, 1, 1, 1, 1, 1, 1, 1, 1, 1, 1, 1, 1, 1, 9, 9, 1,   -- 01
    1, 1, 1, 1, 9, 1, 1, 1, 1, 1, 1, 1, 1, 1, 9, 1, 1, 9, 1, 1,   -- 02
    1, 1, 1, 1, 9, 1, 1, 1, 1, 1, 1, 1, 1, 1, 9, 1, 1, 9, 1, 1,   -- 03
    1, 1, 1, 1, 9, 1, 1, 1, 1, 1, 1, 1, 1, 1, 9, 1, 1, 9, 1, 1,   -- 04
    1, 1, 1, 1, 9, 1, 1, 1, 1, 1, 1, 1, 1, 1, 9, 1, 1, 1, 1, 1,   -- 05
    1, 1, 1, 1, 9, 1, 1, 1, 1, 1, 1, 1, 1, 1, 9, 1, 1, 1, 1, 1,   -- 06
    1, 1, 1, 1, 9, 1, 1, 1, 1, 1, 1, 1, 1, 1, 9, 1, 1, 9, 9, 1,   -- 07
    1, 1, 1, 1, 9, 1, 1, 1, 1, 1, 1, 1, 1, 1, 9, 1, 1, 1, 1, 1,   -- 08
    1, 1, 1, 1, 9, 1, 1, 1, 1, 1, 9, 1, 1, 1, 9, 1, 1, 9, 9, 1,   -- 09
    1, 1, 1, 1, 9, 1, 1, 1, 1, 1, 1, 1, 1, 1, 9, 1, 1, 1, 1, 1,   -- 10
    1, 1, 1, 1, 9, 1, 1, 1, 1, 1, 1, 1, 1, 1, 9, 1, 1, 1, 1, 1,   -- 11
    1, 1, 1, 1, 9, 1, 1, 1, 1, 1, 1, 1, 1, 1, 9, 1, 1, 9, 1, 1,   -- 12
    1, 1, 1, 1, 9, 1, 1, 1, 1, 1, 1, 1, 1, 1, 9, 1, 1, 9, 1, 1,   -- 13
    1, 1, 1, 1, 9, 1, 1, 1, 1, 1, 1, 1, 1, 1, 9, 1, 1, 9, 1, 1,   -- 14
    1, 1, 1, 1, 9, 1, 1, 1, 1, 1, 1, 1, 1, 1, 9, 1, 1, 1, 1, 1,   -- 15
    1, 1, 1, 1, 9, 1, 1, 1, 1, 1, 1, 1, 9, 9, 9, 1, 1, 1, 1, 1,   -- 16
    1, 1, 1, 1, 9, 9, 9, 9, 9, 9, 9, 9, 9, 9, 9, 1, 1, 9, 9, 9,   -- 17
    1, 9, 1, 1, 1, 1, 1, 1, 1, 1, 1, 9, 1, 1, 1, 1, 1, 1, 1, 1,   -- 18
    1, 9, 1, 1, 1, 1, 1, 1, 1, 1, 1, 9, 1, 1, 1, 1, 1, 1, 9, 1,   -- 19
    1, 9, 1, 1, 1, 1, 1, 1, 1, 1, 1, 9, 1, 1, 1, 1, 9, 9, 9, 1,   -- 20
    1, 9, 1, 1, 1, 1, 1, 1, 1, 1, 1, 9, 1, 1, 1, 1, 1, 1, 1, 1,   -- 21
    9, 9, 9, 9, 9, 9, 1, 1, 1, 1, 9, 9, 9, 9, 9, 9, 9, 1, 1, 1,   -- 22
    1, 1, 9, 1, 1, 1, 1, 9, 9, 9, 9, 1, 1, 9, 1, 1, 1, 1, 1, 1,   -- 23
    1, 1, 9, 1, 1, 1, 1, 9, 1, 1, 1, 1, 1, 1, 1, 1, 1, 1, 1, 1,   -- 24
    1, 9, 9, 9, 1, 1, 1, 9, 1, 1, 1, 1, 1, 1, 1, 1, 1, 1, 9, 1,   -- 25
    1, 1, 9, 1, 1, 1, 1, 9, 9, 9, 9, 9, 9, 9, 9, 1, 1, 1, 9, 1,   -- 26
    1, 1, 9, 1, 1, 1, 1, 9, 1, 1, 1, 1, 1, 1, 1, 1, 1, 1, 9, 1,   -- 27
    1, 1, 1, 1, 1, 1, 1, 9, 9, 9, 9, 9, 9, 1, 1, 1, 1, 1, 9, 1,   -- 28
    1, 1, 1, 1, 1, 1, 1, 1, 1, 1, 1, 1, 1, 1, 1, 1, 1, 1, 1, 1    -- 29
  ]

/-- `HybridState4DNode::GetMap`. -/
def GetMap (x y : Int) : Int :=
  if x < 0 ∨ x ≥ _MAP_WIDTH ∨ y < 0 ∨ y ≥ _MAP_HEIGHT then 9
  else world_map.getD ((y * _MAP_WIDTH) + x).toNat 0

/-- A value of type `int`: an integer outside the 32-bit range is no `int` (the
arithmetic that would produce it is undefined). -/
def int32 (z : Int) : Option Int :=
  if -2147483648 ≤ z ∧ z ≤ 2147483647 then some z else none

/-- `static_cast<int>` of a floating-point number: truncation toward zero. -/
def static_cast_int [FloorRing α] (x : α) : Option Int :=
  int32 (if 0 ≤ x then ⌊x⌋ else ⌈x⌉)

/-- `HybridState4DNode::GetSuccessors`: the nodes handed to `AddSuccessor`, in order.
The cost matrix is only printed, and `parent_x`, `parent_y` are assigned and not read, so
neither the search configuration nor the parent node is an argument.  The matrix
`move_step` is computed and not read. -/
def HybridState4DNode.GetSuccessors [FloorRing α] (m : Libm α) (n : HybridState4DNode α) :
    Option (List (HybridState4DNode α)) := do
  let L : α := 1
  let max_turn : α := 0.2
  let _move_step ← update_movement_step m L max_turn n.theta_
  let x_int ← static_cast_int n.x_
  let y_int ← static_cast_int n.y_
  let successors : List (HybridState4DNode α) := []
  let x_minus ← int32 (x_int - 1)
  let successors :=
    if GetMap x_minus y_int < 9 then
      successors ++ [⟨(x_minus : α), (y_int : α), 0, MovementType.STRAIGHT_FORWARD⟩]
    else successors
  let y_minus ← int32 (y_int - 1)
  let successors :=
    if GetMap x_int y_minus < 9 then
      successors ++ [⟨(x_int : α), (y_minus : α), 0, MovementType.STRAIGHT_FORWARD⟩]
    else successors
  let x_plus ← int32 (x_int + 1)
  let successors :=
    if GetMap x_plus y_int < 9 then
      successors ++ [⟨(x_plus : α), (y_int : α), 0, MovementType.STRAIGHT_FORWARD⟩]
    else successors
  let y_plus ← int32 (y_int + 1)
  let successors :=
    if GetMap x_int y_plus < 9 then
      successors ++ [⟨(x_int : α), (y_plus : α), 0, MovementType.STRAIGHT_FORWARD⟩]
    else successors
  pure successors

/-- The cost of a path: the sum of `GetCost` over its consecutive pairs of nodes. -/
def pathCost : List (HybridState4DNode α) → α
  | [] => 0
  | [_] => 0
  | a :: b :: rest => a.GetCost b + pathCost (b :: rest)

/-- `OpenSpacePlanner::GenerateTrajectory`.  The calls into the members are the three
function arguments: `search` is `perform_4dnode_search`, `trajectory` is
`hybridastar_trajecotry` and `smooth` is `SetupCoarsePath` followed by
`PerformSmoothing(...).smooth_path()`.  A `push_back` appends at the end. -/
def OpenSpacePlanner.GenerateTrajectory {κ β : Type} (search : κ → κ)
    (trajectory : κ → List (α × α × α × β))
    (smooth : κ → List (α × α × α × β) → κ × List (List (SmoothState α)))
    (p : OpenSpacePlanner κ α) : OpenSpacePlanner κ α :=
  let components := search p.components
  let coarse_path_direction := trajectory components
  let coarse_path_ : List (α × α × α) := []
  let coarse_path_ := coarse_path_direction.foldl
    (fun coarse_path_ value => coarse_path_ ++ [(value.1, value.2.1, value.2.2.1)]) coarse_path_
  let smoothed := smooth components coarse_path_direction
  let p_smooth_path := smoothed.2
  let fine_path_ : List (α × α × α) := []
  let fine_path_ := p_smooth_path.foldl
    (fun fine_path_ segment =>
      segment.foldl (fun fine_path_ state => fine_path_ ++ [(state.x, state.y, 0)]) fine_path_)
    fine_path_
  { components := smoothed.1, coarse_path_ := coarse_path_, fine_path_ := fine_path_ }

/-- The region codes of the two end points after the three normalisation blocks of
`DistanceTo(segment)` (negate the abscissas, negate the ordinates, exchange the axes), as
in `segLocal`: `(gx1, gy1, gx2, gy2)`. -/
def normCodes (gx1 gy1 gx2 gy2 : Int) : Int × Int × Int × Int :=
  let flip_x : Bool := decide (gx1 < 0 ∨ (gx1 = 0 ∧ gx2 < 0))
  let fgx1 := if flip_x then -gx1 else gx1
  let fgx2 := if flip_x then -gx2 else gx2
  let flip_y : Bool := decide (gy1 < 0 ∨ (gy1 = 0 ∧ gy2 < 0))
  let fgy1 := if flip_y then -gy1 else gy1
  let fgy2 := if flip_y then -gy2 else gy2
  let swap_xy : Bool := decide (fgx1 < fgy1 ∨ (fgx1 = fgy1 ∧ fgx2 < fgy2))
  (if swap_xy then fgy1 else fgx1, if swap_xy then fgx1 else fgy1,
    if swap_xy then fgy2 else fgx2, if swap_xy then fgx2 else fgy2)

/-- The `case` label taken in the `switch` on `gx2 * 3 + gy2` that the normalised codes
enter; no value when no label of that `switch` matches, which is when control reaches
the final `return 0.0` after the comment `unimplemented state`. -/
def caseLabel (gx1 gy1 gx2 gy2 : Int) : Option Int :=
  let k := gx2 * 3 + gy2
  if gx1 = 1 ∧ gy1 = 1 then
    if k = 4 ∨ k = 3 ∨ k = 2 ∨ k = -1 ∨ k = -4 then some k else none
  else
    if k = 4 ∨ k = 3 ∨ k = 1 ∨ k = -2 ∨ k = -3 then some k else none

/-- The node `b` is one of the successors that `GetSuccessors` produces from `a`. -/
def HybridState4DNode.IsSuccessor [FloorRing α] (m : Libm α) (a b : HybridState4DNode α) :
    Prop :=
  ∃ successors, a.GetSuccessors m = some successors ∧ b ∈ successors

/-- The two `switch` statements of `DistanceTo(segment)` as in `segCases`, with the value
of the final `return 0.0`, reached when no `case` label matches, as the argument `dflt`
(the last return of each chain of tests). -/
def segCasesOr (m : Libm α) (dflt : Option α) (sbox_x sbox_y sx1 sy1 : α) (sgx1 sgy1 : Int)
    (sx2 sy2 : α) (sgx2 sgy2 : Int) (len : α) : Option α :=
  let k := sgx2 * 3 + sgy2
  if sgx1 = 1 ∧ sgy1 = 1 then
    if k = 4 then PtSegDistance m sbox_x sbox_y sx1 sy1 sx2 sy2 len
    else if k = 3 then
      (if sx1 > sx2 then some (sx2 - sbox_x)
       else PtSegDistance m sbox_x sbox_y sx1 sy1 sx2 sy2 len)
    else if k = 2 then
      (if sx1 > sx2 then PtSegDistance m sbox_x (-sbox_y) sx1 sy1 sx2 sy2 len
       else PtSegDistance m sbox_x sbox_y sx1 sy1 sx2 sy2 len)
    else if k = -1 then
      (if CrossProd (sx2 - sx1) (sy2 - sy1) (sbox_x - sx1) (-sbox_y - sy1) ≥ 0 then some 0
       else PtSegDistance m sbox_x (-sbox_y) sx1 sy1 sx2 sy2 len)
    else if k = -4 then
      (if CrossProd (sx2 - sx1) (sy2 - sy1) (sbox_x - sx1) (-sbox_y - sy1) ≤ 0 then
         PtSegDistance m sbox_x (-sbox_y) sx1 sy1 sx2 sy2 len
       else if CrossProd (sx2 - sx1) (sy2 - sy1) (-sbox_x - sx1) (sbox_y - sy1) ≤ 0 then
         some 0
       else PtSegDistance m (-sbox_x) sbox_y sx1 sy1 sx2 sy2 len)
    else dflt
  else
    if k = 4 then
      (if sx1 < sx2 then some (sx1 - sbox_x)
       else PtSegDistance m sbox_x sbox_y sx1 sy1 sx2 sy2 len)
    else if k = 3 then some (min sx1 sx2 - sbox_x)
    else if k = 1 ∨ k = -2 then
      (if CrossProd (sx2 - sx1) (sy2 - sy1) (sbox_x - sx1) (sbox_y - sy1) ≤ 0 then some 0
       else PtSegDistance m sbox_x sbox_y sx1 sy1 sx2 sy2 len)
    else if k = -3 then some 0
    else dflt

/-- The constructor `lowpass()`: the window is zero. -/
def lowpass.new (num_lowpass : Nat) : lowpass num_lowpass α :=
  { averagevector := fun _ => 0 }

/-- `lowpass::setaveragevector`. -/
def lowpass.setaveragevector {num_lowpass : Nat} (_lp : lowpass num_lowpass α)
    (_initialvalue : α) : lowpass num_lowpass α :=
  { averagevector := fun _ => _initialvalue }

/-- Rounding to the nearest integer, a tie going to the even neighbour. -/
def roundHalfEven [FloorRing α] (x : α) : Int :=
  if x - ⌊x⌋ < 1 / 2 then ⌊x⌋
  else if 1 / 2 < x - ⌊x⌋ then ⌊x⌋ + 1
  else if ⌊x⌋ % 2 = 0 then ⌊x⌋ else ⌊x⌋ + 1

/-- Rounding to the binary floating-point format of IEEE 754 with `p` binary digits and
least normal exponent `emin`: to the nearest multiple of the quantum `2 ^ (e - (p - 1))`,
where `e` is the binary exponent of `x`, and `emin` if that is less (the subnormal
numbers), a tie going to the even multiple.  Overflow to infinity is left out. -/
def roundToFormat [FloorRing α] (p : Nat) (emin : Int) (x : α) : α :=
  let e := max (Int.log 2 |x|) emin
  let quantum : α := 2 ^ (e - ((p : Int) - 1))
  (roundHalfEven (x / quantum) : α) * quantum

/-- The rounding of the arithmetic of `double` (binary64): an operation on two numbers of
the format returns `binary64` of its exact result. -/
def binary64 [FloorRing α] (x : α) : α := roundToFormat 53 (-1022) x

/-- The rounding of the arithmetic of `float` (binary32). -/
def binary32 [FloorRing α] (x : α) : α := roundToFormat 24 (-126) x

/-- `center_ + ...` in the arithmetic of `double`: each coordinate of the sum is rounded. -/
def Vector2d.add_rounded (rnd : α → α) (p q : Vector2d α) : Vector2d α :=
  ⟨rnd (p.x + q.x), rnd (p.y + q.y)⟩

/-- `Box2d::Local2Global` in the arithmetic of `double`: every product and every sum or
difference is rounded by `rnd`. -/
def Box2d.Local2Global_rounded (rnd : α → α) (b : Box2d α) (local_coord : Vector2d α) :
    Vector2d α :=
  ⟨rnd (rnd (local_coord.x * b.cos_heading) - rnd (local_coord.y * b.sin_heading)),
   rnd (rnd (local_coord.x * b.sin_heading) + rnd (local_coord.y * b.cos_heading))⟩

/-- `Box2d::InitCorners` in the arithmetic of `double`.  Negation, `maxCoeff` and `minCoeff`
do not round. -/
def Box2d.InitCorners_rounded (rnd : α → α) (b : Box2d α) : Box2d α :=
  let c0 := b.center.add_rounded rnd (b.Local2Global_rounded rnd ⟨b.half_length, -b.half_width⟩)
  let c1 := b.center.add_rounded rnd (b.Local2Global_rounded rnd ⟨b.half_length, b.half_width⟩)
  let c2 := b.center.add_rounded rnd (b.Local2Global_rounded rnd ⟨-b.half_length, b.half_width⟩)
  let c3 := b.center.add_rounded rnd (b.Local2Global_rounded rnd ⟨-b.half_length, -b.half_width⟩)
  { b with
    corners := ⟨c0, c1, c2, c3⟩
    max_x := max (max (max c0.x c1.x) c2.x) c3.x
    min_x := min (min (min c0.x c1.x) c2.x) c3.x
    max_y := max (max (max c0.y c1.y) c2.y) c3.y
    min_y := min (min (min c0.y c1.y) c2.y) c3.y }

/-- The constructor `Box2d(center, heading, length, width)` in the arithmetic of `double`. -/
def Box2d.new_rounded (rnd : α → α) (m : Libm α) (center : Vector2d α)
    (heading length width : α) : Box2d α :=
  Box2d.InitCorners_rounded rnd
    { center := center
      length := length
      width := width
      half_length := rnd (0.5 * length)
      half_width := rnd (0.5 * width)
      heading := heading
      cos_heading := m.cos heading
      sin_heading := m.sin heading
      max_x := 0
      min_x := 0
      max_y := 0
      min_y := 0
      corners := ⟨⟨0, 0⟩, ⟨0, 0⟩, ⟨0, 0⟩, ⟨0, 0⟩⟩ }

/-- `Box2d::HasOverlap(const Box2d &)` in the arithmetic of `double`: every product, sum and
difference of the test is rounded by `rnd`; negation, `std::abs` and the comparisons do not
round. -/
def Box2d.HasOverlap_box_rounded (rnd : α → α) (a box : Box2d α) : Bool :=
  if box.max_x < a.min_x ∨ box.min_x > a.max_x ∨
      box.max_y < a.min_y ∨ box.min_y > a.max_y then false
  else
    let shift_x := rnd (box.center.x - a.center.x)
    let shift_y := rnd (box.center.y - a.center.y)
    let dx1 := rnd (a.cos_heading * a.half_length)
    let dy1 := rnd (a.sin_heading * a.half_length)
    let dx2 := rnd (a.sin_heading * a.half_width)
    let dy2 := rnd (-a.cos_heading * a.half_width)
    let dx3 := rnd (box.cos_heading * box.half_length)
    let dy3 := rnd (box.sin_heading * box.half_length)
    let dx4 := rnd (box.sin_heading * box.half_width)
    let dy4 := rnd (-box.cos_heading * box.half_width)
    decide (|rnd (rnd (shift_x * a.cos_heading) + rnd (shift_y * a.sin_heading))| ≤
        rnd (rnd (|rnd (rnd (dx3 * a.cos_heading) + rnd (dy3 * a.sin_heading))| +
          |rnd (rnd (dx4 * a.cos_heading) + rnd (dy4 * a.sin_heading))|) + a.half_length)) &&
    decide (|rnd (rnd (shift_x * a.sin_heading) - rnd (shift_y * a.cos_heading))| ≤
        rnd (rnd (|rnd (rnd (dx3 * a.sin_heading) - rnd (dy3 * a.cos_heading))| +
          |rnd (rnd (dx4 * a.sin_heading) - rnd (dy4 * a.cos_heading))|) + a.half_width)) &&
    decide (|rnd (rnd (shift_x * box.cos_heading) + rnd (shift_y * box.sin_heading))| ≤
        rnd (rnd (|rnd (rnd (dx1 * box.cos_heading) + rnd (dy1 * box.sin_heading))| +
          |rnd (rnd (dx2 * box.cos_heading) + rnd (dy2 * box.sin_heading))|) +
            box.half_length)) &&
    decide (|rnd (rnd (shift_x * box.sin_heading) - rnd (shift_y * box.cos_heading))| ≤
        rnd (rnd (|rnd (rnd (dx1 * box.sin_heading) - rnd (dy1 * box.cos_heading))| +
          |rnd (rnd (dx2 * box.sin_heading) - rnd (dy2 * box.cos_heading))|) +
            box.half_width))

/-- `Box2d::GetSmallestAABox` in the arithmetic of `double`. -/
def Box2d.GetSmallestAABox_rounded (rnd : α → α) (b : Box2d α) : AABox2d α :=
  let dx1 := |rnd (b.cos_heading * b.half_length)|
  let dy1 := |rnd (b.sin_heading * b.half_length)|
  let dx2 := |rnd (b.sin_heading * b.half_width)|
  let dy2 := |rnd (b.cos_heading * b.half_width)|
  ⟨b.center, rnd (rnd (dx1 + dx2) * 2.0), rnd (rnd (dy1 + dy2) * 2.0)⟩

/-- `Box2d::Shift` in the arithmetic of `double`. -/
def Box2d.Shift_rounded (rnd : α → α) (b : Box2d α) (shift_vec : Vector2d α) : Box2d α :=
  Box2d.InitCorners_rounded rnd { b with center := b.center.add_rounded rnd shift_vec }

/-- `HybridAStar::GenerateSearchConfig` in the arithmetic of `float`: every product is
rounded by `rnd`, and a product of several factors is taken from the left. -/
def GenerateSearchConfig_rounded (rnd : α → α) (searchconfig : SearchConfig α)
    (collisiondata : CollisionData α) (hybridastarconfig : HybridAStarConfig α) :
    SearchConfig α :=
  let L := hybridastarconfig.move_length
  let Ct := hybridastarconfig.penalty_turning
  let Cr := hybridastarconfig.penalty_reverse
  let Cs := hybridastarconfig.penalty_switch
  let searchconfig := { searchconfig with move_length := L }
  let searchconfig :=
    { searchconfig with turning_angle := rnd (L * collisiondata.MAX_CURVATURE) }
  let searchconfig := ([0, 1, 2] : List (Fin 6)).foldl (fun searchconfig i =>
    let searchconfig := ([0, 1, 2] : List (Fin 6)).foldl (fun searchconfig j =>
      if i = j then searchconfig.setCost i j L
      else searchconfig.setCost i j (rnd (L * Ct))) searchconfig
    ([3, 4, 5] : List (Fin 6)).foldl (fun searchconfig j =>
      searchconfig.setCost i j (rnd (rnd (rnd (L * Ct) * Cr) * Cs))) searchconfig) searchconfig
  let searchconfig := ([3, 4, 5] : List (Fin 6)).foldl (fun searchconfig i =>
    let searchconfig := ([0, 1, 2] : List (Fin 6)).foldl (fun searchconfig j =>
      searchconfig.setCost i j (rnd (rnd (L * Ct) * Cs))) searchconfig
    ([3, 4, 5] : List (Fin 6)).foldl (fun searchconfig j =>
      if i = j then searchconfig.setCost i j (rnd (L * Cr))
      else searchconfig.setCost i j (rnd (rnd (L * Cr) * Ct))) searchconfig) searchconfig
  searchconfig

/-- The penalty rule written as a comment in `HybridAStar::GetCost`, in the arithmetic of
`float`, the products taken from the left as the comment writes them. -/
def referenceCost_rounded (rnd : α → α) (L Ct Cr Cs : α) (pred prim : Fin 6) : α :=
  if prim < 3 then
    (if pred ≠ prim then (if pred > 2 then rnd (rnd (L * Ct) * Cs) else rnd (L * Ct)) else L)
  else
    (if pred ≠ prim then
      (if pred < 3 then rnd (rnd (rnd (L * Ct) * Cr) * Cs) else rnd (rnd (L * Ct) * Cr))
     else rnd (L * Cr))

/-- `HybridState4DNode::GoalDistanceEstimate` in the arithmetic of `float`. -/
def HybridState4DNode.GoalDistanceEstimate_rounded (rnd : α → α)
    (n nodeGoal : HybridState4DNode α) : α :=
  rnd (rnd (rnd (n.x_ - nodeGoal.x_) * rnd (n.x_ - nodeGoal.x_)) +
    rnd (rnd (n.y_ - nodeGoal.y_) * rnd (n.y_ - nodeGoal.y_)))

/-- Eigen's `mean()` of a vector of three `double`, in the arithmetic of `double`: the sum
of the three coefficients divided by their number, every operation rounded by `rnd`.  (For
three equal coefficients every order of the two additions gives the same sum.) -/
def meanOfThree (rnd : α → α) (w : Fin 3 → α) : α :=
  rnd (rnd (w 0 + rnd (w 1 + w 2)) / 3)

/-- `lowpass::movingaverage`: the returned mean and the filter after the call.
`head(num_lowpass - 1)` are the entries of index below `num_lowpass - 1`,
`tail(num_lowpass - 1)` those of index `1` and above.  `mean` is `mean()` of Eigen, a
library outside the sources. -/
def lowpass.movingaverage {num_lowpass : Nat} (mean : (Fin num_lowpass → α) → α)
    (lp : lowpass num_lowpass α) (_newstep : α) : α × lowpass num_lowpass α :=
  let t_average : Fin num_lowpass → α := fun _ => 0
  let t_average : Fin num_lowpass → α := fun i =>
    if h : i.val < num_lowpass - 1 then lp.averagevector ⟨i.val + 1, by omega⟩
    else t_average i
  let t_average : Fin num_lowpass → α := fun i =>
    if i.val = num_lowpass - 1 then _newstep else t_average i
  let lp : lowpass num_lowpass α := { averagevector := t_average }
  (mean lp.averagevector, lp)

/-- The filter after `k` successive calls `movingaverage(x 0)`, ..., `movingaverage(x (k - 1))`. -/
def lowpass.after {num_lowpass : Nat} (mean : (Fin num_lowpass → α) → α)
    (lp : lowpass num_lowpass α) (x : Nat → α) : Nat → lowpass num_lowpass α
  | 0 => lp
  | k + 1 => ((lowpass.after mean lp x k).movingaverage mean (x k)).2

/-- The two points differ by at most `E` in each coordinate. -/
def Vector2d.Near (E : α) (p q : Vector2d α) : Prop :=
  |p.x - q.x| ≤ E ∧ |p.y - q.y| ≤ E

/-- The corners of the two matrices differ, column by column, by at most `E` in each
coordinate. -/
def Corners.Near (E : α) (c d : Corners α) : Prop :=
  c.col0.Near E d.col0 ∧ c.col1.Near E d.col1 ∧ c.col2.Near E d.col2 ∧ c.col3.Near E d.col3

/-- `HybridState4DNode::IsSameState`. -/
def HybridState4DNode.IsSameState (m : Libm α) (n rhs : HybridState4DNode α) : Bool :=
  if m.hypot (n.x_ - rhs.x_) (n.y_ - rhs.y_) < 0.1 then true else false

/-- `GetSuccessors` with its argument `parent_node` (a null pointer is `none`): the
coordinates of the parent are stored in `parent_x` and `parent_y`, and the rest of the
function, `HybridState4DNode.GetSuccessors`, does not read them. -/
def HybridState4DNode.GetSuccessors_parent [FloorRing α] (m : Libm α)
    (n : HybridState4DNode α) (parent_node : Option (HybridState4DNode α)) :
    Option (List (HybridState4DNode α)) :=
  let parent_x : α := -1.0
  let parent_y : α := -1.0
  let parent_x : α := match parent_node with
    | some parent => parent.x_
    | none => parent_x
  let parent_y : α := match parent_node with
    | some parent => parent.y_
    | none => parent_y
  n.GetSuccessors m

/-- The node of a grid cell as `GetSuccessors` builds it: heading 0 and type
`STRAIGHT_FORWARD`. -/
def cellNode (c : Int × Int) : HybridState4DNode α :=
  ⟨(c.1 : α), (c.2 : α), 0, MovementType.STRAIGHT_FORWARD⟩

/-- A list of cells is a walk from the cell `c`: every cell is one of the four neighbours
of the cell before it and is free (`GetMap < 9`). -/
def cellWalk (c : Int × Int) : List (Int × Int) → Bool
  | [] => true
  | d :: rest =>
    (decide ((d.1 = c.1 - 1 ∧ d.2 = c.2) ∨ (d.1 = c.1 ∧ d.2 = c.2 - 1) ∨
        (d.1 = c.1 + 1 ∧ d.2 = c.2) ∨ (d.1 = c.1 ∧ d.2 = c.2 + 1)) &&
      decide (GetMap d.1 d.2 < 9)) && cellWalk d rest

/-- A walk on the built-in map from the default start cell `(5, 6)` to the default goal
cell `(11, 24)`, the start cell left out. -/
def startGoalWalk : List (Int × Int) :=
  [(5, 5), (5, 4), (5, 3), (5, 2), (5, 1), (6, 1), (7, 1), (8, 1), (9, 1), (10, 1), (11, 1),
    (12, 1), (13, 1), (14, 1), (15, 1), (15, 2), (15, 3), (15, 4), (15, 5), (15, 6), (15, 7),
    (15, 8), (15, 9), (15, 10), (15, 11), (15, 12), (15, 13), (15, 14), (15, 15), (15, 16),
    (15, 17), (15, 18), (15, 19), (15, 20), (15, 21), (16, 21), (17, 21), (17, 22), (17, 23),
    (16, 23), (15, 23), (14, 23), (14, 24), (13, 24), (12, 24), (11, 24)]

end Defs

section Lemmas

variable {α : Type} [LinearOrderedField α]

theorem half_eq : (0.5 : α) = 1 / 2 := by norm_num

theorem max_four_eq (c X Y p q r t : α) (hp : p = c + (X + Y)) (hq : q = c + (X - Y))
    (hr : r = c + (-X - Y)) (ht : t = c + (-X + Y)) :
    max (max (max p q) r) t = c + (|X| + |Y|) := by
  subst hp hq hr ht
  apply le_antisymm
  · have h1 := le_abs_self X
    have h2 := neg_abs_le X
    have h3 := le_abs_self Y
    have h4 := neg_abs_le Y
    simp only [max_le_iff]
    refine ⟨⟨⟨?_, ?_⟩, ?_⟩, ?_⟩ <;> linarith
  · simp only [le_max_iff]
    rcases abs_cases X with ⟨h1, _⟩ | ⟨h1, _⟩ <;>
      rcases abs_cases Y with ⟨h2, _⟩ | ⟨h2, _⟩ <;> rw [h1, h2]
    · left; left; left; linarith
    · left; left; right; linarith
    · right; linarith
    · left; right; linarith

theorem min_four_eq (c X Y p q r t : α) (hp : p = c + (X + Y)) (hq : q = c + (X - Y))
    (hr : r = c + (-X - Y)) (ht : t = c + (-X + Y)) :
    min (min (min p q) r) t = c - (|X| + |Y|) := by
  subst hp hq hr ht
  apply le_antisymm
  · simp only [min_le_iff]
    rcases abs_cases X with ⟨h1, _⟩ | ⟨h1, _⟩ <;>
      rcases abs_cases Y with ⟨h2, _⟩ | ⟨h2, _⟩ <;> rw [h1, h2]
    · left; right; linarith
    · right; linarith
    · left; left; right; linarith
    · left; left; left; linarith
  · have h1 := le_abs_self X
    have h2 := neg_abs_le X
    have h3 := le_abs_self Y
    have h4 := neg_abs_le Y
    simp only [le_min_iff]
    refine ⟨⟨⟨?_, ?_⟩, ?_⟩, ?_⟩ <;> linarith

@[simp] theorem new_center (m : Libm α) (c : Vector2d α) (h l w : α) :
    (Box2d.new m c h l w).center = c := rfl

@[simp] theorem new_cos_heading (m : Libm α) (c : Vector2d α) (h l w : α) :
    (Box2d.new m c h l w).cos_heading = m.cos h := rfl

@[simp] theorem new_sin_heading (m : Libm α) (c : Vector2d α) (h l w : α) :
    (Box2d.new m c h l w).sin_heading = m.sin h := rfl

@[simp] theorem new_half_length (m : Libm α) (c : Vector2d α) (h l w : α) :
    (Box2d.new m c h l w).half_length = l / 2 := by
  show (0.5 : α) * l = l / 2
  rw [half_eq]; ring

@[simp] theorem new_half_width (m : Libm α) (c : Vector2d α) (h l w : α) :
    (Box2d.new m c h l w).half_width = w / 2 := by
  show (0.5 : α) * w = w / 2
  rw [half_eq]; ring

theorem new_max_x (m : Libm α) (c : Vector2d α) (h l w : α) :
    (Box2d.new m c h l w).max_x = c.x + (|l / 2 * m.cos h| + |w / 2 * m.sin h|) := by
  apply max_four_eq <;>
    simp only [Box2d.Local2Global, Vector2d.add, half_eq] <;> ring

theorem new_min_x (m : Libm α) (c : Vector2d α) (h l w : α) :
    (Box2d.new m c h l w).min_x = c.x - (|l / 2 * m.cos h| + |w / 2 * m.sin h|) := by
  apply min_four_eq <;>
    simp only [Box2d.Local2Global, Vector2d.add, half_eq] <;> ring

theorem new_max_y (m : Libm α) (c : Vector2d α) (h l w : α) :
    (Box2d.new m c h l w).max_y = c.y + (|l / 2 * m.sin h| + |-(w / 2) * m.cos h|) := by
  apply max_four_eq <;>
    simp only [Box2d.Local2Global, Vector2d.add, half_eq] <;> ring

theorem new_min_y (m : Libm α) (c : Vector2d α) (h l w : α) :
    (Box2d.new m c h l w).min_y = c.y - (|l / 2 * m.sin h| + |-(w / 2) * m.cos h|) := by
  apply min_four_eq <;>
    simp only [Box2d.Local2Global, Vector2d.add, half_eq] <;> ring

theorem hypot_nonneg {m : Libm α} (hm : m.Sound) (x y : α) : 0 ≤ m.hypot x y := hm.2.1 x y

theorem hypot_mul_self {m : Libm α} (hm : m.Sound) (x y : α) :
    m.hypot x y * m.hypot x y = x * x + y * y := hm.2.2 x y

theorem hypot_eq_of_sq {m : Libm α} (hm : m.Sound) {x y D : α} (hD : 0 ≤ D)
    (h : D * D = x * x + y * y) : m.hypot x y = D := by
  have h1 := hypot_mul_self hm x y
  have h2 := hypot_nonneg hm x y
  exact (mul_self_inj h2 hD).1 (by rw [h1, h])

theorem le_hypot_of_sq {m : Libm α} (hm : m.Sound) {x y D : α}
    (h : D * D ≤ x * x + y * y) : D ≤ m.hypot x y := by
  have h1 := hypot_mul_self hm x y
  have h2 := hypot_nonneg hm x y
  by_contra hc
  push_neg at hc
  have : m.hypot x y * m.hypot x y < D * D := mul_self_lt_mul_self h2 hc
  linarith

theorem hypot_zero {m : Libm α} (hm : m.Sound) : m.hypot 0 0 = 0 :=
  hypot_eq_of_sq hm le_rfl (by ring)

theorem hypot_pos {m : Libm α} (hm : m.Sound) {x y : α} (hx : 0 < x) : 0 < m.hypot x y := by
  have h1 := hypot_mul_self hm x y
  have h2 := hypot_nonneg hm x y
  rcases h2.lt_or_eq with h | h
  · exact h
  · rw [← h] at h1
    nlinarith [mul_self_nonneg y, mul_pos hx hx]

theorem DistanceTo_point_eq_zero {m : Libm α} (hm : m.Sound) (b : Box2d α) (p : Vector2d α) :
    b.DistanceTo_point m p = 0 ↔ b.Contains p := by
  unfold Box2d.DistanceTo_point Box2d.Contains
  simp only []
  split_ifs with h1 h2
  · constructor
    · intro h
      have := le_max_right 0 (|(b.Global2Local (p.sub b.center)).y| - b.half_width)
      constructor <;> linarith
    · rintro ⟨-, h⟩
      exact max_eq_left (by linarith)
  · constructor
    · intro h; exact absurd h1 (by linarith)
    · rintro ⟨h, -⟩; exact absurd h (by linarith)
  · constructor
    · intro h
      have := hypot_pos hm (y := |(b.Global2Local (p.sub b.center)).y| - b.half_width)
        (lt_of_not_le h1)
      linarith
    · rintro ⟨h, -⟩; exact absurd h (by linarith)

theorem Local2Global_Global2Local (b : Box2d α)
    (hcs : b.cos_heading * b.cos_heading + b.sin_heading * b.sin_heading = 1) (p : Vector2d α) :
    b.center.add (b.Local2Global (b.Global2Local (p.sub b.center))) = p := by
  ext
  · simp only [Box2d.Global2Local, Box2d.Local2Global, Vector2d.sub, Vector2d.add]
    linear_combination (p.x - b.center.x) * hcs
  · simp only [Box2d.Global2Local, Box2d.Local2Global, Vector2d.sub, Vector2d.add]
    linear_combination (p.y - b.center.y) * hcs

theorem PtSegDistance_isSome (m : Libm α) (qx qy sx sy ex ey len : α) (h : len ≠ 0) :
    (PtSegDistance m qx qy sx sy ex ey len).isSome = true := by
  unfold PtSegDistance checkedDiv
  simp only [if_neg h]
  split_ifs <;> rfl

theorem DistanceTo_segment_isSome (m : Libm α) (eps : α) (heps : 0 ≤ eps) (b : Box2d α)
    (seg : LineSegment2d α) : (b.DistanceTo_segment m eps seg).isSome = true := by
  by_cases hlen : seg.length ≤ eps
  · simp only [Box2d.DistanceTo_segment, if_pos hlen, Option.isSome_some]
  · have h0 : seg.length ≠ 0 := by
      intro h; apply hlen; rw [h]; exact heps
    have hpt := fun qx qy sx sy ex ey => PtSegDistance_isSome m qx qy sx sy ex ey seg.length h0
    simp only [Box2d.DistanceTo_segment, if_neg hlen, apply_ite Option.isSome, Option.isSome_some,
      hpt, ite_self]

theorem DistanceTo_segment_eq (m : Libm α) (eps : α) (b : Box2d α) (seg : LineSegment2d α)
    (h : ¬ seg.length ≤ eps) :
    b.DistanceTo_segment m eps seg =
      segLocal m b.half_length b.half_width
        (b.Global2Local (seg.start.sub b.center)).x (b.Global2Local (seg.start.sub b.center)).y
        (b.Global2Local (seg.end_.sub b.center)).x (b.Global2Local (seg.end_.sub b.center)).y
        seg.length := by
  unfold Box2d.DistanceTo_segment
  rw [if_neg h]
  rfl

theorem two_eq : (2.0 : α) = 2 := by norm_num

theorem InitCorners_consistent (m : Libm α) (b : Box2d α)
    (h1 : b.half_length = b.length / 2) (h2 : b.half_width = b.width / 2)
    (h3 : b.cos_heading = m.cos b.heading) (h4 : b.sin_heading = m.sin b.heading) :
    (Box2d.InitCorners b).Consistent m := by
  refine ⟨h1, h2, h3, h4, ?_, ?_, ?_, ?_, rfl, rfl, rfl, rfl⟩ <;>
    simp only [Box2d.InitCorners, Box2d.cornerAt, Box2d.Local2Global, Vector2d.add, h1, h2, h3, h4]

theorem new_consistent (m : Libm α) (c : Vector2d α) (h l w : α) :
    (Box2d.new m c h l w).Consistent m := by
  apply InitCorners_consistent
  · show (0.5 : α) * l = l / 2
    rw [half_eq]; ring
  · show (0.5 : α) * w = w / 2
    rw [half_eq]; ring
  · rfl
  · rfl

theorem mutate_consistent (m : Libm α) (N : α → α) (b : Box2d α) (h : b.Consistent m)
    (op : Mutator α) : (b.mutate m N op).Consistent m := by
  obtain ⟨h1, h2, h3, h4, -⟩ := h
  cases op with
  | RotateFromCenter rotate_angle => exact InitCorners_consistent m _ h1 h2 rfl rfl
  | Shift shift_vec => exact InitCorners_consistent m _ h1 h2 h3 h4
  | LongitudinalExtend extension_length =>
    refine InitCorners_consistent m _ ?_ h2 h3 h4
    show (0.5 : α) * (b.length + extension_length) = (b.length + extension_length) / 2
    rw [half_eq]; ring
  | LateralExtend extension_width =>
    refine InitCorners_consistent m _ h1 ?_ h3 h4
    show (0.5 : α) * (b.width + extension_width) = (b.width + extension_width) / 2
    rw [half_eq]; ring

theorem foldl_consistent (m : Libm α) (N : α → α) (ops : List (Mutator α)) :
    ∀ b : Box2d α, b.Consistent m → (ops.foldl (Box2d.mutate m N) b).Consistent m := by
  induction ops with
  | nil => intro b h; exact h
  | cons op ops ih => intro b h; exact ih _ (mutate_consistent m N b h op)

theorem InitCorners_extents (b : Box2d α) :
    (Box2d.InitCorners b).max_x =
      b.center.x + (|b.half_length * b.cos_heading| + |b.half_width * b.sin_heading|) ∧
    (Box2d.InitCorners b).min_x =
      b.center.x - (|b.half_length * b.cos_heading| + |b.half_width * b.sin_heading|) ∧
    (Box2d.InitCorners b).max_y =
      b.center.y + (|b.half_length * b.sin_heading| + |-b.half_width * b.cos_heading|) ∧
    (Box2d.InitCorners b).min_y =
      b.center.y - (|b.half_length * b.sin_heading| + |-b.half_width * b.cos_heading|) := by
  refine ⟨?_, ?_, ?_, ?_⟩
  · apply max_four_eq <;> simp only [Box2d.Local2Global, Vector2d.add] <;> ring
  · apply min_four_eq <;> simp only [Box2d.Local2Global, Vector2d.add] <;> ring
  · apply max_four_eq <;> simp only [Box2d.Local2Global, Vector2d.add] <;> ring
  · apply min_four_eq <;> simp only [Box2d.Local2Global, Vector2d.add] <;> ring

theorem InitCorners_corner_bounds (b : Box2d α) :
    ∀ corner ∈ [(Box2d.InitCorners b).corners.col0, (Box2d.InitCorners b).corners.col1,
        (Box2d.InitCorners b).corners.col2, (Box2d.InitCorners b).corners.col3],
      (Box2d.InitCorners b).min_x ≤ corner.x ∧ corner.x ≤ (Box2d.InitCorners b).max_x ∧
      (Box2d.InitCorners b).min_y ≤ corner.y ∧ corner.y ≤ (Box2d.InitCorners b).max_y := by
  intro corner hcorner
  simp only [List.mem_cons, List.mem_singleton, List.not_mem_nil, or_false] at hcorner
  simp only [Box2d.InitCorners, le_max_iff, min_le_iff]
  rcases hcorner with rfl | rfl | rfl | rfl <;> simp [Box2d.InitCorners]

theorem InitCorners_extent_le (b : Box2d α) (x0 x1 y0 y1 : α)
    (hall : ∀ corner ∈ [(Box2d.InitCorners b).corners.col0, (Box2d.InitCorners b).corners.col1,
        (Box2d.InitCorners b).corners.col2, (Box2d.InitCorners b).corners.col3],
      x0 ≤ corner.x ∧ corner.x ≤ x1 ∧ y0 ≤ corner.y ∧ corner.y ≤ y1) :
    x0 ≤ (Box2d.InitCorners b).min_x ∧ (Box2d.InitCorners b).max_x ≤ x1 ∧
    y0 ≤ (Box2d.InitCorners b).min_y ∧ (Box2d.InitCorners b).max_y ≤ y1 := by
  have h0 := hall _ (List.mem_cons_self _ _)
  have h1 := hall _ (List.mem_cons_of_mem _ (List.mem_cons_self _ _))
  have h2 := hall _ (List.mem_cons_of_mem _ (List.mem_cons_of_mem _ (List.mem_cons_self _ _)))
  have h3 := hall _ (List.mem_cons_of_mem _ (List.mem_cons_of_mem _
    (List.mem_cons_of_mem _ (List.mem_cons_self _ _))))
  exact ⟨le_min (le_min (le_min h0.1 h1.1) h2.1) h3.1,
    max_le (max_le (max_le h0.2.1 h1.2.1) h2.2.1) h3.2.1,
    le_min (le_min (le_min h0.2.2.1 h1.2.2.1) h2.2.2.1) h3.2.2.1,
    max_le (max_le (max_le h0.2.2.2 h1.2.2.2) h2.2.2.2) h3.2.2.2⟩

theorem GetSmallestAABox_InitCorners (b : Box2d α) :
    (Box2d.InitCorners b).GetSmallestAABox.center = (Box2d.InitCorners b).center ∧
    (Box2d.InitCorners b).GetSmallestAABox.length =
      (Box2d.InitCorners b).max_x - (Box2d.InitCorners b).min_x ∧
    (Box2d.InitCorners b).GetSmallestAABox.width =
      (Box2d.InitCorners b).max_y - (Box2d.InitCorners b).min_y ∧
    (Box2d.InitCorners b).GetSmallestAABox.center.x +
      (Box2d.InitCorners b).GetSmallestAABox.length / 2 = (Box2d.InitCorners b).max_x ∧
    (Box2d.InitCorners b).GetSmallestAABox.center.x -
      (Box2d.InitCorners b).GetSmallestAABox.length / 2 = (Box2d.InitCorners b).min_x ∧
    (Box2d.InitCorners b).GetSmallestAABox.center.y +
      (Box2d.InitCorners b).GetSmallestAABox.width / 2 = (Box2d.InitCorners b).max_y ∧
    (Box2d.InitCorners b).GetSmallestAABox.center.y -
      (Box2d.InitCorners b).GetSmallestAABox.width / 2 = (Box2d.InitCorners b).min_y := by
  obtain ⟨e1, e2, e3, e4⟩ := InitCorners_extents b
  have a1 : |b.cos_heading * b.half_length| = |b.half_length * b.cos_heading| := by
    rw [mul_comm]
  have a2 : |b.sin_heading * b.half_width| = |b.half_width * b.sin_heading| := by
    rw [mul_comm]
  have a3 : |b.sin_heading * b.half_length| = |b.half_length * b.sin_heading| := by
    rw [mul_comm]
  have a4 : |b.cos_heading * b.half_width| = |-b.half_width * b.cos_heading| := by
    rw [neg_mul, abs_neg, mul_comm]
  have hlen : (Box2d.InitCorners b).GetSmallestAABox.length =
      (|b.half_length * b.cos_heading| + |b.half_width * b.sin_heading|) * 2 := by
    show (|b.cos_heading * b.half_length| + |b.sin_heading * b.half_width|) * (2.0 : α) = _
    rw [two_eq, a1, a2]
  have hwid : (Box2d.InitCorners b).GetSmallestAABox.width =
      (|b.half_length * b.sin_heading| + |-b.half_width * b.cos_heading|) * 2 := by
    show (|b.sin_heading * b.half_length| + |b.cos_heading * b.half_width|) * (2.0 : α) = _
    rw [two_eq, a3, a4]
  have hc : (Box2d.InitCorners b).GetSmallestAABox.center = b.center := rfl
  rw [hlen, hwid, hc, e1, e2, e3, e4]
  refine ⟨rfl, ?_, ?_, ?_, ?_, ?_, ?_⟩ <;> ring

theorem one_eq : (1.0 : α) = 1 := by norm_num

theorem cost_map_eq (searchconfig : SearchConfig α) (collisiondata : CollisionData α)
    (hybridastarconfig : HybridAStarConfig α) (p n : Fin 6) :
    (GenerateSearchConfig searchconfig collisiondata hybridastarconfig).cost_map p n =
      referenceCost hybridastarconfig.move_length hybridastarconfig.penalty_turning
        hybridastarconfig.penalty_reverse hybridastarconfig.penalty_switch p n := by
  fin_cases p <;> fin_cases n <;> first | rfl | exact mul_right_comm _ _ _

theorem update_movement_step_eq (m : Libm α) (L varphi theta : α) (h : varphi ≠ 0) :
    update_movement_step m L varphi theta = some (fun r c =>
      if c = 0 ∨ c = 3 then
        (if r = 0 then (if c = 0 then L * m.cos theta else -(L * m.cos theta))
         else if r = 1 then (if c = 0 then L * m.sin theta else -(L * m.sin theta))
         else 0)
      else if c = 1 ∨ c = 4 then
        (if r = 0 then
          (if c = 1 then
            L * m.cos theta * (m.sin varphi / varphi) -
              L * m.sin theta * ((1 - m.cos varphi) / varphi)
           else -(L * m.cos theta * (m.sin varphi / varphi) -
              L * m.sin theta * ((1 - m.cos varphi) / varphi)))
         else if r = 1 then
          (if c = 1 then
            L * m.sin theta * (m.sin varphi / varphi) +
              L * m.cos theta * ((1 - m.cos varphi) / varphi)
           else -(L * m.sin theta * (m.sin varphi / varphi) +
              L * m.cos theta * ((1 - m.cos varphi) / varphi)))
         else varphi)
      else
        (if r = 0 then
          (if c = 2 then
            L * m.cos theta * (m.sin varphi / varphi) +
              L * m.sin theta * ((1 - m.cos varphi) / varphi)
           else -(L * m.cos theta * (m.sin varphi / varphi) +
              L * m.sin theta * ((1 - m.cos varphi) / varphi)))
         else if r = 1 then
          (if c = 2 then
            L * m.sin theta * (m.sin varphi / varphi) -
              L * m.cos theta * ((1 - m.cos varphi) / varphi)
           else -(L * m.sin theta * (m.sin varphi / varphi) -
              L * m.cos theta * ((1 - m.cos varphi) / varphi)))
         else -varphi)) := by
  simp only [update_movement_step, checkedDiv, if_neg h, Option.bind_eq_bind, Option.some_bind,
    Option.pure_def, one_eq]
  congr 1
  funext r c
  fin_cases r <;> fin_cases c <;> rfl

theorem hypot_swap {m : Libm α} (hm : m.Sound) (a b c d : α) :
    m.hypot (a - b) (c - d) = m.hypot (b - a) (d - c) :=
  hypot_eq_of_sq hm (hypot_nonneg hm _ _) (by rw [hypot_mul_self hm]; ring)

theorem tenth_eq : (0.1 : α) = 1 / 10 := by norm_num

theorem foldl_push {σ τ : Type} (f : σ → τ) (xs : List σ) (acc : List τ) :
    xs.foldl (fun acc x => acc ++ [f x]) acc = acc ++ xs.map f := by
  induction xs generalizing acc with
  | nil => simp
  | cons x xs ih => simp [ih]

theorem foldl_push_join {σ τ : Type} (f : σ → τ) (xss : List (List σ)) (acc : List τ) :
    xss.foldl (fun acc xs => xs.foldl (fun acc x => acc ++ [f x]) acc) acc =
      acc ++ xss.flatten.map f := by
  induction xss generalizing acc with
  | nil => simp
  | cons xs xss ih =>
    rw [List.foldl_cons, foldl_push, ih, List.flatten_cons, List.map_append,
      List.append_assoc]

theorem int32_eq_some {z w : Int} (h : int32 z = some w) : w = z := by
  unfold int32 at h
  split_ifs at h
  exact (Option.some.inj h).symm

theorem int32_some {z : Int} (h1 : -2147483648 ≤ z) (h2 : z ≤ 2147483647) :
    int32 z = some z := by
  unfold int32
  rw [if_pos ⟨h1, h2⟩]

theorem static_cast_int_intCast [FloorRing α] (a : Int) :
    static_cast_int (a : α) = int32 a := by
  unfold static_cast_int
  split_ifs
  · rw [Int.floor_intCast]
  · rw [Int.ceil_intCast]

theorem max_turn_ne_zero : (0.2 : α) ≠ 0 := by norm_num

theorem GetSuccessors_of_int [FloorRing α] (m : Libm α) (n : HybridState4DNode α)
    (a b : Int) (hx : n.x_ = a) (hy : n.y_ = b)
    (ha1 : -2147483647 ≤ a) (ha2 : a ≤ 2147483646)
    (hb1 : -2147483647 ≤ b) (hb2 : b ≤ 2147483646) :
    n.GetSuccessors m = some
      ((((if GetMap (a - 1) b < 9 then
            [⟨((a - 1 : Int) : α), (b : α), 0, MovementType.STRAIGHT_FORWARD⟩] else []) ++
        (if GetMap a (b - 1) < 9 then
            [⟨(a : α), ((b - 1 : Int) : α), 0, MovementType.STRAIGHT_FORWARD⟩] else [])) ++
        (if GetMap (a + 1) b < 9 then
            [⟨((a + 1 : Int) : α), (b : α), 0, MovementType.STRAIGHT_FORWARD⟩] else [])) ++
        (if GetMap a (b + 1) < 9 then
            [⟨(a : α), ((b + 1 : Int) : α), 0, MovementType.STRAIGHT_FORWARD⟩] else [])) := by
  unfold HybridState4DNode.GetSuccessors
  simp only []
  rw [update_movement_step_eq m 1 0.2 n.theta_ max_turn_ne_zero, hx, hy,
    static_cast_int_intCast, static_cast_int_intCast,
    int32_some (by omega) (by omega), int32_some (by omega) (by omega)]
  simp only [Option.bind_eq_bind, Option.some_bind, Option.pure_def]
  rw [int32_some (by omega) (by omega), int32_some (by omega) (by omega),
    int32_some (by omega) (by omega), int32_some (by omega) (by omega)]
  simp only [Option.some_bind, List.nil_append]
  congr 1
  split_ifs <;> simp

theorem GetSuccessors_mem [FloorRing α] (m : Libm α) (n s : HybridState4DNode α)
    (hs : n.IsSuccessor m s) :
    ∃ x_int y_int : Int, static_cast_int n.x_ = some x_int ∧
      static_cast_int n.y_ = some y_int ∧ s.theta_ = 0 ∧
      s.type_ = MovementType.STRAIGHT_FORWARD ∧
      ((s.x_ = ((x_int - 1 : Int) : α) ∧ s.y_ = (y_int : α) ∧ GetMap (x_int - 1) y_int < 9) ∨
        (s.x_ = (x_int : α) ∧ s.y_ = ((y_int - 1 : Int) : α) ∧ GetMap x_int (y_int - 1) < 9) ∨
        (s.x_ = ((x_int + 1 : Int) : α) ∧ s.y_ = (y_int : α) ∧ GetMap (x_int + 1) y_int < 9) ∨
        (s.x_ = (x_int : α) ∧ s.y_ = ((y_int + 1 : Int) : α) ∧
          GetMap x_int (y_int + 1) < 9)) := by
  obtain ⟨succs, h, hmem⟩ := hs
  unfold HybridState4DNode.GetSuccessors at h
  simp only [Option.bind_eq_bind, Option.bind_eq_some, Option.pure_def,
    Option.some.injEq] at h
  obtain ⟨M, -, x_int, hx, y_int, hy, xm, hxm, ym, hym, xp, hxp, yp, hyp, hsuccs⟩ := h
  obtain rfl := int32_eq_some hxm
  obtain rfl := int32_eq_some hym
  obtain rfl := int32_eq_some hxp
  obtain rfl := int32_eq_some hyp
  refine ⟨x_int, y_int, hx, hy, ?_⟩
  have hlist : succs =
      ((((if GetMap (x_int - 1) y_int < 9 then
            [⟨((x_int - 1 : Int) : α), (y_int : α), 0, MovementType.STRAIGHT_FORWARD⟩]
          else []) ++
        (if GetMap x_int (y_int - 1) < 9 then
            [⟨(x_int : α), ((y_int - 1 : Int) : α), 0, MovementType.STRAIGHT_FORWARD⟩]
          else [])) ++
        (if GetMap (x_int + 1) y_int < 9 then
            [⟨((x_int + 1 : Int) : α), (y_int : α), 0, MovementType.STRAIGHT_FORWARD⟩]
          else [])) ++
        (if GetMap x_int (y_int + 1) < 9 then
            [⟨(x_int : α), ((y_int + 1 : Int) : α), 0, MovementType.STRAIGHT_FORWARD⟩]
          else [])) := by
    rw [← hsuccs]
    split_ifs <;> simp
  rw [hlist] at hmem
  simp only [List.mem_append] at hmem
  rcases hmem with ((h1 | h2) | h3) | h4
  · split_ifs at h1 with hc
    · rw [List.mem_singleton] at h1
      subst h1
      exact ⟨rfl, rfl, Or.inl ⟨rfl, rfl, hc⟩⟩
    · exact absurd h1 (List.not_mem_nil _)
  · split_ifs at h2 with hc
    · rw [List.mem_singleton] at h2
      subst h2
      exact ⟨rfl, rfl, Or.inr (Or.inl ⟨rfl, rfl, hc⟩)⟩
    · exact absurd h2 (List.not_mem_nil _)
  · split_ifs at h3 with hc
    · rw [List.mem_singleton] at h3
      subst h3
      exact ⟨rfl, rfl, Or.inr (Or.inr (Or.inl ⟨rfl, rfl, hc⟩))⟩
    · exact absurd h3 (List.not_mem_nil _)
  · split_ifs at h4 with hc
    · rw [List.mem_singleton] at h4
      subst h4
      exact ⟨rfl, rfl, Or.inr (Or.inr (Or.inr ⟨rfl, rfl, hc⟩))⟩
    · exact absurd h4 (List.not_mem_nil _)

theorem successor_of_int [FloorRing α] (m : Libm α) (n s : HybridState4DNode α)
    (a b : Int) (hx : n.x_ = a) (hy : n.y_ = b) (hs : n.IsSuccessor m s) :
    n.GetCost s = 1 ∧ ∃ a2 b2 : Int, s.x_ = a2 ∧ s.y_ = b2 := by
  obtain ⟨x_int, y_int, h1, h2, -, -, h⟩ := GetSuccessors_mem m n s hs
  rw [hx, static_cast_int_intCast] at h1
  rw [hy, static_cast_int_intCast] at h2
  obtain rfl := int32_eq_some h1
  obtain rfl := int32_eq_some h2
  unfold HybridState4DNode.GetCost
  rw [hx, hy]
  rcases h with ⟨e1, e2, -⟩ | ⟨e1, e2, -⟩ | ⟨e1, e2, -⟩ | ⟨e1, e2, -⟩
  · exact ⟨by rw [e1, e2]; push_cast; ring, _, _, e1, e2⟩
  · exact ⟨by rw [e1, e2]; push_cast; ring, _, _, e1, e2⟩
  · exact ⟨by rw [e1, e2]; push_cast; ring, _, _, e1, e2⟩
  · exact ⟨by rw [e1, e2]; push_cast; ring, _, _, e1, e2⟩

theorem pathCost_of_int [FloorRing α] (m : Libm α) (path : List (HybridState4DNode α)) :
    ∀ (n : HybridState4DNode α) (a b : Int), n.x_ = a → n.y_ = b →
      List.Chain (HybridState4DNode.IsSuccessor m) n path →
      pathCost (n :: path) = 1 * (path.length : α) := by
  induction path with
  | nil => intro n a b _ _ _; simp [pathCost]
  | cons s rest ih =>
    intro n a b hx hy hchain
    rw [List.chain_cons] at hchain
    obtain ⟨hcost, a2, b2, hx2, hy2⟩ := successor_of_int m n s a b hx hy hchain.1
    have h := ih s a2 b2 hx2 hy2 hchain.2
    simp only [pathCost, List.length_cons, Nat.cast_add, Nat.cast_one] at h ⊢
    rw [h, hcost]
    ring

theorem grid_successor [FloorRing α] (m : Libm α) (n s : HybridState4DNode α)
    (a b : Int) (hx : n.x_ = a) (hy : n.y_ = b)
    (ha1 : -2147483647 ≤ a) (ha2 : a ≤ 2147483646)
    (hb1 : -2147483647 ≤ b) (hb2 : b ≤ 2147483646)
    (ht : s.theta_ = 0) (hty : s.type_ = MovementType.STRAIGHT_FORWARD)
    (h : (s.x_ = ((a - 1 : Int) : α) ∧ s.y_ = (b : α) ∧ GetMap (a - 1) b < 9) ∨
      (s.x_ = (a : α) ∧ s.y_ = ((b - 1 : Int) : α) ∧ GetMap a (b - 1) < 9) ∨
      (s.x_ = ((a + 1 : Int) : α) ∧ s.y_ = (b : α) ∧ GetMap (a + 1) b < 9) ∨
      (s.x_ = (a : α) ∧ s.y_ = ((b + 1 : Int) : α) ∧ GetMap a (b + 1) < 9)) :
    n.IsSuccessor m s := by
  refine ⟨_, GetSuccessors_of_int m n a b hx hy ha1 ha2 hb1 hb2, ?_⟩
  obtain ⟨sx, sy, st, sty⟩ := s
  simp only at ht hty h
  subst ht hty
  simp only [List.mem_append]
  rcases h with ⟨rfl, rfl, hc⟩ | ⟨rfl, rfl, hc⟩ | ⟨rfl, rfl, hc⟩ | ⟨rfl, rfl, hc⟩
  · exact Or.inl (Or.inl (Or.inl (by rw [if_pos hc]; exact List.mem_singleton_self _)))
  · exact Or.inl (Or.inl (Or.inr (by rw [if_pos hc]; exact List.mem_singleton_self _)))
  · exact Or.inl (Or.inr (by rw [if_pos hc]; exact List.mem_singleton_self _))
  · exact Or.inr (by rw [if_pos hc]; exact List.mem_singleton_self _)

theorem regionCode_range (v b : α) :
    regionCode v b = -1 ∨ regionCode v b = 0 ∨ regionCode v b = 1 := by
  unfold regionCode
  split_ifs <;> simp

theorem regionCode_eq_zero {v b : α} (h : regionCode v b = 0) : -b < v ∧ v < b := by
  unfold regionCode at h
  by_cases h1 : v ≥ b
  · rw [if_pos h1] at h
    exact absurd h (by decide)
  · rw [if_neg h1] at h
    by_cases h2 : v ≤ -b
    · rw [if_pos h2] at h
      exact absurd h (by decide)
    · exact ⟨not_le.1 h2, not_le.1 h1⟩

theorem normCodes_handled (gx1 gy1 gx2 gy2 : Int)
    (r1 : gx1 = -1 ∨ gx1 = 0 ∨ gx1 = 1) (r2 : gy1 = -1 ∨ gy1 = 0 ∨ gy1 = 1)
    (r3 : gx2 = -1 ∨ gx2 = 0 ∨ gx2 = 1) (r4 : gy2 = -1 ∨ gy2 = 0 ∨ gy2 = 1)
    (h1 : ¬ (gx1 = 0 ∧ gy1 = 0)) (h2 : ¬ (gx2 = 0 ∧ gy2 = 0)) :
    (((normCodes gx1 gy1 gx2 gy2).1 = 1 ∧ (normCodes gx1 gy1 gx2 gy2).2.1 = 1) ∨
      ((normCodes gx1 gy1 gx2 gy2).1 = 1 ∧ (normCodes gx1 gy1 gx2 gy2).2.1 = 0)) ∧
    (caseLabel (normCodes gx1 gy1 gx2 gy2).1 (normCodes gx1 gy1 gx2 gy2).2.1
      (normCodes gx1 gy1 gx2 gy2).2.2.1 (normCodes gx1 gy1 gx2 gy2).2.2.2).isSome = true := by
  rcases r1 with rfl | rfl | rfl <;> rcases r2 with rfl | rfl | rfl <;>
    rcases r3 with rfl | rfl | rfl <;> rcases r4 with rfl | rfl | rfl <;>
    revert h1 h2 <;> decide

theorem segCasesOr_eq (m : Libm α) (dflt : Option α) (sbox_x sbox_y sx1 sy1 : α)
    (sgx1 sgy1 : Int) (sx2 sy2 : α) (sgx2 sgy2 : Int) (len : α)
    (h : (caseLabel sgx1 sgy1 sgx2 sgy2).isSome = true) :
    segCasesOr m dflt sbox_x sbox_y sx1 sy1 sgx1 sgy1 sx2 sy2 sgx2 sgy2 len =
      segCases m sbox_x sbox_y sx1 sy1 sgx1 sgy1 sx2 sy2 sgx2 sgy2 len := by
  unfold caseLabel at h
  unfold segCasesOr segCases
  simp only [] at h ⊢
  by_cases h11 : sgx1 = 1 ∧ sgy1 = 1
  · rw [if_pos h11] at h
    rw [if_pos h11, if_pos h11]
    by_cases hk : sgx2 * 3 + sgy2 = 4 ∨ sgx2 * 3 + sgy2 = 3 ∨ sgx2 * 3 + sgy2 = 2 ∨
        sgx2 * 3 + sgy2 = -1 ∨ sgx2 * 3 + sgy2 = -4
    · rcases hk with hk | hk | hk | hk | hk <;> rw [hk] <;> simp
    · rw [if_neg hk] at h
      exact absurd h (by decide)
  · rw [if_neg h11] at h
    rw [if_neg h11, if_neg h11]
    by_cases hk : sgx2 * 3 + sgy2 = 4 ∨ sgx2 * 3 + sgy2 = 3 ∨ sgx2 * 3 + sgy2 = 1 ∨
        sgx2 * 3 + sgy2 = -2 ∨ sgx2 * 3 + sgy2 = -3
    · rcases hk with hk | hk | hk | hk | hk <;> rw [hk] <;> simp
    · rw [if_neg hk] at h
      exact absurd h (by decide)

theorem segCasesOr_fall (m : Libm α) (dflt : Option α) (sbox_x sbox_y sx1 sy1 : α)
    (sgx1 sgy1 : Int) (sx2 sy2 : α) (sgx2 sgy2 : Int) (len : α)
    (h : caseLabel sgx1 sgy1 sgx2 sgy2 = none) :
    segCasesOr m dflt sbox_x sbox_y sx1 sy1 sgx1 sgy1 sx2 sy2 sgx2 sgy2 len = dflt := by
  unfold caseLabel at h
  unfold segCasesOr
  simp only [] at h ⊢
  by_cases h11 : sgx1 = 1 ∧ sgy1 = 1
  · rw [if_pos h11] at h
    rw [if_pos h11]
    split_ifs at h with hk
    push_neg at hk
    rw [if_neg hk.1, if_neg hk.2.1, if_neg hk.2.2.1, if_neg hk.2.2.2.1, if_neg hk.2.2.2.2]
  · rw [if_neg h11] at h
    rw [if_neg h11]
    split_ifs at h with hk
    push_neg at hk
    rw [if_neg hk.1, if_neg hk.2.1, if_neg (not_or.2 ⟨hk.2.2.1, hk.2.2.2.1⟩),
      if_neg hk.2.2.2.2]

theorem segLocal_codes (m : Libm α) (box_x box_y x1 y1 x2 y2 len : α)
    (h1 : ¬ (regionCode x1 box_x = 0 ∧ regionCode y1 box_y = 0))
    (h2 : ¬ (regionCode x2 box_x = 0 ∧ regionCode y2 box_y = 0)) :
    ∃ sbox_x sbox_y sx1 sy1 sx2 sy2 : α,
      segLocal m box_x box_y x1 y1 x2 y2 len =
        segCases m sbox_x sbox_y sx1 sy1
          (normCodes (regionCode x1 box_x) (regionCode y1 box_y) (regionCode x2 box_x)
            (regionCode y2 box_y)).1
          (normCodes (regionCode x1 box_x) (regionCode y1 box_y) (regionCode x2 box_x)
            (regionCode y2 box_y)).2.1 sx2 sy2
          (normCodes (regionCode x1 box_x) (regionCode y1 box_y) (regionCode x2 box_x)
            (regionCode y2 box_y)).2.2.1
          (normCodes (regionCode x1 box_x) (regionCode y1 box_y) (regionCode x2 box_x)
            (regionCode y2 box_y)).2.2.2 len := by
  unfold segLocal
  simp only []
  rw [if_neg h1, if_neg h2]
  exact ⟨_, _, _, _, _, _, rfl⟩

theorem hypot_le_hypot {m : Libm α} (hm : m.Sound) {a b c d : α}
    (h : a * a + b * b ≤ c * c + d * d) : m.hypot a b ≤ m.hypot c d := by
  apply le_hypot_of_sq hm
  rw [hypot_mul_self hm]
  exact h

theorem one_le_mul_self_of_ne {a c : Int} (h : a ≠ c) :
    (1 : α) ≤ ((a : α) - (c : α)) * ((a : α) - (c : α)) := by
  have h1 : (1 : Int) ≤ (a - c) * (a - c) := by
    have h2 : a - c ≠ 0 := sub_ne_zero.2 h
    rcases lt_or_gt_of_ne h2 with h3 | h3
    · nlinarith
    · nlinarith
  have h4 : ((1 : Int) : α) ≤ (((a - c) * (a - c) : Int) : α) := Int.cast_le.2 h1
  push_cast at h4
  exact h4

theorem IsSameState_int {m : Libm α} (hm : m.Sound) (n r : HybridState4DNode α)
    (a b c d : Int) (hnx : n.x_ = a) (hny : n.y_ = b) (hrx : r.x_ = c) (hry : r.y_ = d) :
    n.IsSameState m r = true ↔ a = c ∧ b = d := by
  simp only [HybridState4DNode.IsSameState, hnx, hny, hrx, hry, tenth_eq]
  constructor
  · intro h
    by_contra hc
    have hlt : m.hypot ((a : α) - c) ((b : α) - d) < 1 / 10 := by
      split_ifs at h with h1
      exact h1
    have hge : (1 : α) ≤ m.hypot ((a : α) - c) ((b : α) - d) := by
      apply le_hypot_of_sq hm
      rw [one_mul]
      by_cases hac : a = c
      · have hbd : b ≠ d := fun hbd => hc ⟨hac, hbd⟩
        have : (1 : α) ≤ ((b : α) - (d : α)) * ((b : α) - (d : α)) :=
          one_le_mul_self_of_ne hbd
        have := mul_self_nonneg ((a : α) - c)
        linarith
      · have : (1 : α) ≤ ((a : α) - (c : α)) * ((a : α) - (c : α)) :=
          one_le_mul_self_of_ne hac
        have := mul_self_nonneg ((b : α) - d)
        linarith
    have : (1 : α) / 10 < 1 := by norm_num
    linarith
  · rintro ⟨rfl, rfl⟩
    rw [sub_self, sub_self, hypot_zero hm, if_pos (by norm_num)]

set_option maxRecDepth 100000 in
theorem world_map_length : world_map.length = 600 := by decide

set_option maxRecDepth 100000 in
theorem world_map_values : ∀ v ∈ world_map, v = 1 ∨ v = 9 := by decide

theorem GetMap_in (x y : Int) (hx0 : 0 ≤ x) (hx1 : x < 20) (hy0 : 0 ≤ y) (hy1 : y < 30) :
    0 ≤ y * 20 + x ∧ y * 20 + x < 600 ∧
    ∃ h : (y * 20 + x).toNat < world_map.length,
      GetMap x y = world_map.get ⟨(y * 20 + x).toNat, h⟩ := by
  have h1 : 0 ≤ y * 20 + x := by omega
  have h2 : y * 20 + x < 600 := by omega
  have h3 : (y * 20 + x).toNat < world_map.length := by
    rw [world_map_length]; omega
  refine ⟨h1, h2, h3, ?_⟩
  unfold GetMap _MAP_WIDTH _MAP_HEIGHT
  rw [if_neg (by omega), List.getD_eq_getElem _ _ h3]
  rfl

theorem GetMap_lt {x y : Int} (h : GetMap x y < 9) :
    0 ≤ x ∧ x < 20 ∧ 0 ≤ y ∧ y < 30 := by
  by_contra hc
  have h9 : GetMap x y = 9 := by
    unfold GetMap _MAP_WIDTH _MAP_HEIGHT
    rw [if_pos (by omega)]
  omega

theorem GetSuccessors_of_trunc [FloorRing α] (m : Libm α) (n : HybridState4DNode α)
    (a b : Int) (hx : static_cast_int n.x_ = some a) (hy : static_cast_int n.y_ = some b)
    (ha1 : -2147483647 ≤ a) (ha2 : a ≤ 2147483646)
    (hb1 : -2147483647 ≤ b) (hb2 : b ≤ 2147483646) :
    n.GetSuccessors m = some
      ((((if GetMap (a - 1) b < 9 then
            [⟨((a - 1 : Int) : α), (b : α), 0, MovementType.STRAIGHT_FORWARD⟩] else []) ++
        (if GetMap a (b - 1) < 9 then
            [⟨(a : α), ((b - 1 : Int) : α), 0, MovementType.STRAIGHT_FORWARD⟩] else [])) ++
        (if GetMap (a + 1) b < 9 then
            [⟨((a + 1 : Int) : α), (b : α), 0, MovementType.STRAIGHT_FORWARD⟩] else [])) ++
        (if GetMap a (b + 1) < 9 then
            [⟨(a : α), ((b + 1 : Int) : α), 0, MovementType.STRAIGHT_FORWARD⟩] else [])) := by
  unfold HybridState4DNode.GetSuccessors
  simp only []
  rw [update_movement_step_eq m 1 0.2 n.theta_ max_turn_ne_zero, hx, hy]
  simp only [Option.bind_eq_bind, Option.some_bind, Option.pure_def]
  rw [int32_some (by omega) (by omega), int32_some (by omega) (by omega),
    int32_some (by omega) (by omega), int32_some (by omega) (by omega)]
  simp only [Option.some_bind, List.nil_append]
  congr 1
  split_ifs <;> simp

theorem manhattan_one {u v : Int} :
    |u| + |v| = 1 ↔ (u = -1 ∧ v = 0) ∨ (u = 0 ∧ v = -1) ∨ (u = 1 ∧ v = 0) ∨ (u = 0 ∧ v = 1) := by
  constructor
  · intro h
    rcases abs_cases u with ⟨h1, h2⟩ | ⟨h1, h2⟩ <;>
      rcases abs_cases v with ⟨h3, h4⟩ | ⟨h3, h4⟩ <;> omega
  · rintro (⟨rfl, rfl⟩ | ⟨rfl, rfl⟩ | ⟨rfl, rfl⟩ | ⟨rfl, rfl⟩) <;> decide

theorem cellNode_inj {c d : Int × Int} (h : (cellNode c : HybridState4DNode α) = cellNode d) :
    c = d := by
  unfold cellNode at h
  rw [HybridState4DNode.mk.injEq] at h
  exact Prod.ext (Int.cast_injective h.1) (Int.cast_injective h.2.1)

theorem chain_of_cellWalk [FloorRing α] (m : Libm α) (cells : List (Int × Int)) :
    ∀ (n : HybridState4DNode α) (c : Int × Int), n.x_ = c.1 → n.y_ = c.2 →
      0 ≤ c.1 → c.1 < 20 → 0 ≤ c.2 → c.2 < 30 → cellWalk c cells = true →
      List.Chain (HybridState4DNode.IsSuccessor m) n (cells.map cellNode) := by
  induction cells with
  | nil => intro n c _ _ _ _ _ _ _; exact List.Chain.nil
  | cons d rest ih =>
    intro n c hx hy h1 h2 h3 h4 hw
    simp only [cellWalk, Bool.and_eq_true, decide_eq_true_eq] at hw
    obtain ⟨⟨hadj, hfree⟩, hrest⟩ := hw
    obtain ⟨g1, g2, g3, g4⟩ := GetMap_lt hfree
    rw [List.map_cons]
    refine List.Chain.cons ?_ (ih (cellNode d) d rfl rfl g1 g2 g3 g4 hrest)
    refine grid_successor m n (cellNode d) c.1 c.2 hx hy (by omega) (by omega) (by omega)
      (by omega) rfl rfl ?_
    rcases hadj with ⟨e1, e2⟩ | ⟨e1, e2⟩ | ⟨e1, e2⟩ | ⟨e1, e2⟩
    · exact Or.inl ⟨by simp only [cellNode, e1], by simp only [cellNode, e2],
        by rw [← e1, ← e2]; exact hfree⟩
    · exact Or.inr (Or.inl ⟨by simp only [cellNode, e1], by simp only [cellNode, e2],
        by rw [← e1, ← e2]; exact hfree⟩)
    · exact Or.inr (Or.inr (Or.inl ⟨by simp only [cellNode, e1], by simp only [cellNode, e2],
        by rw [← e1, ← e2]; exact hfree⟩))
    · exact Or.inr (Or.inr (Or.inr ⟨by simp only [cellNode, e1], by simp only [cellNode, e2],
        by rw [← e1, ← e2]; exact hfree⟩))

set_option maxRecDepth 100000 in
theorem startGoalWalk_ok : cellWalk (5, 6) startGoalWalk = true := by decide

set_option maxRecDepth 100000 in
theorem start_goal_free : GetMap 5 6 < 9 ∧ GetMap 11 24 < 9 := by decide

theorem startGoalWalk_last : startGoalWalk.getLast? = some (11, 24) := by decide

theorem roundHalfEven_eq [FloorRing α] (x : α) (k : Int)
    (h : |x - k| < 1 / 2 ∨ (|x - k| = 1 / 2 ∧ k % 2 = 0)) : roundHalfEven x = k := by
  unfold roundHalfEven
  have hf := Int.floor_le x
  have hf2 := Int.lt_floor_add_one x
  rcases h with h | ⟨h, hk⟩
  · rw [abs_lt] at h
    obtain ⟨h1, h2⟩ := h
    by_cases hc : x - ⌊x⌋ < 1 / 2
    · rw [if_pos hc]
      have e1 : ((⌊x⌋ : Int) : α) < k + 1 := by linarith
      have e2 : ((k : Int) : α) < ⌊x⌋ + 1 := by linarith
      have e3 : ⌊x⌋ < k + 1 := by exact_mod_cast e1
      have e4 : k < ⌊x⌋ + 1 := by exact_mod_cast e2
      omega
    · rw [if_neg hc]
      have hc2 := not_lt.1 hc
      have e1 : ((⌊x⌋ : Int) : α) < k := by linarith
      have e2 : ((k : Int) : α) < ⌊x⌋ + 2 := by linarith
      have e3 : ⌊x⌋ < k := by exact_mod_cast e1
      have e4 : k < ⌊x⌋ + 2 := by exact_mod_cast e2
      have e5 : k = ⌊x⌋ + 1 := by omega
      have e6 : ((k : Int) : α) = ⌊x⌋ + 1 := by rw [e5]; push_cast; ring
      rw [if_pos (by linarith), e5]
  · rcases abs_eq (by norm_num : (0 : α) ≤ 1 / 2) |>.1 h with h1 | h1
    · have e1 : ((⌊x⌋ : Int) : α) < k + 1 := by linarith
      have e2 : ((k : Int) : α) < ⌊x⌋ + 1 := by linarith
      have e3 : ⌊x⌋ < k + 1 := by exact_mod_cast e1
      have e4 : k < ⌊x⌋ + 1 := by exact_mod_cast e2
      have e5 : ⌊x⌋ = k := by omega
      rw [e5, if_neg (by linarith), if_neg (by linarith), if_pos hk]
    · have e1 : ((⌊x⌋ : Int) : α) < k := by linarith
      have e2 : ((k : Int) : α) < ⌊x⌋ + 2 := by linarith
      have e3 : ⌊x⌋ < k := by exact_mod_cast e1
      have e4 : k < ⌊x⌋ + 2 := by exact_mod_cast e2
      have e5 : ⌊x⌋ = k - 1 := by omega
      have e6 : ((⌊x⌋ : Int) : α) = k - 1 := by rw [e5]; push_cast; ring
      rw [if_neg (by linarith), if_neg (by linarith), if_neg (by omega), e5]
      ring

theorem roundHalfEven_intCast [FloorRing α] (k : Int) : roundHalfEven (k : α) = k :=
  roundHalfEven_eq _ k (Or.inl (by simp))

theorem log_abs_eq [FloorRing α] (x : α) (E : Int) (hlo : 2 ^ E ≤ |x|) (hhi : |x| < 2 ^ (E + 1)) :
    Int.log 2 |x| = E := by
  have hpos : 0 < |x| := lt_of_lt_of_le (zpow_pos (by norm_num) E) hlo
  have h1 : E ≤ Int.log 2 |x| := (Int.zpow_le_iff_le_log (by norm_num) hpos).1 (by exact_mod_cast hlo)
  have h2 : Int.log 2 |x| < E + 1 := (Int.lt_zpow_iff_log_lt (by norm_num) hpos).1 (by exact_mod_cast hhi)
  omega

theorem roundToFormat_eval [FloorRing α] (p : Nat) (emin : Int) (x : α) (E k : Int)
    (hE : emin ≤ E) (hlo : 2 ^ E ≤ |x|) (hhi : |x| < 2 ^ (E + 1))
    (hk : |x / 2 ^ (E - ((p : Int) - 1)) - k| < 1 / 2 ∨
      (|x / 2 ^ (E - ((p : Int) - 1)) - k| = 1 / 2 ∧ k % 2 = 0)) :
    roundToFormat p emin x = k * 2 ^ (E - ((p : Int) - 1)) := by
  unfold roundToFormat
  simp only []
  rw [log_abs_eq x E hlo hhi, max_eq_left hE, roundHalfEven_eq _ k hk]

theorem roundToFormat_zero [FloorRing α] (p : Nat) (emin : Int) :
    roundToFormat p emin (0 : α) = 0 := by
  unfold roundToFormat
  simp only [zero_div]
  rw [roundHalfEven_eq (0 : α) 0 (Or.inl (by norm_num))]
  simp

theorem roundToFormat_eval_sub [FloorRing α] (p : Nat) (emin : Int) (x : α) (k : Int)
    (hx : x ≠ 0) (hhi : |x| < 2 ^ emin)
    (hk : |x / 2 ^ (emin - ((p : Int) - 1)) - k| < 1 / 2 ∨
      (|x / 2 ^ (emin - ((p : Int) - 1)) - k| = 1 / 2 ∧ k % 2 = 0)) :
    roundToFormat p emin x = k * 2 ^ (emin - ((p : Int) - 1)) := by
  unfold roundToFormat
  simp only []
  have hpos : 0 < |x| := abs_pos.2 hx
  have h2 : (1 : Nat) < 2 := by norm_num
  have hlog : Int.log 2 |x| < emin :=
    (Int.lt_zpow_iff_log_lt h2 hpos).1 (by exact_mod_cast hhi)
  rw [max_eq_right hlog.le, roundHalfEven_eq _ k hk]

theorem natAbs_cast_lt [FloorRing α] (z : Int) (d : Nat) : z.natAbs < d ↔ |(z : α)| < (d : α) := by
  rw [← Int.cast_abs, Int.abs_eq_natAbs, Int.cast_natCast, Nat.cast_lt]

theorem natAbs_cast_eq [FloorRing α] (z : Int) (d : Nat) : z.natAbs = d ↔ |(z : α)| = (d : α) := by
  rw [← Int.cast_abs, Int.abs_eq_natAbs, Int.cast_natCast, Nat.cast_inj]

theorem round_dyadic_aux [FloorRing α] (n k : Int) (d s : Nat) (hd : 0 < d)
    (hk : (2 * n * 2 ^ s - 2 * k * d).natAbs < d ∨
      ((2 * n * 2 ^ s - 2 * k * d).natAbs = d ∧ k % 2 = 0)) :
    |(n : α) / (d : α) / (2 ^ s)⁻¹ - k| < 1 / 2 ∨
      (|(n : α) / (d : α) / (2 ^ s)⁻¹ - k| = 1 / 2 ∧ k % 2 = 0) := by
  have hd2 : (0 : α) < d := by exact_mod_cast hd
  have e : (n : α) / (d : α) / (2 ^ s)⁻¹ - k =
      (((2 * n * 2 ^ s - 2 * k * d : Int) : α)) / (2 * d) := by
    push_cast
    field_simp
    ring
  have h2d : (0 : α) < 2 * d := by linarith
  rw [e, abs_div, abs_of_pos h2d]
  rcases hk with h | ⟨h, hev⟩
  · left
    rw [div_lt_iff₀ h2d]
    have h3 : |((2 * n * 2 ^ s - 2 * k * d : Int) : α)| < (d : α) := (natAbs_cast_lt _ _).1 h
    linarith
  · right
    refine ⟨?_, hev⟩
    rw [div_eq_iff h2d.ne']
    have h3 : |((2 * n * 2 ^ s - 2 * k * d : Int) : α)| = (d : α) := (natAbs_cast_eq _ _).1 h
    linarith

theorem roundToFormat_dyadic [FloorRing α] (p : Nat) (emin : Int) (x : α) (n k : Int)
    (d s : Nat) (hx : x = (n : α) / (d : α)) (hd : 0 < d) (hp : 1 ≤ p)
    (hE : emin ≤ (p : Int) - 1 - s)
    (h1 : 2 ^ (p - 1) * d ≤ n.natAbs * 2 ^ s) (h2 : n.natAbs * 2 ^ s < 2 ^ p * d)
    (hk : (2 * n * 2 ^ s - 2 * k * d).natAbs < d ∨
      ((2 * n * 2 ^ s - 2 * k * d).natAbs = d ∧ k % 2 = 0)) :
    roundToFormat p emin x = (k : α) / 2 ^ s := by
  have hd2 : (0 : α) < d := by exact_mod_cast hd
  have hs : (0 : α) < 2 ^ s := pow_pos (by norm_num) s
  have habs : |x| = (n.natAbs : α) / d := by
    rw [hx, abs_div, abs_of_pos hd2, ← Int.cast_abs, Int.abs_eq_natAbs, Int.cast_natCast]
  have hq : (2 : α) ^ ((p : Int) - 1 - s - ((p : Int) - 1)) = (2 ^ s)⁻¹ := by
    rw [show (p : Int) - 1 - s - ((p : Int) - 1) = -(s : Int) by ring, zpow_neg, zpow_natCast]
  have hpE : (2 : α) ^ ((p : Int) - 1 - s) = 2 ^ (p - 1) / 2 ^ s := by
    rw [show (p : Int) - 1 - s = ((p - 1 : Nat) : Int) - (s : Int) by omega,
      zpow_sub₀ (by norm_num), zpow_natCast, zpow_natCast]
  have hpE1 : (2 : α) ^ ((p : Int) - 1 - s + 1) = 2 ^ p / 2 ^ s := by
    rw [show (p : Int) - 1 - s + 1 = (p : Int) - (s : Int) by ring,
      zpow_sub₀ (by norm_num), zpow_natCast, zpow_natCast]
  have c1 : ((2 ^ (p - 1) * d : Nat) : α) ≤ ((n.natAbs * 2 ^ s : Nat) : α) := by
    exact_mod_cast h1
  have c2 : ((n.natAbs * 2 ^ s : Nat) : α) < ((2 ^ p * d : Nat) : α) := by
    exact_mod_cast h2
  push_cast at c1 c2
  rw [roundToFormat_eval p emin x ((p : Int) - 1 - s) k hE ?_ ?_ ?_, hq, div_eq_mul_inv]
  · rw [hpE, habs, div_le_div_iff₀ hs hd2]
    linarith
  · rw [hpE1, habs, div_lt_div_iff₀ hd2 hs]
    linarith
  · rw [hq, hx]
    exact round_dyadic_aux n k d s hd hk

theorem roundToFormat_dyadic_sub [FloorRing α] (p : Nat) (emin : Int) (x : α) (n k : Int)
    (d s : Nat) (hx : x = (n : α) / (d : α)) (hd : 0 < d) (hp : 1 ≤ p) (hn : n ≠ 0)
    (hE : emin = (p : Int) - 1 - s)
    (h2 : n.natAbs * 2 ^ s < 2 ^ (p - 1) * d)
    (hk : (2 * n * 2 ^ s - 2 * k * d).natAbs < d ∨
      ((2 * n * 2 ^ s - 2 * k * d).natAbs = d ∧ k % 2 = 0)) :
    roundToFormat p emin x = (k : α) / 2 ^ s := by
  have hd2 : (0 : α) < d := by exact_mod_cast hd
  have hs : (0 : α) < 2 ^ s := pow_pos (by norm_num) s
  have habs : |x| = (n.natAbs : α) / d := by
    rw [hx, abs_div, abs_of_pos hd2, ← Int.cast_abs, Int.abs_eq_natAbs, Int.cast_natCast]
  have hx0 : x ≠ 0 := by
    rw [hx]
    exact div_ne_zero (by exact_mod_cast hn) hd2.ne'
  have hq : (2 : α) ^ (emin - ((p : Int) - 1)) = (2 ^ s)⁻¹ := by
    rw [hE, show (p : Int) - 1 - s - ((p : Int) - 1) = -(s : Int) by ring, zpow_neg, zpow_natCast]
  have hpE : (2 : α) ^ emin = 2 ^ (p - 1) / 2 ^ s := by
    rw [hE, show (p : Int) - 1 - s = ((p - 1 : Nat) : Int) - (s : Int) by omega,
      zpow_sub₀ (by norm_num), zpow_natCast, zpow_natCast]
  have c2 : ((n.natAbs * 2 ^ s : Nat) : α) < ((2 ^ (p - 1) * d : Nat) : α) := by
    exact_mod_cast h2
  push_cast at c2
  rw [roundToFormat_eval_sub p emin x k hx0 ?_ ?_, hq, div_eq_mul_inv]
  · rw [hpE, habs, div_lt_div_iff₀ hd2 hs]
    linarith
  · rw [hq, hx]
    exact round_dyadic_aux n k d s hd hk

theorem InitCorners_rounded_id (b : Box2d α) :
    Box2d.InitCorners_rounded id b = Box2d.InitCorners b := rfl

theorem new_rounded_id (m : Libm α) (center : Vector2d α) (heading length width : α) :
    Box2d.new_rounded id m center heading length width =
      Box2d.new m center heading length width := rfl

theorem HasOverlap_box_rounded_id (a box : Box2d α) :
    Box2d.HasOverlap_box_rounded id a box = Box2d.HasOverlap_box a box := rfl

theorem GetSmallestAABox_rounded_id (b : Box2d α) :
    Box2d.GetSmallestAABox_rounded id b = Box2d.GetSmallestAABox b := rfl

theorem Shift_rounded_id (b : Box2d α) (shift_vec : Vector2d α) :
    Box2d.Shift_rounded id b shift_vec = Box2d.Shift b shift_vec := rfl

theorem GenerateSearchConfig_rounded_id (searchconfig : SearchConfig α)
    (collisiondata : CollisionData α) (hybridastarconfig : HybridAStarConfig α) :
    GenerateSearchConfig_rounded id searchconfig collisiondata hybridastarconfig =
      GenerateSearchConfig searchconfig collisiondata hybridastarconfig := rfl

theorem referenceCost_rounded_id (L Ct Cr Cs : α) (pred prim : Fin 6) :
    referenceCost_rounded id L Ct Cr Cs pred prim = referenceCost L Ct Cr Cs pred prim := rfl

theorem GoalDistanceEstimate_rounded_id (n g : HybridState4DNode α) :
    n.GoalDistanceEstimate_rounded id g = n.GoalDistanceEstimate g := rfl

theorem movingaverage_eq {num_lowpass : Nat} (mean : (Fin num_lowpass → α) → α)
    (lp : lowpass num_lowpass α) (_newstep : α) :
    (lp.movingaverage mean _newstep).1 =
      mean (lp.movingaverage mean _newstep).2.averagevector ∧
    ∀ i : Fin num_lowpass, (lp.movingaverage mean _newstep).2.averagevector i =
      if h : i.val + 1 < num_lowpass then lp.averagevector ⟨i.val + 1, h⟩ else _newstep := by
  refine ⟨rfl, ?_⟩
  intro i
  have hi := i.isLt
  simp only [lowpass.movingaverage]
  by_cases h : i.val + 1 < num_lowpass
  · rw [dif_pos h, if_neg (by omega), dif_pos (by omega)]
  · rw [dif_neg h, if_pos (by omega)]

theorem after_window {num_lowpass : Nat} (mean : (Fin num_lowpass → α) → α)
    (lp : lowpass num_lowpass α) (x : Nat → α) (k : Nat) :
    ∀ i : Fin num_lowpass, (lowpass.after mean lp x k).averagevector i =
      if h : k + i.val < num_lowpass then lp.averagevector ⟨k + i.val, h⟩
      else x (k + i.val - num_lowpass) := by
  induction k with
  | zero =>
    intro i
    have hi := i.isLt
    rw [dif_pos (by omega)]
    show lp.averagevector i = _
    congr 1
    exact Fin.ext (by simp)
  | succ k ih =>
    intro i
    have hi := i.isLt
    show ((lowpass.after mean lp x k).movingaverage mean (x k)).2.averagevector i = _
    rw [(movingaverage_eq mean _ _).2 i]
    by_cases h : i.val + 1 < num_lowpass
    · rw [dif_pos h, ih ⟨i.val + 1, h⟩]
      by_cases h3 : k + 1 + i.val < num_lowpass
      · rw [dif_pos h3, dif_pos (by simpa [Nat.add_assoc, Nat.add_comm 1] using h3)]
        congr 1
        exact Fin.ext (by simp only []; omega)
      · rw [dif_neg h3, dif_neg (by simp only []; omega)]
        congr 1
        simp only []
        omega
    · rw [dif_neg h, dif_neg (by omega)]
      congr 1
      omega

theorem movingaverage_constant {num_lowpass : Nat} (mean : (Fin num_lowpass → α) → α)
    (lp : lowpass num_lowpass α) (v : α) :
    (lp.setaveragevector v).movingaverage mean v =
      (mean (fun _ => v), lp.setaveragevector v) := by
  have hwin : ((lp.setaveragevector v).movingaverage mean v).2 = lp.setaveragevector v := by
    have h := (movingaverage_eq mean (lp.setaveragevector v) v).2
    cases hlp : ((lp.setaveragevector v).movingaverage mean v).2 with
    | mk av =>
      rw [hlp] at h
      simp only [lowpass.setaveragevector, lowpass.mk.injEq]
      funext i
      have hi := h i
      simp only [lowpass.setaveragevector, dite_eq_ite, ite_self] at hi
      exact hi
  have hmean := (movingaverage_eq mean (lp.setaveragevector v) v).1
  rw [hwin] at hmean
  exact Prod.ext hmean hwin

theorem roundHalfEven_nonneg [FloorRing α] (x : α) (hx : 0 ≤ x) : 0 ≤ roundHalfEven x := by
  have hf : 0 ≤ ⌊x⌋ := Int.floor_nonneg.2 hx
  unfold roundHalfEven
  split_ifs <;> omega

theorem roundToFormat_nonneg [FloorRing α] (p : Nat) (emin : Int) (x : α) (hx : 0 ≤ x) :
    0 ≤ roundToFormat p emin x := by
  unfold roundToFormat
  simp only []
  have hq : (0 : α) < 2 ^ (max (Int.log 2 |x|) emin - ((p : Int) - 1)) :=
    zpow_pos (by norm_num) _
  have hk := roundHalfEven_nonneg _ (div_nonneg hx hq.le)
  have hk2 : (0 : α) ≤ (roundHalfEven (x / 2 ^ (max (Int.log 2 |x|) emin - ((p : Int) - 1))) : α) := by
    exact_mod_cast hk
  exact mul_nonneg hk2 hq.le

theorem cost_map_rounded_eq (rnd : α → α) (searchconfig : SearchConfig α)
    (collisiondata : CollisionData α) (hybridastarconfig : HybridAStarConfig α) (p n : Fin 6) :
    (GenerateSearchConfig_rounded rnd searchconfig collisiondata hybridastarconfig).cost_map p n =
      if n < 3 then
        (if p = n then hybridastarconfig.move_length
         else if p < 3 then
           rnd (hybridastarconfig.move_length * hybridastarconfig.penalty_turning)
         else rnd (rnd (hybridastarconfig.move_length * hybridastarconfig.penalty_turning) *
           hybridastarconfig.penalty_switch))
      else
        (if p = n then rnd (hybridastarconfig.move_length * hybridastarconfig.penalty_reverse)
         else if p < 3 then
           rnd (rnd (rnd (hybridastarconfig.move_length * hybridastarconfig.penalty_turning) *
             hybridastarconfig.penalty_reverse) * hybridastarconfig.penalty_switch)
         else rnd (rnd (hybridastarconfig.move_length * hybridastarconfig.penalty_reverse) *
           hybridastarconfig.penalty_turning)) := by
  fin_cases p <;> fin_cases n <;> rfl

theorem max_four_near {E a b c d a2 b2 c2 d2 : α} (ha : |a - a2| ≤ E) (hb : |b - b2| ≤ E)
    (hc : |c - c2| ≤ E) (hd : |d - d2| ≤ E) :
    |max (max (max a b) c) d - max (max (max a2 b2) c2) d2| ≤ E :=
  le_trans (abs_max_sub_max_le_max _ _ _ _) (max_le (le_trans (abs_max_sub_max_le_max _ _ _ _)
    (max_le (le_trans (abs_max_sub_max_le_max _ _ _ _) (max_le ha hb)) hc)) hd)

theorem min_four_near {E a b c d a2 b2 c2 d2 : α} (ha : |a - a2| ≤ E) (hb : |b - b2| ≤ E)
    (hc : |c - c2| ≤ E) (hd : |d - d2| ≤ E) :
    |min (min (min a b) c) d - min (min (min a2 b2) c2) d2| ≤ E :=
  le_trans (abs_min_sub_min_le_max _ _ _ _) (max_le (le_trans (abs_min_sub_min_le_max _ _ _ _)
    (max_le (le_trans (abs_min_sub_min_le_max _ _ _ _) (max_le ha hb)) hc)) hd)

/-- Corner matrices that are near each other give extents, as `InitCorners` takes them, that
are near each other. -/
theorem extents_near (rnd rnd2 : α → α) (b b2 : Box2d α) (E : α)
    (h : (Box2d.InitCorners_rounded rnd b).corners.Near E
      (Box2d.InitCorners_rounded rnd2 b2).corners) :
    |(Box2d.InitCorners_rounded rnd b).max_x - (Box2d.InitCorners_rounded rnd2 b2).max_x| ≤ E ∧
    |(Box2d.InitCorners_rounded rnd b).min_x - (Box2d.InitCorners_rounded rnd2 b2).min_x| ≤ E ∧
    |(Box2d.InitCorners_rounded rnd b).max_y - (Box2d.InitCorners_rounded rnd2 b2).max_y| ≤ E ∧
    |(Box2d.InitCorners_rounded rnd b).min_y - (Box2d.InitCorners_rounded rnd2 b2).min_y| ≤ E := by
  obtain ⟨⟨h0x, h0y⟩, ⟨h1x, h1y⟩, ⟨h2x, h2y⟩, ⟨h3x, h3y⟩⟩ := h
  exact ⟨max_four_near h0x h1x h2x h3x, min_four_near h0x h1x h2x h3x,
    max_four_near h0y h1y h2y h3y, min_four_near h0y h1y h2y h3y⟩

theorem corner_le_extents (rnd : α → α) (b : Box2d α) (x0 x1 y0 y1 : α)
    (hall : ∀ corner ∈ [(Box2d.InitCorners_rounded rnd b).corners.col0,
        (Box2d.InitCorners_rounded rnd b).corners.col1,
        (Box2d.InitCorners_rounded rnd b).corners.col2,
        (Box2d.InitCorners_rounded rnd b).corners.col3],
      x0 ≤ corner.x ∧ corner.x ≤ x1 ∧ y0 ≤ corner.y ∧ corner.y ≤ y1) :
    x0 ≤ (Box2d.InitCorners_rounded rnd b).min_x ∧ (Box2d.InitCorners_rounded rnd b).max_x ≤ x1 ∧
    y0 ≤ (Box2d.InitCorners_rounded rnd b).min_y ∧
    (Box2d.InitCorners_rounded rnd b).max_y ≤ y1 := by
  have h0 := hall _ (List.mem_cons_self _ _)
  have h1 := hall _ (List.mem_cons_of_mem _ (List.mem_cons_self _ _))
  have h2 := hall _ (List.mem_cons_of_mem _ (List.mem_cons_of_mem _ (List.mem_cons_self _ _)))
  have h3 := hall _ (List.mem_cons_of_mem _ (List.mem_cons_of_mem _
    (List.mem_cons_of_mem _ (List.mem_cons_self _ _))))
  exact ⟨le_min (le_min (le_min h0.1 h1.1) h2.1) h3.1,
    max_le (max_le (max_le h0.2.1 h1.2.1) h2.2.1) h3.2.1,
    le_min (le_min (le_min h0.2.2.1 h1.2.2.1) h2.2.2.1) h3.2.2.1,
    max_le (max_le (max_le h0.2.2.2 h1.2.2.2) h2.2.2.2) h3.2.2.2⟩

theorem abs_sub_add_le {a c d v E0 E1 : α} (h1 : |a - (d + v)| ≤ E1) (h0 : |c - d| ≤ E0) :
    |a - (c + v)| ≤ E0 + E1 := by
  rw [abs_le] at h1 h0 ⊢
  constructor <;> linarith [h1.1, h1.2, h0.1, h0.2]

theorem length_near {g g2 M M2 m m2 E F : α} (hg : |g - g2| ≤ F) (h2 : g2 = M2 - m2)
    (hM : |M - M2| ≤ E) (hm : |m - m2| ≤ E) : |g - (M - m)| ≤ 2 * E + F := by
  rw [abs_le] at hg hM hm ⊢
  constructor <;> linarith [hg.1, hg.2, hM.1, hM.2, hm.1, hm.2]

theorem corner_within {x x2 c g g2 M2 m2 E F : α} (hn : |x - x2| ≤ E) (hlo : m2 ≤ x2)
    (hhi : x2 ≤ M2) (hmax : c + g2 / 2 = M2) (hmin : c - g2 / 2 = m2) (hg : |g - g2| ≤ F) :
    |x - c| ≤ g / 2 + (E + F / 2) := by
  rw [abs_le] at hn hg ⊢
  constructor <;> linarith [hn.1, hn.2, hg.1, hg.2]

theorem enclosing_near {x0 x1 c g g2 M M2 m m2 E F : α} (h0 : x0 ≤ m) (h1 : M ≤ x1)
    (hM : |M - M2| ≤ E) (hm : |m - m2| ≤ E) (hmax : c + g2 / 2 = M2) (hmin : c - g2 / 2 = m2)
    (hg : |g - g2| ≤ F) :
    (x0 - (E + F / 2) ≤ c - g / 2 ∧ c + g / 2 ≤ x1 + (E + F / 2)) ∧
      g ≤ x1 - x0 + (2 * E + F) := by
  rw [abs_le] at hM hm hg
  refine ⟨⟨?_, ?_⟩, ?_⟩ <;> linarith [hM.1, hM.2, hm.1, hm.2, hg.1, hg.2]

end Lemmas

section RealModel

theorem real_sound :
    Libm.Sound (⟨Real.cos, Real.sin, fun x y => Real.sqrt (x * x + y * y)⟩ : Libm ℝ) := by
  refine ⟨fun h => ?_, fun x y => Real.sqrt_nonneg _, fun x y => ?_⟩
  · have := Real.cos_sq_add_sin_sq h
    simp only [] ; nlinarith [this]
  · exact Real.mul_self_sqrt (by nlinarith [mul_self_nonneg x, mul_self_nonneg y])

theorem sqrt_hundred : Real.sqrt 100 = 10 := by
  rw [show (100 : ℝ) = 10 * 10 by norm_num]
  exact Real.sqrt_mul_self (by norm_num)

theorem nested_corners :
    (Box2d.new (⟨Real.cos, Real.sin, fun x y => Real.sqrt (x * x + y * y)⟩ : Libm ℝ)
        ⟨0, 0⟩ 0 10 10).corners = ⟨⟨5, -5⟩, ⟨5, 5⟩, ⟨-5, 5⟩, ⟨-5, -5⟩⟩ := by
  simp [Box2d.new, Box2d.InitCorners, Box2d.Local2Global, Vector2d.add]
  norm_num

theorem nested_edge (p q : Vector2d ℝ)
    (h : (p = ⟨5, -5⟩ ∧ q = ⟨5, 5⟩) ∨ (p = ⟨5, 5⟩ ∧ q = ⟨-5, 5⟩) ∨
      (p = ⟨-5, 5⟩ ∧ q = ⟨-5, -5⟩) ∨ (p = ⟨-5, -5⟩ ∧ q = ⟨5, -5⟩)) :
    (Box2d.new (⟨Real.cos, Real.sin, fun x y => Real.sqrt (x * x + y * y)⟩ : Libm ℝ)
        ⟨0, 0⟩ 0 1 1).DistanceTo_segment ⟨Real.cos, Real.sin, fun x y => Real.sqrt (x * x + y * y)⟩
        (1 / 10000000000)
        (LineSegment2d.new ⟨Real.cos, Real.sin, fun x y => Real.sqrt (x * x + y * y)⟩ p q)
      = some (9 / 2) := by
  have hlen : (LineSegment2d.new (⟨Real.cos, Real.sin, fun x y => Real.sqrt (x * x + y * y)⟩ :
      Libm ℝ) p q).length = 10 := by
    rcases h with ⟨rfl, rfl⟩ | ⟨rfl, rfl⟩ | ⟨rfl, rfl⟩ | ⟨rfl, rfl⟩ <;>
      (simp only [LineSegment2d.new]; norm_num [sqrt_hundred])
  rw [DistanceTo_segment_eq _ _ _ _ (by rw [hlen]; norm_num), hlen]
  simp only [Box2d.Global2Local, Vector2d.sub, new_center, new_cos_heading, new_sin_heading,
    new_half_length, new_half_width, LineSegment2d.new, Real.cos_zero, Real.sin_zero]
  rcases h with ⟨rfl, rfl⟩ | ⟨rfl, rfl⟩ | ⟨rfl, rfl⟩ | ⟨rfl, rfl⟩ <;>
  · norm_num [segLocal, regionCode, segCases, PtSegDistance, checkedDiv, InnerProd, CrossProd]

theorem step_up_example :
    (⟨5, 6, 0, MovementType.STRAIGHT_FORWARD⟩ : HybridState4DNode ℝ).IsSuccessor
      ⟨Real.cos, Real.sin, fun x y => Real.sqrt (x * x + y * y)⟩
      ⟨5, 7, 0, MovementType.STRAIGHT_FORWARD⟩ :=
  grid_successor _ _ _ 5 6 (by norm_num) (by norm_num) (by norm_num) (by norm_num)
    (by norm_num) (by norm_num) rfl rfl
    (Or.inr (Or.inr (Or.inr ⟨by norm_num, by norm_num, by decide⟩)))

theorem step_right_example (a : Int) (h : a = 5 ∨ a = 6) :
    (⟨(a : ℝ), 6, 0, MovementType.STRAIGHT_FORWARD⟩ : HybridState4DNode ℝ).IsSuccessor
      ⟨Real.cos, Real.sin, fun x y => Real.sqrt (x * x + y * y)⟩
      ⟨((a + 1 : Int) : ℝ), 6, 0, MovementType.STRAIGHT_FORWARD⟩ :=
  grid_successor _ _ _ a 6 rfl (by norm_num) (by omega) (by omega) (by norm_num)
    (by norm_num) rfl rfl
    (Or.inr (Or.inr (Or.inl ⟨rfl, by norm_num, by rcases h with rfl | rfl <;> decide⟩)))

theorem trunc_example :
    static_cast_int (5.5 : ℝ) = some 5 ∧ static_cast_int (6.25 : ℝ) = some 6 := by
  constructor
  · unfold static_cast_int
    rw [if_pos (by norm_num)]
    have h : ⌊(5.5 : ℝ)⌋ = 5 := by
      rw [Int.floor_eq_iff]
      constructor <;> norm_num
    rw [h]
    rfl
  · unfold static_cast_int
    rw [if_pos (by norm_num)]
    have h : ⌊(6.25 : ℝ)⌋ = 6 := by
      rw [Int.floor_eq_iff]
      constructor <;> norm_num
    rw [h]
    rfl

end RealModel

section Theorems

variable {α : Type} [LinearOrderedField α]

/-- C1: for every pair of oriented boxes, `A.HasOverlap(B)` and `B.HasOverlap(A)`
return the same boolean. -/
theorem HasOverlap_box_symm (a b : Box2d α) :
    a.HasOverlap_box b = b.HasOverlap_box a := by
  have hrej : (b.max_x < a.min_x ∨ b.min_x > a.max_x ∨ b.max_y < a.min_y ∨ b.min_y > a.max_y) ↔
      (a.max_x < b.min_x ∨ a.min_x > b.max_x ∨ a.max_y < b.min_y ∨ a.min_y > b.max_y) := by
    simp only [gt_iff_lt]
    tauto
  have habs : ∀ u v : α, u = -v → |u| = |v| := fun u v h => by rw [h, abs_neg]
  unfold Box2d.HasOverlap_box
  by_cases h : (b.max_x < a.min_x ∨ b.min_x > a.max_x ∨ b.max_y < a.min_y ∨ b.min_y > a.max_y)
  · rw [if_pos h, if_pos (hrej.mp h)]
  · rw [if_neg h, if_neg (mt hrej.mpr h)]
    simp only []
    rw [Bool.eq_iff_iff]
    simp only [Bool.and_eq_true, decide_eq_true_eq]
    have s1 : |(b.center.x - a.center.x) * a.cos_heading + (b.center.y - a.center.y) * a.sin_heading|
        = |(a.center.x - b.center.x) * a.cos_heading + (a.center.y - b.center.y) * a.sin_heading| :=
      habs _ _ (by ring)
    have s2 : |(b.center.x - a.center.x) * a.sin_heading - (b.center.y - a.center.y) * a.cos_heading|
        = |(a.center.x - b.center.x) * a.sin_heading - (a.center.y - b.center.y) * a.cos_heading| :=
      habs _ _ (by ring)
    have s3 : |(b.center.x - a.center.x) * b.cos_heading + (b.center.y - a.center.y) * b.sin_heading|
        = |(a.center.x - b.center.x) * b.cos_heading + (a.center.y - b.center.y) * b.sin_heading| :=
      habs _ _ (by ring)
    have s4 : |(b.center.x - a.center.x) * b.sin_heading - (b.center.y - a.center.y) * b.cos_heading|
        = |(a.center.x - b.center.x) * b.sin_heading - (a.center.y - b.center.y) * b.cos_heading| :=
      habs _ _ (by ring)
    rw [s1, s2, s3, s4]
    tauto

/-- C5, as amended: `DistanceTo(p) == 0` holds exactly when `p` passes the containment
test with tolerance zero; for a tolerance `eps >= 0` it implies `IsPointIn(p)`, and
`IsPointIn(p)` implies only `DistanceTo(p) <= 2 * eps`. -/
theorem DistanceTo_point_zero_IsPointIn (m : Libm α) (hm : m.Sound) (eps : α) (heps : 0 ≤ eps)
    (b : Box2d α) (p : Vector2d α) :
    (b.DistanceTo_point m p = 0 ↔ b.IsPointIn 0 p = true) ∧
    (b.DistanceTo_point m p = 0 → b.IsPointIn eps p = true) ∧
    (b.IsPointIn eps p = true → b.DistanceTo_point m p ≤ 2 * eps) := by
  have hc := DistanceTo_point_eq_zero hm b p
  refine ⟨?_, ?_, ?_⟩
  · rw [hc]
    simp only [Box2d.Contains, Box2d.IsPointIn, add_zero, Bool.and_eq_true, decide_eq_true_eq]
  · rw [hc]
    simp only [Box2d.Contains, Box2d.IsPointIn, Bool.and_eq_true, decide_eq_true_eq]
    rintro ⟨h1, h2⟩
    constructor <;> linarith
  · simp only [Box2d.IsPointIn, Bool.and_eq_true, decide_eq_true_eq, Box2d.DistanceTo_point]
    rintro ⟨h1, h2⟩
    split_ifs with h3 h4
    · apply max_le <;> linarith
    · linarith
    · push_neg at h3 h4
      have hh := hypot_mul_self hm (|(b.Global2Local (p.sub b.center)).x| - b.half_length)
        (|(b.Global2Local (p.sub b.center)).y| - b.half_width)
      have hn := hypot_nonneg hm (|(b.Global2Local (p.sub b.center)).x| - b.half_length)
        (|(b.Global2Local (p.sub b.center)).y| - b.half_width)
      by_contra hc'
      push_neg at hc'
      nlinarith [mul_self_nonneg (2 * eps - (|(b.Global2Local (p.sub b.center)).x| - b.half_length)
        - (|(b.Global2Local (p.sub b.center)).y| - b.half_width))]

/-- C5 as amended, at a concrete input: the box of size 2 x 2 at the origin, its corner
`(1, 1)` and tolerance `1e-10`. -/
theorem DistanceTo_point_zero_IsPointIn_witness :
    ((Box2d.new (⟨Real.cos, Real.sin, fun x y => Real.sqrt (x * x + y * y)⟩ : Libm ℝ) ⟨0, 0⟩ 0 2 2).DistanceTo_point (⟨Real.cos, Real.sin, fun x y => Real.sqrt (x * x + y * y)⟩ : Libm ℝ) ⟨1, 1⟩ = 0 ↔
      (Box2d.new (⟨Real.cos, Real.sin, fun x y => Real.sqrt (x * x + y * y)⟩ : Libm ℝ) ⟨0, 0⟩ 0 2 2).IsPointIn 0 ⟨1, 1⟩ = true) ∧
    ((Box2d.new (⟨Real.cos, Real.sin, fun x y => Real.sqrt (x * x + y * y)⟩ : Libm ℝ) ⟨0, 0⟩ 0 2 2).DistanceTo_point (⟨Real.cos, Real.sin, fun x y => Real.sqrt (x * x + y * y)⟩ : Libm ℝ) ⟨1, 1⟩ = 0 →
      (Box2d.new (⟨Real.cos, Real.sin, fun x y => Real.sqrt (x * x + y * y)⟩ : Libm ℝ) ⟨0, 0⟩ 0 2 2).IsPointIn (1 / 10000000000) ⟨1, 1⟩ = true) ∧
    ((Box2d.new (⟨Real.cos, Real.sin, fun x y => Real.sqrt (x * x + y * y)⟩ : Libm ℝ) ⟨0, 0⟩ 0 2 2).IsPointIn (1 / 10000000000) ⟨1, 1⟩ = true →
      (Box2d.new (⟨Real.cos, Real.sin, fun x y => Real.sqrt (x * x + y * y)⟩ : Libm ℝ) ⟨0, 0⟩ 0 2 2).DistanceTo_point (⟨Real.cos, Real.sin, fun x y => Real.sqrt (x * x + y * y)⟩ : Libm ℝ) ⟨1, 1⟩ ≤ 2 * (1 / 10000000000)) :=
  DistanceTo_point_zero_IsPointIn _ real_sound (1 / 10000000000) (by norm_num) _ _

/-- C5, counterexample: with tolerance `1e-10`, the box of length 2 and width 2 at the
origin with heading 0 and the point `(1 + 1e-10, 0)`: `IsPointIn` is true while
`DistanceTo` is `1e-10`, not zero.  (Any positive tolerance gives such a point.) -/
theorem DistanceTo_point_zero_iff_IsPointIn_fails :
    (Box2d.new (⟨Real.cos, Real.sin, fun x y => Real.sqrt (x * x + y * y)⟩ : Libm ℝ)
        ⟨0, 0⟩ 0 2 2).IsPointIn (1 / 10000000000) ⟨1 + 1 / 10000000000, 0⟩ = true ∧
    (Box2d.new (⟨Real.cos, Real.sin, fun x y => Real.sqrt (x * x + y * y)⟩ : Libm ℝ)
        ⟨0, 0⟩ 0 2 2).DistanceTo_point ⟨Real.cos, Real.sin, fun x y => Real.sqrt (x * x + y * y)⟩
        ⟨1 + 1 / 10000000000, 0⟩ = 1 / 10000000000 ∧
    ¬ ((Box2d.new (⟨Real.cos, Real.sin, fun x y => Real.sqrt (x * x + y * y)⟩ : Libm ℝ)
        ⟨0, 0⟩ 0 2 2).DistanceTo_point ⟨Real.cos, Real.sin, fun x y => Real.sqrt (x * x + y * y)⟩
        ⟨1 + 1 / 10000000000, 0⟩ = 0 ↔
      (Box2d.new (⟨Real.cos, Real.sin, fun x y => Real.sqrt (x * x + y * y)⟩ : Libm ℝ)
        ⟨0, 0⟩ 0 2 2).IsPointIn (1 / 10000000000) ⟨1 + 1 / 10000000000, 0⟩ = true) := by
  have h1 : (Box2d.new (⟨Real.cos, Real.sin, fun x y => Real.sqrt (x * x + y * y)⟩ : Libm ℝ)
        ⟨0, 0⟩ 0 2 2).IsPointIn (1 / 10000000000) ⟨1 + 1 / 10000000000, 0⟩ = true := by
    simp [Box2d.IsPointIn, Box2d.Global2Local, Vector2d.sub]
    rw [abs_of_nonneg] <;> norm_num
  have h2 : (Box2d.new (⟨Real.cos, Real.sin, fun x y => Real.sqrt (x * x + y * y)⟩ : Libm ℝ)
        ⟨0, 0⟩ 0 2 2).DistanceTo_point ⟨Real.cos, Real.sin, fun x y => Real.sqrt (x * x + y * y)⟩
        ⟨1 + 1 / 10000000000, 0⟩ = 1 / 10000000000 := by
    simp [Box2d.DistanceTo_point, Box2d.Global2Local, Vector2d.sub]
    rw [abs_of_nonneg] <;> norm_num
  refine ⟨h1, h2, ?_⟩
  rw [h2]
  intro h
  have := h.2 h1
  norm_num at this

/-- C7: for a segment whose end equals its start, `DistanceTo(segment)` is
`DistanceTo(start)` (the tolerance being non-negative). -/
theorem DistanceTo_segment_degenerate (m : Libm α) (hm : m.Sound) (eps : α) (heps : 0 ≤ eps)
    (b : Box2d α) (p : Vector2d α) :
    b.DistanceTo_segment m eps (LineSegment2d.new m p p) = some (b.DistanceTo_point m p) := by
  have h0 : (LineSegment2d.new m p p).length ≤ eps := by
    show m.hypot (p.x - p.x) (p.y - p.y) ≤ eps
    rw [sub_self, sub_self, hypot_zero hm]
    exact heps
  unfold Box2d.DistanceTo_segment
  rw [if_pos h0]
  rfl

/-- C7 at a concrete input: the box of size 4 x 2 at the origin and the segment from
`(5, 3)` to `(5, 3)`, tolerance `1e-10`. -/
theorem DistanceTo_segment_degenerate_witness :
    (Box2d.new (⟨Real.cos, Real.sin, fun x y => Real.sqrt (x * x + y * y)⟩ : Libm ℝ) ⟨0, 0⟩ 0 4 2).DistanceTo_segment (⟨Real.cos, Real.sin, fun x y => Real.sqrt (x * x + y * y)⟩ : Libm ℝ) (1 / 10000000000)
        (LineSegment2d.new (⟨Real.cos, Real.sin, fun x y => Real.sqrt (x * x + y * y)⟩ : Libm ℝ) ⟨5, 3⟩ ⟨5, 3⟩) =
      some ((Box2d.new (⟨Real.cos, Real.sin, fun x y => Real.sqrt (x * x + y * y)⟩ : Libm ℝ) ⟨0, 0⟩ 0 4 2).DistanceTo_point (⟨Real.cos, Real.sin, fun x y => Real.sqrt (x * x + y * y)⟩ : Libm ℝ) ⟨5, 3⟩) :=
  DistanceTo_segment_degenerate _ real_sound (1 / 10000000000) (by norm_num) _ ⟨5, 3⟩

/-- C8: `DistanceTo(segment)` never divides by zero.  With a tolerance `eps >= 0` the
call always has a result (the only division, by the segment length inside
`PtSegDistance`, is reached with a length above `eps`), and a segment of length at
most `eps` returns the distance to its start point. -/
theorem DistanceTo_segment_no_zero_division (m : Libm α) (eps : α) (heps : 0 ≤ eps)
    (b : Box2d α) (line_segment : LineSegment2d α) :
    (∃ d, b.DistanceTo_segment m eps line_segment = some d) ∧
    (line_segment.length ≤ eps →
      b.DistanceTo_segment m eps line_segment =
        some (b.DistanceTo_point m line_segment.start)) := by
  constructor
  · exact Option.isSome_iff_exists.1 (DistanceTo_segment_isSome m eps heps b line_segment)
  · intro h
    unfold Box2d.DistanceTo_segment
    rw [if_pos h]

/-- C8 at a concrete input: the box of size 4 x 2 at the origin and the segment from
`(5, 3)` to `(6, -3)`, tolerance `1e-10`. -/
theorem DistanceTo_segment_no_zero_division_witness :
    (∃ d, (Box2d.new (⟨Real.cos, Real.sin, fun x y => Real.sqrt (x * x + y * y)⟩ : Libm ℝ) ⟨0, 0⟩ 0 4 2).DistanceTo_segment (⟨Real.cos, Real.sin, fun x y => Real.sqrt (x * x + y * y)⟩ : Libm ℝ) (1 / 10000000000)
        (LineSegment2d.new (⟨Real.cos, Real.sin, fun x y => Real.sqrt (x * x + y * y)⟩ : Libm ℝ) ⟨5, 3⟩ ⟨6, -3⟩) = some d) ∧
    ((LineSegment2d.new (⟨Real.cos, Real.sin, fun x y => Real.sqrt (x * x + y * y)⟩ : Libm ℝ) ⟨5, 3⟩ ⟨6, -3⟩).length ≤ 1 / 10000000000 →
      (Box2d.new (⟨Real.cos, Real.sin, fun x y => Real.sqrt (x * x + y * y)⟩ : Libm ℝ) ⟨0, 0⟩ 0 4 2).DistanceTo_segment (⟨Real.cos, Real.sin, fun x y => Real.sqrt (x * x + y * y)⟩ : Libm ℝ) (1 / 10000000000)
          (LineSegment2d.new (⟨Real.cos, Real.sin, fun x y => Real.sqrt (x * x + y * y)⟩ : Libm ℝ) ⟨5, 3⟩ ⟨6, -3⟩) =
        some ((Box2d.new (⟨Real.cos, Real.sin, fun x y => Real.sqrt (x * x + y * y)⟩ : Libm ℝ) ⟨0, 0⟩ 0 4 2).DistanceTo_point (⟨Real.cos, Real.sin, fun x y => Real.sqrt (x * x + y * y)⟩ : Libm ℝ)
          (LineSegment2d.new (⟨Real.cos, Real.sin, fun x y => Real.sqrt (x * x + y * y)⟩ : Libm ℝ) ⟨5, 3⟩ ⟨6, -3⟩).start)) :=
  DistanceTo_segment_no_zero_division _ (1 / 10000000000) (by norm_num) _ _

/-- C10, failing input: the box of length 1 and width 1 lies strictly inside the box of
length 10 and width 10 (same center, heading 0).  `HasOverlap` is true, yet
`DistanceTo` is 4.5, the distance to the nearest edge of the outer box. -/
theorem DistanceTo_box_nested :
    (Box2d.new (⟨Real.cos, Real.sin, fun x y => Real.sqrt (x * x + y * y)⟩ : Libm ℝ)
        ⟨0, 0⟩ 0 1 1).HasOverlap_box
      (Box2d.new ⟨Real.cos, Real.sin, fun x y => Real.sqrt (x * x + y * y)⟩ ⟨0, 0⟩ 0 10 10)
      = true ∧
    (Box2d.new (⟨Real.cos, Real.sin, fun x y => Real.sqrt (x * x + y * y)⟩ : Libm ℝ)
        ⟨0, 0⟩ 0 1 1).DistanceTo_box ⟨Real.cos, Real.sin, fun x y => Real.sqrt (x * x + y * y)⟩
        (1 / 10000000000)
        (Box2d.new ⟨Real.cos, Real.sin, fun x y => Real.sqrt (x * x + y * y)⟩ ⟨0, 0⟩ 0 10 10)
      = some ((9 / 2 : ℝ) : WithTop ℝ) := by
  constructor
  · simp [Box2d.HasOverlap_box, new_max_x, new_min_x, new_max_y, new_min_y]
    norm_num [abs_of_pos]
  · unfold Box2d.DistanceTo_box
    rw [nested_corners]
    simp only [nested_edge _ _ (Or.inl ⟨rfl, rfl⟩), nested_edge _ _ (Or.inr (Or.inl ⟨rfl, rfl⟩)),
      nested_edge _ _ (Or.inr (Or.inr (Or.inl ⟨rfl, rfl⟩))),
      nested_edge _ _ (Or.inr (Or.inr (Or.inr ⟨rfl, rfl⟩)))]
    simp

/-- C13: for every box and every point, `IsPointOnBoundary(p)` is true exactly when
`IsPointIn(p)` is true and at least one box-local coordinate of `p` is within the
tolerance of its half extent in absolute value; in particular `IsPointOnBoundary(p)`
implies `IsPointIn(p)`. -/
theorem IsPointOnBoundary_iff (eps : α) (b : Box2d α) (p : Vector2d α) :
    b.IsPointOnBoundary eps p = true ↔
      b.IsPointIn eps p = true ∧
        (|(|(b.Global2Local (p.sub b.center)).x| - b.half_length)| ≤ eps ∨
          |(|(b.Global2Local (p.sub b.center)).y| - b.half_width)| ≤ eps) := by
  simp only [Box2d.IsPointOnBoundary, Box2d.IsPointIn, Bool.or_eq_true, Bool.and_eq_true,
    decide_eq_true_eq]
  constructor
  · rintro (⟨h1, h2⟩ | ⟨h1, h2⟩)
    · exact ⟨⟨by linarith [(abs_le.1 h1).2], h2⟩, Or.inl h1⟩
    · exact ⟨⟨h2, by linarith [(abs_le.1 h1).2]⟩, Or.inr h1⟩
  · rintro ⟨⟨h1, h2⟩, h3 | h3⟩
    · exact Or.inl ⟨h3, h2⟩
    · exact Or.inr ⟨h3, h1⟩

/-- C14: a box built at a pose with non-negative length and width contains the position
of the pose: `IsPointIn(center)` is true (the tolerance being non-negative). -/
theorem IsPointIn_center (m : Libm α) (eps : α) (heps : 0 ≤ eps) (c : Vector2d α)
    (h l w : α) (hl : 0 ≤ l) (hw : 0 ≤ w) :
    (Box2d.new m c h l w).IsPointIn eps c = true := by
  simp only [Box2d.IsPointIn, Box2d.Global2Local, Vector2d.sub, new_center, new_cos_heading,
    new_sin_heading, new_half_length, new_half_width, sub_self, neg_zero, zero_mul, add_zero,
    abs_zero, Bool.and_eq_true, decide_eq_true_eq]
  constructor <;> linarith

theorem IsPointIn_center_witness :
    (0 : ℝ) ≤ 1 / 10000000000 ∧ (0 : ℝ) ≤ 4 ∧ (0 : ℝ) ≤ 2 ∧
    (Box2d.new (⟨Real.cos, Real.sin, fun x y => Real.sqrt (x * x + y * y)⟩ : Libm ℝ)
      ⟨3, 1⟩ 1 4 2).IsPointIn (1 / 10000000000) ⟨3, 1⟩ = true :=
  ⟨by norm_num, by norm_num, by norm_num,
   IsPointIn_center _ _ (by norm_num) _ _ _ _ (by norm_num) (by norm_num)⟩

/-- C15, counterexample: in the arithmetic of `double` the box with centre `(0.3, 0)`,
heading 0, length 0.2 and width 1 has the corner abscissas `0.4` and
`0.19999999999999998`, so `max_x - min_x` is `0.20000000000000004`, and
`GetSmallestAABox` returns the length `0.2`: the corner at `0.4` is outside the box
returned, whose right edge is at `0.3 + 0.1`, below `0.4`. -/
theorem GetSmallestAABox_rounded_loose :
    ((Box2d.new_rounded binary64
      (⟨Real.cos, Real.sin, fun x y => Real.sqrt (x * x + y * y)⟩ : Libm ℝ)
      ⟨binary64 0.3, 0⟩ 0 (binary64 0.2) 1).GetSmallestAABox_rounded binary64).length =
      3602879701896397 / 18014398509481984 ∧
    (Box2d.new_rounded binary64
      (⟨Real.cos, Real.sin, fun x y => Real.sqrt (x * x + y * y)⟩ : Libm ℝ)
      ⟨binary64 0.3, 0⟩ 0 (binary64 0.2) 1).max_x -
      (Box2d.new_rounded binary64
      (⟨Real.cos, Real.sin, fun x y => Real.sqrt (x * x + y * y)⟩ : Libm ℝ)
      ⟨binary64 0.3, 0⟩ 0 (binary64 0.2) 1).min_x =
      7205759403792795 / 36028797018963968 ∧
    ((Box2d.new_rounded binary64
      (⟨Real.cos, Real.sin, fun x y => Real.sqrt (x * x + y * y)⟩ : Libm ℝ)
      ⟨binary64 0.3, 0⟩ 0 (binary64 0.2) 1).GetSmallestAABox_rounded binary64).center.x +
      ((Box2d.new_rounded binary64
      (⟨Real.cos, Real.sin, fun x y => Real.sqrt (x * x + y * y)⟩ : Libm ℝ)
      ⟨binary64 0.3, 0⟩ 0 (binary64 0.2) 1).GetSmallestAABox_rounded binary64).length / 2 <
      (Box2d.new_rounded binary64
      (⟨Real.cos, Real.sin, fun x y => Real.sqrt (x * x + y * y)⟩ : Libm ℝ)
      ⟨binary64 0.3, 0⟩ 0 (binary64 0.2) 1).corners.col0.x := by
  have r1 : binary64 (3 / 10 : ℝ) =
      ((5404319552844595 : Int) : ℝ) / 2 ^ 54 :=
    roundToFormat_dyadic 53 (-1022) _ 3 5404319552844595
      10 54
      (by norm_num) (by decide) (by decide) (by decide) (by decide) (by decide) (by decide)
  have r2 : binary64 (1 / 5 : ℝ) =
      ((7205759403792794 : Int) : ℝ) / 2 ^ 55 :=
    roundToFormat_dyadic 53 (-1022) _ 1 7205759403792794
      5 55
      (by norm_num) (by decide) (by decide) (by decide) (by decide) (by decide) (by decide)
  have r3 : binary64 (3602879701896397 / 36028797018963968 : ℝ) =
      ((7205759403792794 : Int) : ℝ) / 2 ^ 56 :=
    roundToFormat_dyadic 53 (-1022) _ 3602879701896397 7205759403792794
      36028797018963968 56
      (by norm_num) (by decide) (by decide) (by decide) (by decide) (by decide) (by decide)
  have r4 : binary64 (1 / 2 : ℝ) =
      ((4503599627370496 : Int) : ℝ) / 2 ^ 53 :=
    roundToFormat_dyadic 53 (-1022) _ 1 4503599627370496
      2 53
      (by norm_num) (by decide) (by decide) (by decide) (by decide) (by decide) (by decide)
  have r5 : binary64 (0 : ℝ) = 0 := roundToFormat_zero 53 (-1022)
  have r6 : binary64 (-(1 / 2) : ℝ) =
      ((-4503599627370496 : Int) : ℝ) / 2 ^ 53 :=
    roundToFormat_dyadic 53 (-1022) _ (-1) (-4503599627370496)
      2 53
      (by norm_num) (by decide) (by decide) (by decide) (by decide) (by decide) (by decide)
  have r7 : binary64 (14411518807585587 / 36028797018963968 : ℝ) =
      ((7205759403792794 : Int) : ℝ) / 2 ^ 54 :=
    roundToFormat_dyadic 53 (-1022) _ 14411518807585587 7205759403792794
      36028797018963968 54
      (by norm_num) (by decide) (by decide) (by decide) (by decide) (by decide) (by decide)
  have r8 : binary64 (-(3602879701896397 / 36028797018963968) : ℝ) =
      ((-7205759403792794 : Int) : ℝ) / 2 ^ 56 :=
    roundToFormat_dyadic 53 (-1022) _ (-3602879701896397) (-7205759403792794)
      36028797018963968 56
      (by norm_num) (by decide) (by decide) (by decide) (by decide) (by decide) (by decide)
  have r9 : binary64 (7205759403792793 / 36028797018963968 : ℝ) =
      ((7205759403792793 : Int) : ℝ) / 2 ^ 55 :=
    roundToFormat_dyadic 53 (-1022) _ 7205759403792793 7205759403792793
      36028797018963968 55
      (by norm_num) (by decide) (by decide) (by decide) (by decide) (by decide) (by decide)
  have r10 : binary64 (3602879701896397 / 18014398509481984 : ℝ) =
      ((7205759403792794 : Int) : ℝ) / 2 ^ 55 :=
    roundToFormat_dyadic 53 (-1022) _ 3602879701896397 7205759403792794
      18014398509481984 55
      (by norm_num) (by decide) (by decide) (by decide) (by decide) (by decide) (by decide)
  have r11 : binary64 (1 : ℝ) =
      ((4503599627370496 : Int) : ℝ) / 2 ^ 52 :=
    roundToFormat_dyadic 53 (-1022) _ 1 4503599627370496
      1 52
      (by norm_num) (by decide) (by decide) (by decide) (by decide) (by decide) (by decide)
  norm_num [Box2d.GetSmallestAABox_rounded, Box2d.new_rounded, Box2d.InitCorners_rounded,
    Box2d.Local2Global_rounded, Vector2d.add_rounded, Real.cos_zero, Real.sin_zero,
    max_def, min_def, abs_of_nonneg, r1, r2, r3, r4, r5, r6, r7, r8, r9, r10, r11]

/-- C15 (amended): every box is the result of `InitCorners`.  Whatever the rounding `rnd` of
the operations, `GetSmallestAABox` returns the axis-aligned box with the centre of the box,
and its length and width are computed from the half extents and the cosine and sine of the
heading, not from the corners.  Let `E` bound the rounding error of the corner coordinates
and `F` that of the length and of the width returned.  Then the length differs from
`max_x - min_x`, and the width from `max_y - min_y`, by at most `2 * E + F`; every corner
lies within the box returned widened by `E + F / 2` on every side; and an axis-aligned
rectangle `[x0, x1] × [y0, y1]` that contains the four corners contains the box returned up
to `E + F / 2` on every side, so that the length is at most `x1 - x0 + (2 * E + F)` and the
width at most `y1 - y0 + (2 * E + F)`.  In exact arithmetic `E = F = 0`. -/
theorem GetSmallestAABox_rounded_tight (rnd : α → α) (b : Box2d α) (E F : α)
    (hcorners : (Box2d.InitCorners_rounded rnd b).corners.Near E (Box2d.InitCorners b).corners)
    (hlength : |((Box2d.InitCorners_rounded rnd b).GetSmallestAABox_rounded rnd).length -
      (Box2d.InitCorners b).GetSmallestAABox.length| ≤ F)
    (hwidth : |((Box2d.InitCorners_rounded rnd b).GetSmallestAABox_rounded rnd).width -
      (Box2d.InitCorners b).GetSmallestAABox.width| ≤ F) :
    ((Box2d.InitCorners_rounded rnd b).GetSmallestAABox_rounded rnd).center =
      (Box2d.InitCorners_rounded rnd b).center ∧
    ((Box2d.InitCorners_rounded rnd b).GetSmallestAABox_rounded rnd).length =
      rnd (rnd (|rnd (b.cos_heading * b.half_length)| +
        |rnd (b.sin_heading * b.half_width)|) * 2) ∧
    ((Box2d.InitCorners_rounded rnd b).GetSmallestAABox_rounded rnd).width =
      rnd (rnd (|rnd (b.sin_heading * b.half_length)| +
        |rnd (b.cos_heading * b.half_width)|) * 2) ∧
    |((Box2d.InitCorners_rounded rnd b).GetSmallestAABox_rounded rnd).length -
      ((Box2d.InitCorners_rounded rnd b).max_x - (Box2d.InitCorners_rounded rnd b).min_x)| ≤
        2 * E + F ∧
    |((Box2d.InitCorners_rounded rnd b).GetSmallestAABox_rounded rnd).width -
      ((Box2d.InitCorners_rounded rnd b).max_y - (Box2d.InitCorners_rounded rnd b).min_y)| ≤
        2 * E + F ∧
    (∀ corner ∈ [(Box2d.InitCorners_rounded rnd b).corners.col0,
        (Box2d.InitCorners_rounded rnd b).corners.col1,
        (Box2d.InitCorners_rounded rnd b).corners.col2,
        (Box2d.InitCorners_rounded rnd b).corners.col3],
      |corner.x - ((Box2d.InitCorners_rounded rnd b).GetSmallestAABox_rounded rnd).center.x| ≤
        ((Box2d.InitCorners_rounded rnd b).GetSmallestAABox_rounded rnd).length / 2 +
          (E + F / 2) ∧
      |corner.y - ((Box2d.InitCorners_rounded rnd b).GetSmallestAABox_rounded rnd).center.y| ≤
        ((Box2d.InitCorners_rounded rnd b).GetSmallestAABox_rounded rnd).width / 2 +
          (E + F / 2)) ∧
    ∀ x0 x1 y0 y1 : α,
      (∀ corner ∈ [(Box2d.InitCorners_rounded rnd b).corners.col0,
        (Box2d.InitCorners_rounded rnd b).corners.col1,
        (Box2d.InitCorners_rounded rnd b).corners.col2,
        (Box2d.InitCorners_rounded rnd b).corners.col3],
        x0 ≤ corner.x ∧ corner.x ≤ x1 ∧ y0 ≤ corner.y ∧ corner.y ≤ y1) →
      (x0 - (E + F / 2) ≤
          ((Box2d.InitCorners_rounded rnd b).GetSmallestAABox_rounded rnd).center.x -
          ((Box2d.InitCorners_rounded rnd b).GetSmallestAABox_rounded rnd).length / 2 ∧
        ((Box2d.InitCorners_rounded rnd b).GetSmallestAABox_rounded rnd).center.x +
          ((Box2d.InitCorners_rounded rnd b).GetSmallestAABox_rounded rnd).length / 2 ≤
            x1 + (E + F / 2) ∧
        y0 - (E + F / 2) ≤
          ((Box2d.InitCorners_rounded rnd b).GetSmallestAABox_rounded rnd).center.y -
          ((Box2d.InitCorners_rounded rnd b).GetSmallestAABox_rounded rnd).width / 2 ∧
        ((Box2d.InitCorners_rounded rnd b).GetSmallestAABox_rounded rnd).center.y +
          ((Box2d.InitCorners_rounded rnd b).GetSmallestAABox_rounded rnd).width / 2 ≤
            y1 + (E + F / 2)) ∧
      ((Box2d.InitCorners_rounded rnd b).GetSmallestAABox_rounded rnd).length ≤
        x1 - x0 + (2 * E + F) ∧
      ((Box2d.InitCorners_rounded rnd b).GetSmallestAABox_rounded rnd).width ≤
        y1 - y0 + (2 * E + F) := by
  obtain ⟨-, hlen, hwid, hxmax, hxmin, hymax, hymin⟩ := GetSmallestAABox_InitCorners b
  obtain ⟨nx1, nx0, ny1, ny0⟩ := extents_near rnd id b b E hcorners
  rw [InitCorners_rounded_id] at nx1 nx0 ny1 ny0
  have hgen : ∀ c c2 : Vector2d α, c.Near E c2 →
      c2 ∈ [(Box2d.InitCorners b).corners.col0, (Box2d.InitCorners b).corners.col1,
        (Box2d.InitCorners b).corners.col2, (Box2d.InitCorners b).corners.col3] →
      |c.x - ((Box2d.InitCorners_rounded rnd b).GetSmallestAABox_rounded rnd).center.x| ≤
        ((Box2d.InitCorners_rounded rnd b).GetSmallestAABox_rounded rnd).length / 2 +
          (E + F / 2) ∧
      |c.y - ((Box2d.InitCorners_rounded rnd b).GetSmallestAABox_rounded rnd).center.y| ≤
        ((Box2d.InitCorners_rounded rnd b).GetSmallestAABox_rounded rnd).width / 2 +
          (E + F / 2) := by
    intro c c2 hnear hmem
    obtain ⟨b1, b2, b3, b4⟩ := InitCorners_corner_bounds b c2 hmem
    exact ⟨corner_within hnear.1 b1 b2 hxmax hxmin hlength,
      corner_within hnear.2 b3 b4 hymax hymin hwidth⟩
  refine ⟨rfl, ?_, ?_, length_near hlength hlen nx1 nx0, length_near hwidth hwid ny1 ny0,
    ?_, ?_⟩
  · simp only [Box2d.GetSmallestAABox_rounded, Box2d.InitCorners_rounded]
    norm_num
  · simp only [Box2d.GetSmallestAABox_rounded, Box2d.InitCorners_rounded]
    norm_num
  · intro corner hcorner
    simp only [List.mem_cons, List.mem_singleton, List.not_mem_nil, or_false] at hcorner
    rcases hcorner with rfl | rfl | rfl | rfl
    · exact hgen _ _ hcorners.1 (List.mem_cons_self _ _)
    · exact hgen _ _ hcorners.2.1 (List.mem_cons_of_mem _ (List.mem_cons_self _ _))
    · exact hgen _ _ hcorners.2.2.1
        (List.mem_cons_of_mem _ (List.mem_cons_of_mem _ (List.mem_cons_self _ _)))
    · exact hgen _ _ hcorners.2.2.2 (List.mem_cons_of_mem _ (List.mem_cons_of_mem _
        (List.mem_cons_of_mem _ (List.mem_cons_self _ _))))
  · intro x0 x1 y0 y1 hall
    obtain ⟨b1, b2, b3, b4⟩ := corner_le_extents rnd b x0 x1 y0 y1 hall
    have ex := enclosing_near b1 b2 nx1 nx0 hxmax hxmin hlength
    have ey := enclosing_near b3 b4 ny1 ny0 hymax hymin hwidth
    exact ⟨⟨ex.1.1, ex.1.2, ey.1.1, ey.1.2⟩, ex.2, ey.2⟩

/-- C15 at a concrete input, in the arithmetic of `double`: for the box with centre
`(0.3, 0)`, heading 0, length 0.2 and width 1 the corner coordinates are within `2^-55` of
the exact ones and the length and the width returned are the exact ones, so the length
returned is within `2^-54` of `max_x - min_x`. -/
theorem GetSmallestAABox_rounded_tight_witness :
    |((Box2d.InitCorners_rounded binary64 (Box2d.new_rounded binary64
      (⟨Real.cos, Real.sin, fun x y => Real.sqrt (x * x + y * y)⟩ : Libm ℝ)
      ⟨binary64 0.3, 0⟩ 0 (binary64 0.2) 1)).GetSmallestAABox_rounded binary64).length -
      ((Box2d.InitCorners_rounded binary64 (Box2d.new_rounded binary64
      (⟨Real.cos, Real.sin, fun x y => Real.sqrt (x * x + y * y)⟩ : Libm ℝ)
      ⟨binary64 0.3, 0⟩ 0 (binary64 0.2) 1)).max_x -
        (Box2d.InitCorners_rounded binary64 (Box2d.new_rounded binary64
      (⟨Real.cos, Real.sin, fun x y => Real.sqrt (x * x + y * y)⟩ : Libm ℝ)
      ⟨binary64 0.3, 0⟩ 0 (binary64 0.2) 1)).min_x)| ≤
      2 * (1 / 2 ^ 55) + 0 := by
  have r1 : binary64 (3 / 10 : ℝ) =
      ((5404319552844595 : Int) : ℝ) / 2 ^ 54 :=
    roundToFormat_dyadic 53 (-1022) _ 3 5404319552844595
      10 54
      (by norm_num) (by decide) (by decide) (by decide) (by decide) (by decide) (by decide)
  have r2 : binary64 (1 / 5 : ℝ) =
      ((7205759403792794 : Int) : ℝ) / 2 ^ 55 :=
    roundToFormat_dyadic 53 (-1022) _ 1 7205759403792794
      5 55
      (by norm_num) (by decide) (by decide) (by decide) (by decide) (by decide) (by decide)
  have r3 : binary64 (3602879701896397 / 36028797018963968 : ℝ) =
      ((7205759403792794 : Int) : ℝ) / 2 ^ 56 :=
    roundToFormat_dyadic 53 (-1022) _ 3602879701896397 7205759403792794
      36028797018963968 56
      (by norm_num) (by decide) (by decide) (by decide) (by decide) (by decide) (by decide)
  have r4 : binary64 (1 / 2 : ℝ) =
      ((4503599627370496 : Int) : ℝ) / 2 ^ 53 :=
    roundToFormat_dyadic 53 (-1022) _ 1 4503599627370496
      2 53
      (by norm_num) (by decide) (by decide) (by decide) (by decide) (by decide) (by decide)
  have r5 : binary64 (0 : ℝ) = 0 := roundToFormat_zero 53 (-1022)
  have r6 : binary64 (-(1 / 2) : ℝ) =
      ((-4503599627370496 : Int) : ℝ) / 2 ^ 53 :=
    roundToFormat_dyadic 53 (-1022) _ (-1) (-4503599627370496)
      2 53
      (by norm_num) (by decide) (by decide) (by decide) (by decide) (by decide) (by decide)
  have r7 : binary64 (14411518807585587 / 36028797018963968 : ℝ) =
      ((7205759403792794 : Int) : ℝ) / 2 ^ 54 :=
    roundToFormat_dyadic 53 (-1022) _ 14411518807585587 7205759403792794
      36028797018963968 54
      (by norm_num) (by decide) (by decide) (by decide) (by decide) (by decide) (by decide)
  have r8 : binary64 (-(3602879701896397 / 36028797018963968) : ℝ) =
      ((-7205759403792794 : Int) : ℝ) / 2 ^ 56 :=
    roundToFormat_dyadic 53 (-1022) _ (-3602879701896397) (-7205759403792794)
      36028797018963968 56
      (by norm_num) (by decide) (by decide) (by decide) (by decide) (by decide) (by decide)
  have r9 : binary64 (7205759403792793 / 36028797018963968 : ℝ) =
      ((7205759403792793 : Int) : ℝ) / 2 ^ 55 :=
    roundToFormat_dyadic 53 (-1022) _ 7205759403792793 7205759403792793
      36028797018963968 55
      (by norm_num) (by decide) (by decide) (by decide) (by decide) (by decide) (by decide)
  have r10 : binary64 (3602879701896397 / 18014398509481984 : ℝ) =
      ((7205759403792794 : Int) : ℝ) / 2 ^ 55 :=
    roundToFormat_dyadic 53 (-1022) _ 3602879701896397 7205759403792794
      18014398509481984 55
      (by norm_num) (by decide) (by decide) (by decide) (by decide) (by decide) (by decide)
  have r11 : binary64 (1 : ℝ) =
      ((4503599627370496 : Int) : ℝ) / 2 ^ 52 :=
    roundToFormat_dyadic 53 (-1022) _ 1 4503599627370496
      1 52
      (by norm_num) (by decide) (by decide) (by decide) (by decide) (by decide) (by decide)
  exact (GetSmallestAABox_rounded_tight binary64 (Box2d.new_rounded binary64
      (⟨Real.cos, Real.sin, fun x y => Real.sqrt (x * x + y * y)⟩ : Libm ℝ)
      ⟨binary64 0.3, 0⟩ 0 (binary64 0.2) 1) (1 / 2 ^ 55) 0
    (by
      simp only [Corners.Near, Vector2d.Near, Box2d.new_rounded, Box2d.InitCorners_rounded, Box2d.InitCorners,
      Box2d.Local2Global_rounded, Box2d.Local2Global, Vector2d.add_rounded, Vector2d.add,
      Real.cos_zero, Real.sin_zero]
      norm_num [abs_le, r1, r2, r3, r4, r5, r6, r7, r8, r9, r10, r11])
    (by
      simp only [Box2d.GetSmallestAABox_rounded, Box2d.GetSmallestAABox, Box2d.new_rounded, Box2d.InitCorners_rounded, Box2d.InitCorners,
      Box2d.Local2Global_rounded, Box2d.Local2Global, Vector2d.add_rounded, Vector2d.add,
      Real.cos_zero, Real.sin_zero]
      norm_num [abs_of_nonneg, r1, r2, r3, r4, r5, r6, r7, r8, r9, r10, r11])
    (by
      simp only [Box2d.GetSmallestAABox_rounded, Box2d.GetSmallestAABox, Box2d.new_rounded, Box2d.InitCorners_rounded, Box2d.InitCorners,
      Box2d.Local2Global_rounded, Box2d.Local2Global, Vector2d.add_rounded, Vector2d.add,
      Real.cos_zero, Real.sin_zero]
      norm_num [abs_of_nonneg, r1, r2, r3, r4, r5, r6, r7, r8, r9, r10, r11])).2.2.2.1

/-- C16: after construction and after any sequence of `RotateFromCenter`, `Shift`,
`LongitudinalExtend` and `LateralExtend` calls the derived fields of the box are
consistent: `half_length = length / 2`, `half_width = width / 2`, the cached cosine and
sine are those of the heading, corner `k` is the centre plus the rotation by the heading
of `(hl, -hw)`, `(hl, hw)`, `(-hl, hw)`, `(-hl, -hw)`, and the extents are the greatest
and least corner coordinates. -/
theorem mutators_consistent (m : Libm α) (Normalizeheadingangle : α → α) (c : Vector2d α)
    (h l w : α) (ops : List (Mutator α)) :
    (ops.foldl (Box2d.mutate m Normalizeheadingangle) (Box2d.new m c h l w)).Consistent m :=
  foldl_consistent m Normalizeheadingangle ops _ (new_consistent m c h l w)

/-- C17 (amended): the diagonal of the transition-cost matrix is the step length `L`
for the forward motion types `0, 1, 2` and `L * Cr` for the reverse motion types
`3, 4, 5`. -/
theorem cost_map_diagonal (searchconfig : SearchConfig α) (collisiondata : CollisionData α)
    (hybridastarconfig : HybridAStarConfig α) (t : Fin 6) :
    (GenerateSearchConfig searchconfig collisiondata hybridastarconfig).cost_map t t =
      if t < 3 then hybridastarconfig.move_length
      else hybridastarconfig.move_length * hybridastarconfig.penalty_reverse := by
  fin_cases t <;> rfl

/-- C17 as stated fails: with `L = 1`, `Ct = 1`, `Cr = 2`, `Cs = 1` the entry
`cost_map[3][3]` is `2`, not `L = 1`. -/
theorem cost_map_reverse_diagonal_fails :
    (GenerateSearchConfig (⟨0, 0, fun _ _ => 0⟩ : SearchConfig ℚ) ⟨1⟩ ⟨1, 1, 2, 1⟩).cost_map 3 3 = 2 ∧
    (GenerateSearchConfig (⟨0, 0, fun _ _ => 0⟩ : SearchConfig ℚ) ⟨1⟩ ⟨1, 1, 2, 1⟩).cost_map 3 3 ≠
      (⟨1, 1, 2, 1⟩ : HybridAStarConfig ℚ).move_length := by
  rw [cost_map_eq]
  norm_num [referenceCost]

/-- In exact arithmetic, whatever the matrix held before, every entry `cost_map[p][n]`
after `GenerateSearchConfig` is the value of the penalty rule written as a comment in
`GetCost` (`referenceCost`), and that rule is: for a forward `n`, `L` if `p = n`, `L * Ct`
if `p ≠ n` is forward, `L * Ct * Cs` if `p` is reverse; for a reverse `n`, `L * Cr` if
`p = n`, `L * Ct * Cr` if `p ≠ n` is reverse, `L * Ct * Cr * Cs` if `p` is forward. -/
theorem cost_map_reference (searchconfig : SearchConfig α) (collisiondata : CollisionData α)
    (hybridastarconfig : HybridAStarConfig α) (p n : Fin 6) :
    (GenerateSearchConfig searchconfig collisiondata hybridastarconfig).cost_map p n =
      referenceCost hybridastarconfig.move_length hybridastarconfig.penalty_turning
        hybridastarconfig.penalty_reverse hybridastarconfig.penalty_switch p n ∧
    (GenerateSearchConfig searchconfig collisiondata hybridastarconfig).cost_map p n =
      if n < 3 then
        (if p = n then hybridastarconfig.move_length
         else if p < 3 then hybridastarconfig.move_length * hybridastarconfig.penalty_turning
         else hybridastarconfig.move_length * hybridastarconfig.penalty_turning *
           hybridastarconfig.penalty_switch)
      else
        (if p = n then hybridastarconfig.move_length * hybridastarconfig.penalty_reverse
         else if 3 ≤ p then hybridastarconfig.move_length *
           hybridastarconfig.penalty_turning * hybridastarconfig.penalty_reverse
         else hybridastarconfig.move_length * hybridastarconfig.penalty_turning *
           hybridastarconfig.penalty_reverse * hybridastarconfig.penalty_switch) := by
  refine ⟨cost_map_eq _ _ _ p n, ?_⟩
  fin_cases p <;> fin_cases n <;> first | rfl | exact mul_right_comm _ _ _

/-- C18, counterexample: in the arithmetic of `float` with `L = 0.1f`, `Ct = 0.3f`,
`Cr = 0.7f` the entry `cost_map[3][4]` is `(L * Cr) * Ct = 5637145 / 2^28` (about
0.0210000016), the rule of the comment gives `(L * Ct) * Cr = 11274289 / 2^29` (about
0.0209999997). -/
theorem cost_map_rounded_differs :
    (GenerateSearchConfig_rounded binary32 ⟨0, 0, fun _ _ => 0⟩ ⟨0⟩
      ⟨binary32 (0.1 : ℝ), binary32 0.3, binary32 0.7, 1⟩).cost_map 3 4 =
        5637145 / 268435456 ∧
    referenceCost_rounded binary32 (binary32 (0.1 : ℝ)) (binary32 0.3) (binary32 0.7) 1 3 4 =
      11274289 / 536870912 ∧
    (GenerateSearchConfig_rounded binary32 ⟨0, 0, fun _ _ => 0⟩ ⟨0⟩
      ⟨binary32 (0.1 : ℝ), binary32 0.3, binary32 0.7, 1⟩).cost_map 3 4 ≠
      referenceCost_rounded binary32 (binary32 (0.1 : ℝ)) (binary32 0.3) (binary32 0.7) 1 3 4 := by
  have r1 : binary32 (1 / 10 : ℝ) =
      ((13421773 : Int) : ℝ) / 2 ^ 27 :=
    roundToFormat_dyadic 24 (-126) _ 1 13421773
      10 27
      (by norm_num) (by decide) (by decide) (by decide) (by decide) (by decide) (by decide)
  have r2 : binary32 (3 / 10 : ℝ) =
      ((10066330 : Int) : ℝ) / 2 ^ 25 :=
    roundToFormat_dyadic 24 (-126) _ 3 10066330
      10 25
      (by norm_num) (by decide) (by decide) (by decide) (by decide) (by decide) (by decide)
  have r3 : binary32 (7 / 10 : ℝ) =
      ((11744051 : Int) : ℝ) / 2 ^ 24 :=
    roundToFormat_dyadic 24 (-126) _ 7 11744051
      10 24
      (by norm_num) (by decide) (by decide) (by decide) (by decide) (by decide) (by decide)
  have r4 : binary32 (157625986622423 / 2251799813685248 : ℝ) =
      ((9395241 : Int) : ℝ) / 2 ^ 27 :=
    roundToFormat_dyadic 24 (-126) _ 157625986622423 9395241
      2251799813685248 27
      (by norm_num) (by decide) (by decide) (by decide) (by decide) (by decide) (by decide)
  have r5 : binary32 (47287798167765 / 2251799813685248 : ℝ) =
      ((11274290 : Int) : ℝ) / 2 ^ 29 :=
    roundToFormat_dyadic 24 (-126) _ 47287798167765 11274290
      2251799813685248 29
      (by norm_num) (by decide) (by decide) (by decide) (by decide) (by decide) (by decide)
  have r6 : binary32 (67553998101545 / 2251799813685248 : ℝ) =
      ((16106128 : Int) : ℝ) / 2 ^ 29 :=
    roundToFormat_dyadic 24 (-126) _ 67553998101545 16106128
      2251799813685248 29
      (by norm_num) (by decide) (by decide) (by decide) (by decide) (by decide) (by decide)
  have r7 : binary32 (11821949290283 / 562949953421312 : ℝ) =
      ((11274289 : Int) : ℝ) / 2 ^ 29 :=
    roundToFormat_dyadic 24 (-126) _ 11821949290283 11274289
      562949953421312 29
      (by norm_num) (by decide) (by decide) (by decide) (by decide) (by decide) (by decide)
  have e1 : (GenerateSearchConfig_rounded binary32 ⟨0, 0, fun _ _ => 0⟩ ⟨0⟩
      ⟨binary32 (0.1 : ℝ), binary32 0.3, binary32 0.7, 1⟩).cost_map 3 4 =
        5637145 / 268435456 := by
    rw [cost_map_rounded_eq, if_neg (by decide), if_neg (by decide), if_neg (by decide)]
    norm_num [r1, r2, r3, r4, r5, r6, r7]
  have e2 : referenceCost_rounded binary32 (binary32 (0.1 : ℝ)) (binary32 0.3)
      (binary32 0.7) 1 3 4 = 11274289 / 536870912 := by
    unfold referenceCost_rounded
    rw [if_neg (by decide), if_pos (by decide), if_neg (by decide)]
    norm_num [r1, r2, r3, r4, r5, r6, r7]
  refine ⟨e1, e2, ?_⟩
  rw [e1, e2]
  norm_num

/-- C18 (amended): whatever the matrix held before and whatever the rounding `rnd` of the
products, every entry `cost_map[p][n]` other than the six with `p ≠ n` both reverse is the
value of the penalty rule written as a comment in `GetCost`, operation for operation; the
six entries with `p ≠ n` both reverse hold `(L * Cr) * Ct`, where the rule has
`(L * Ct) * Cr`.  In exact arithmetic all 36 entries are the value of the rule, which is:
for a forward `n`, `L` if `p = n`, `L * Ct` if `p ≠ n` is forward, `L * Ct * Cs` if `p` is
reverse; for a reverse `n`, `L * Cr` if `p = n`, `L * Ct * Cr` if `p ≠ n` is reverse,
`L * Ct * Cr * Cs` if `p` is forward. -/
theorem cost_map_rounded_reference (rnd : α → α) (searchconfig : SearchConfig α)
    (collisiondata : CollisionData α) (hybridastarconfig : HybridAStarConfig α) (p n : Fin 6) :
    (¬(3 ≤ p ∧ 3 ≤ n ∧ p ≠ n) →
      (GenerateSearchConfig_rounded rnd searchconfig collisiondata
          hybridastarconfig).cost_map p n =
        referenceCost_rounded rnd hybridastarconfig.move_length
          hybridastarconfig.penalty_turning hybridastarconfig.penalty_reverse
          hybridastarconfig.penalty_switch p n) ∧
    (3 ≤ p → 3 ≤ n → p ≠ n →
      (GenerateSearchConfig_rounded rnd searchconfig collisiondata
          hybridastarconfig).cost_map p n =
        rnd (rnd (hybridastarconfig.move_length * hybridastarconfig.penalty_reverse) *
          hybridastarconfig.penalty_turning) ∧
      referenceCost_rounded rnd hybridastarconfig.move_length
          hybridastarconfig.penalty_turning hybridastarconfig.penalty_reverse
          hybridastarconfig.penalty_switch p n =
        rnd (rnd (hybridastarconfig.move_length * hybridastarconfig.penalty_turning) *
          hybridastarconfig.penalty_reverse)) ∧
    ((∀ x, rnd x = x) →
      (GenerateSearchConfig_rounded rnd searchconfig collisiondata
          hybridastarconfig).cost_map p n =
        referenceCost hybridastarconfig.move_length hybridastarconfig.penalty_turning
          hybridastarconfig.penalty_reverse hybridastarconfig.penalty_switch p n ∧
      (GenerateSearchConfig_rounded rnd searchconfig collisiondata
            hybridastarconfig).cost_map p n =
        if n < 3 then
          (if p = n then hybridastarconfig.move_length
           else if p < 3 then hybridastarconfig.move_length * hybridastarconfig.penalty_turning
           else hybridastarconfig.move_length * hybridastarconfig.penalty_turning *
             hybridastarconfig.penalty_switch)
        else
          (if p = n then hybridastarconfig.move_length * hybridastarconfig.penalty_reverse
           else if 3 ≤ p then hybridastarconfig.move_length *
             hybridastarconfig.penalty_turning * hybridastarconfig.penalty_reverse
           else hybridastarconfig.move_length * hybridastarconfig.penalty_turning *
             hybridastarconfig.penalty_reverse * hybridastarconfig.penalty_switch)) := by
  refine ⟨?_, ?_, ?_⟩
  · intro h
    revert h
    fin_cases p <;> fin_cases n <;> first | (intro _; rfl) | (intro h; exact absurd (by decide) h)
  · intro h1 h2 h3
    revert h1 h2 h3
    fin_cases p <;> fin_cases n <;>
      first
        | (intro _ _ _; exact ⟨rfl, rfl⟩)
        | (intro h1 _ _; exact absurd h1 (by decide))
        | (intro _ h2 _; exact absurd h2 (by decide))
        | (intro _ _ h3; exact absurd rfl h3)
  · intro hexact
    have hid : rnd = id := funext hexact
    subst hid
    exact cost_map_reference searchconfig collisiondata hybridastarconfig p n

/-- C18 at a concrete input: in the arithmetic of `float` with `L = 0.1f`, `Ct = 0.3f`,
`Cr = 0.7f`, `Cs = 1` the entry `cost_map[0][1]` is the value of the rule. -/
theorem cost_map_rounded_reference_witness :
    ¬(3 ≤ (0 : Fin 6) ∧ 3 ≤ (1 : Fin 6) ∧ (0 : Fin 6) ≠ 1) ∧
    (GenerateSearchConfig_rounded binary32 ⟨0, 0, fun _ _ => 0⟩ ⟨0⟩
      ⟨binary32 (0.1 : ℝ), binary32 0.3, binary32 0.7, 1⟩).cost_map 0 1 =
      referenceCost_rounded binary32 (binary32 (0.1 : ℝ)) (binary32 0.3) (binary32 0.7) 1 0 1 :=
  ⟨by decide, (cost_map_rounded_reference binary32 ⟨0, 0, fun _ _ => 0⟩ ⟨0⟩
    ⟨binary32 (0.1 : ℝ), binary32 0.3, binary32 0.7, 1⟩ 0 1).1 (by decide)⟩

/-- C19: for a non-zero `varphi`, `update_movement_step` returns a matrix of six steps
in which the reverse step `i + 3` is the forward step `i` with `dx` and `dy` negated and
`dtheta` unchanged. -/
theorem update_movement_step_mirror (m : Libm α) (L varphi theta : α) (h : varphi ≠ 0) :
    ∃ movement_step, update_movement_step m L varphi theta = some movement_step ∧
      ∀ i : Fin 6, i < 3 →
        movement_step 0 (i + 3) = -movement_step 0 i ∧
        movement_step 1 (i + 3) = -movement_step 1 i ∧
        movement_step 2 (i + 3) = movement_step 2 i := by
  refine ⟨_, update_movement_step_eq m L varphi theta h, ?_⟩
  intro i hi
  fin_cases i <;> simp at hi ⊢

theorem update_movement_step_mirror_witness :
    (1 : ℝ) ≠ 0 ∧
    ∃ movement_step, update_movement_step
        (⟨Real.cos, Real.sin, fun x y => Real.sqrt (x * x + y * y)⟩ : Libm ℝ) 1 1 0 =
          some movement_step ∧
      ∀ i : Fin 6, i < 3 →
        movement_step 0 (i + 3) = -movement_step 0 i ∧
        movement_step 1 (i + 3) = -movement_step 1 i ∧
        movement_step 2 (i + 3) = movement_step 2 i :=
  ⟨one_ne_zero, update_movement_step_mirror _ 1 1 0 one_ne_zero⟩

/-- C21, counterexample: for the turn angle `varphi = 0` (with `L = 1`, `theta = 0`) the
function divides `sin 0` and `1 - cos 0` by zero and has no result: there is no branch for
a zero angle. -/
theorem update_movement_step_zero_angle :
    update_movement_step (⟨Real.cos, Real.sin, fun x y => Real.sqrt (x * x + y * y)⟩ : Libm ℝ) 1 0 0 = none := by
  simp [update_movement_step, checkedDiv]

/-- C21 (amended): `update_movement_step` divides by the turn angle `varphi` without a test;
it has a result, without a division by zero, exactly when `varphi` is not zero, and the
call made by `GetSuccessors`, with `L = 1` and `varphi = max_turn = 0.2`, has a result for
every heading. -/
theorem update_movement_step_defined (m : Libm α) (L varphi theta : α) :
    ((update_movement_step m L varphi theta).isSome = true ↔ varphi ≠ 0) ∧
    (update_movement_step m 1 0.2 theta).isSome = true := by
  constructor
  · constructor
    · intro h hz
      rw [hz] at h
      simp [update_movement_step, checkedDiv] at h
    · intro h
      rw [update_movement_step_eq m L varphi theta h]
      rfl
  · rw [update_movement_step_eq m 1 0.2 theta max_turn_ne_zero]
    rfl

/-- C22: `n.IsGoal(g)` is true exactly when `hypot(n.x - g.x, n.y - g.y) < 0.1`, and
every node satisfies the goal test against itself. -/
theorem IsGoal_iff (m : Libm α) (hm : m.Sound) (n g : HybridState4DNode α) :
    (n.IsGoal m g = true ↔ m.hypot (n.x_ - g.x_) (n.y_ - g.y_) < 1 / 10) ∧
    n.IsGoal m n = true := by
  constructor
  · simp [HybridState4DNode.IsGoal, tenth_eq]
  · simp only [HybridState4DNode.IsGoal, sub_self, hypot_zero hm, tenth_eq]
    norm_num

theorem IsGoal_iff_witness :
    (((⟨5, 6, 0, MovementType.STRAIGHT_FORWARD⟩ : HybridState4DNode ℝ).IsGoal
        ⟨Real.cos, Real.sin, fun x y => Real.sqrt (x * x + y * y)⟩
        ⟨11, 24, 0, MovementType.STRAIGHT_FORWARD⟩ = true ↔
      (⟨Real.cos, Real.sin, fun x y => Real.sqrt (x * x + y * y)⟩ : Libm ℝ).hypot
        (5 - 11) (6 - 24) < 1 / 10)) ∧
    (⟨5, 6, 0, MovementType.STRAIGHT_FORWARD⟩ : HybridState4DNode ℝ).IsGoal
      ⟨Real.cos, Real.sin, fun x y => Real.sqrt (x * x + y * y)⟩
      ⟨5, 6, 0, MovementType.STRAIGHT_FORWARD⟩ = true :=
  IsGoal_iff _ real_sound _ _

/-- C23 (amended): the goal test reads the positions only: a node at the position of the
goal satisfies `IsGoal` whatever the two headings and motion types are. -/
theorem IsGoal_of_same_position (m : Libm α) (hm : m.Sound) (n g : HybridState4DNode α)
    (hx : n.x_ = g.x_) (hy : n.y_ = g.y_) : n.IsGoal m g = true := by
  simp only [HybridState4DNode.IsGoal, hx, hy, sub_self, hypot_zero hm, tenth_eq]
  norm_num

theorem IsGoal_of_same_position_witness :
    (⟨0, 0, 0, MovementType.STRAIGHT_FORWARD⟩ : HybridState4DNode ℝ).IsGoal
      ⟨Real.cos, Real.sin, fun x y => Real.sqrt (x * x + y * y)⟩
      ⟨0, 0, 1, MovementType.STRAIGHT_REVERSE⟩ = true :=
  IsGoal_of_same_position _ real_sound _ _ rfl rfl

/-- C23 as stated fails: the node `(0, 0, 0)` satisfies the goal test against the goal
`(0, 0, π)`, which has the same position and the opposite heading. -/
theorem IsGoal_opposite_heading :
    (⟨0, 0, 0, MovementType.STRAIGHT_FORWARD⟩ : HybridState4DNode ℝ).IsGoal
      ⟨Real.cos, Real.sin, fun x y => Real.sqrt (x * x + y * y)⟩
      ⟨0, 0, Real.pi, MovementType.STRAIGHT_FORWARD⟩ = true := by
  simp only [HybridState4DNode.IsGoal, sub_self, hypot_zero real_sound, tenth_eq]
  norm_num

/-- In exact arithmetic `GoalDistanceEstimate` is the squared Euclidean distance of the two
positions; it is non-negative, zero exactly when the positions coincide, and does not depend
on the headings or the motion types. -/
theorem GoalDistanceEstimate_spec (n g : HybridState4DNode α) :
    n.GoalDistanceEstimate g = (n.x_ - g.x_) ^ 2 + (n.y_ - g.y_) ^ 2 ∧
    0 ≤ n.GoalDistanceEstimate g ∧
    (n.GoalDistanceEstimate g = 0 ↔ n.x_ = g.x_ ∧ n.y_ = g.y_) ∧
    ∀ (t1 t2 : α) (ty1 ty2 : MovementType),
      HybridState4DNode.GoalDistanceEstimate ⟨n.x_, n.y_, t1, ty1⟩ ⟨g.x_, g.y_, t2, ty2⟩ =
        n.GoalDistanceEstimate g := by
  refine ⟨?_, ?_, ?_, fun _ _ _ _ => rfl⟩
  · simp only [HybridState4DNode.GoalDistanceEstimate]; ring
  · exact add_nonneg (mul_self_nonneg _) (mul_self_nonneg _)
  · simp only [HybridState4DNode.GoalDistanceEstimate]
    constructor
    · intro h
      have h1 := mul_self_nonneg (n.x_ - g.x_)
      have h2 := mul_self_nonneg (n.y_ - g.y_)
      have e1 : (n.x_ - g.x_) * (n.x_ - g.x_) = 0 := by linarith
      have e2 : (n.y_ - g.y_) * (n.y_ - g.y_) = 0 := by linarith
      exact ⟨sub_eq_zero.1 (mul_self_eq_zero.1 e1), sub_eq_zero.1 (mul_self_eq_zero.1 e2)⟩
    · rintro ⟨h1, h2⟩
      rw [h1, h2]; ring

/-- C24, counterexample: in the arithmetic of `float` the node `(2^-80, 0)` has the
estimate 0 to the goal `(0, 0)`, at another position: the square `2^-160` is below half
of the least positive `float` and rounds to zero. -/
theorem GoalDistanceEstimate_underflow :
    (⟨1 / 2 ^ 80, 0, 0, MovementType.STRAIGHT_FORWARD⟩ :
      HybridState4DNode ℝ).GoalDistanceEstimate_rounded binary32
        ⟨0, 0, 0, MovementType.STRAIGHT_FORWARD⟩ = 0 ∧
    (1 / 2 ^ 80 : ℝ) ≠ 0 := by
  have r1 : binary32 (1 / 1208925819614629174706176 : ℝ) =
      ((8388608 : Int) : ℝ) / 2 ^ 103 :=
    roundToFormat_dyadic 24 (-126) _ 1 8388608
      1208925819614629174706176 103
      (by norm_num) (by decide) (by decide) (by decide) (by decide) (by norm_num)
      (by norm_num)
  have r2 : binary32 (0 : ℝ) = 0 := roundToFormat_zero 24 (-126)
  have r3 : binary32 (1 / 1461501637330902918203684832716283019655932542976 : ℝ) =
      ((0 : Int) : ℝ) / 2 ^ 149 :=
    roundToFormat_dyadic_sub 24 (-126) _ 1 0
      1461501637330902918203684832716283019655932542976 149
      (by norm_num) (by decide) (by decide) (by decide) (by decide) (by norm_num)
      (by norm_num)
  constructor
  · norm_num [HybridState4DNode.GoalDistanceEstimate_rounded, r1, r2, r3]
  · norm_num

/-- C24 (amended): for a rounding `rnd` of the operations with `rnd 0 = 0` that keeps
non-negative numbers non-negative (as the rounding of `float` does), `GoalDistanceEstimate` is
non-negative, it is zero when the positions coincide, and it does not depend on the headings
or the motion types; in exact arithmetic it is the squared Euclidean distance of the two
positions and it is zero exactly when the positions coincide. -/
theorem GoalDistanceEstimate_rounded_spec (rnd : α → α) (hzero : rnd 0 = 0)
    (hsign : ∀ x, 0 ≤ x → 0 ≤ rnd x) (n g : HybridState4DNode α) :
    0 ≤ n.GoalDistanceEstimate_rounded rnd g ∧
    (n.x_ = g.x_ ∧ n.y_ = g.y_ → n.GoalDistanceEstimate_rounded rnd g = 0) ∧
    (∀ (t1 t2 : α) (ty1 ty2 : MovementType),
      HybridState4DNode.GoalDistanceEstimate_rounded rnd ⟨n.x_, n.y_, t1, ty1⟩
          ⟨g.x_, g.y_, t2, ty2⟩ = n.GoalDistanceEstimate_rounded rnd g) ∧
    ((∀ x, rnd x = x) →
      n.GoalDistanceEstimate_rounded rnd g = (n.x_ - g.x_) ^ 2 + (n.y_ - g.y_) ^ 2 ∧
      (n.GoalDistanceEstimate_rounded rnd g = 0 ↔ n.x_ = g.x_ ∧ n.y_ = g.y_)) := by
  refine ⟨?_, ?_, fun _ _ _ _ => rfl, ?_⟩
  · exact hsign _ (add_nonneg (hsign _ (mul_self_nonneg _)) (hsign _ (mul_self_nonneg _)))
  · rintro ⟨h1, h2⟩
    simp only [HybridState4DNode.GoalDistanceEstimate_rounded, h1, h2, sub_self, hzero,
      mul_zero, add_zero]
  · intro hexact
    have hid : rnd = id := funext hexact
    subst hid
    exact ⟨(GoalDistanceEstimate_spec n g).1, (GoalDistanceEstimate_spec n g).2.2.1⟩

/-- C24 at a concrete input: in the arithmetic of `float` the node `(1, 2)` with heading 0
has the estimate 0 to the goal `(1, 2)` with heading 1. -/
theorem GoalDistanceEstimate_rounded_spec_witness :
    binary32 (0 : ℝ) = 0 ∧ (∀ x : ℝ, 0 ≤ x → 0 ≤ binary32 x) ∧
    (⟨1, 2, 0, MovementType.STRAIGHT_FORWARD⟩ :
      HybridState4DNode ℝ).GoalDistanceEstimate_rounded binary32
        ⟨1, 2, 1, MovementType.LEFTTURN_FORWARD⟩ = 0 :=
  ⟨roundToFormat_zero 24 (-126), roundToFormat_nonneg 24 (-126),
    (GoalDistanceEstimate_rounded_spec binary32 (roundToFormat_zero 24 (-126))
      (roundToFormat_nonneg 24 (-126)) ⟨1, 2, 0, MovementType.STRAIGHT_FORWARD⟩
      ⟨1, 2, 1, MovementType.LEFTTURN_FORWARD⟩).2.1 ⟨rfl, rfl⟩⟩

/-- C25, failing input: from the node `(5, 6, 0)` the function hands the grid neighbour
`(5, 7, 0)` of type `STRAIGHT_FORWARD` to `AddSuccessor`; it is not the node displaced by
a column of `update_movement_step(1, 0.2, 0)` with the motion type of that column (the
only column of type `STRAIGHT_FORWARD`, column 0, leads to `(6, 6, 0)`). -/
theorem GetSuccessors_not_motion_model :
    (⟨5, 6, 0, MovementType.STRAIGHT_FORWARD⟩ : HybridState4DNode ℝ).IsSuccessor
      ⟨Real.cos, Real.sin, fun x y => Real.sqrt (x * x + y * y)⟩
      ⟨5, 7, 0, MovementType.STRAIGHT_FORWARD⟩ ∧
    ∀ move_step, update_movement_step
        (⟨Real.cos, Real.sin, fun x y => Real.sqrt (x * x + y * y)⟩ : Libm ℝ) 1 0.2 0 =
          some move_step →
      ∀ i : Fin 6, ¬ ((5 : ℝ) = 5 + move_step 0 i ∧ (7 : ℝ) = 6 + move_step 1 i ∧
        (0 : ℝ) = 0 + move_step 2 i ∧ MovementType.STRAIGHT_FORWARD.val = i) := by
  refine ⟨step_up_example, ?_⟩
  intro move_step hM i
  rw [update_movement_step_eq _ _ _ _ max_turn_ne_zero] at hM
  obtain rfl := Option.some.inj hM
  rintro ⟨h1, -, -, h4⟩
  subst h4
  simp [MovementType.val, Real.cos_zero] at h1

/-- C26, failing input: with the step length `L = 2` in the configuration, the node
`(5, 6, 0)` and its successor `(6, 6, 0)`, both of type `STRAIGHT_FORWARD`: `GetCost` is the
squared distance 1, the entry `cost_map[0][0]` is 2. -/
theorem GetCost_not_cost_map :
    (⟨5, 6, 0, MovementType.STRAIGHT_FORWARD⟩ : HybridState4DNode ℝ).IsSuccessor
      ⟨Real.cos, Real.sin, fun x y => Real.sqrt (x * x + y * y)⟩
      ⟨6, 6, 0, MovementType.STRAIGHT_FORWARD⟩ ∧
    (⟨5, 6, 0, MovementType.STRAIGHT_FORWARD⟩ : HybridState4DNode ℝ).GetCost
      ⟨6, 6, 0, MovementType.STRAIGHT_FORWARD⟩ = 1 ∧
    (GenerateSearchConfig (⟨0, 0, fun _ _ => 0⟩ : SearchConfig ℝ) ⟨1⟩ ⟨2, 1, 1, 1⟩).cost_map
      MovementType.STRAIGHT_FORWARD.val MovementType.STRAIGHT_FORWARD.val = 2 := by
  refine ⟨?_, ?_, ?_⟩
  · have h := step_right_example 5 (Or.inl rfl)
    norm_num at h
    exact h
  · norm_num [HybridState4DNode.GetCost]
  · rw [cost_map_eq]
    norm_num [referenceCost, MovementType.val]

/-- C27: from a node with integer coordinates every successor that `GetSuccessors`
produces costs exactly 1, the step length, and a path of successive such moves costs
the step length times the number of moves. -/
theorem GetCost_grid_path [FloorRing α] (m : Libm α) (n : HybridState4DNode α) (a b : Int)
    (hx : n.x_ = a) (hy : n.y_ = b) :
    (∀ s, n.IsSuccessor m s → n.GetCost s = 1) ∧
    ∀ path, List.Chain (HybridState4DNode.IsSuccessor m) n path →
      pathCost (n :: path) = 1 * (path.length : α) :=
  ⟨fun s hs => (successor_of_int m n s a b hx hy hs).1,
    fun path hpath => pathCost_of_int m path n a b hx hy hpath⟩

/-- C27 at a concrete input: the two moves from `(5, 6)` to `(6, 6)` and on to `(7, 6)`
on the map of `GetMap` cost 2 in total. -/
theorem GetCost_grid_path_witness :
    pathCost [(⟨((5 : Int) : ℝ), 6, 0, MovementType.STRAIGHT_FORWARD⟩ : HybridState4DNode ℝ),
      ⟨((5 + 1 : Int) : ℝ), 6, 0, MovementType.STRAIGHT_FORWARD⟩,
      ⟨((6 + 1 : Int) : ℝ), 6, 0, MovementType.STRAIGHT_FORWARD⟩] =
      1 * (([⟨((5 + 1 : Int) : ℝ), 6, 0, MovementType.STRAIGHT_FORWARD⟩,
        ⟨((6 + 1 : Int) : ℝ), 6, 0, MovementType.STRAIGHT_FORWARD⟩] :
          List (HybridState4DNode ℝ)).length : ℝ) :=
  (GetCost_grid_path ⟨Real.cos, Real.sin, fun x y => Real.sqrt (x * x + y * y)⟩
    _ 5 6 rfl (by norm_num)).2 _
    (List.Chain.cons (step_right_example 5 (Or.inl rfl))
      (List.Chain.cons (step_right_example 6 (Or.inr rfl)) List.Chain.nil))

/-- C28: after `GenerateTrajectory` the coarse path is the `(x, y, theta)` projection of
the trajectory of the search, in order, and the fine path is the concatenation, in
order, of the states of the smoothed segments as `(x, y, 0)`; the paths stored before do
not enter the result. -/
theorem GenerateTrajectory_paths {κ β : Type} (search : κ → κ)
    (trajectory : κ → List (α × α × α × β))
    (smooth : κ → List (α × α × α × β) → κ × List (List (SmoothState α)))
    (p : OpenSpacePlanner κ α) :
    (p.GenerateTrajectory search trajectory smooth).coarse_path_ =
      (trajectory (search p.components)).map (fun v => (v.1, v.2.1, v.2.2.1)) ∧
    (p.GenerateTrajectory search trajectory smooth).fine_path_ =
      (smooth (search p.components) (trajectory (search p.components))).2.flatten.map
        (fun state => (state.x, state.y, 0)) ∧
    ∀ old_coarse old_fine : List (α × α × α),
      OpenSpacePlanner.GenerateTrajectory search trajectory smooth
          ⟨p.components, old_coarse, old_fine⟩ =
        p.GenerateTrajectory search trajectory smooth := by
  refine ⟨?_, ?_, fun _ _ => rfl⟩
  · simp only [OpenSpacePlanner.GenerateTrajectory]
    rw [foldl_push]
    rfl
  · simp only [OpenSpacePlanner.GenerateTrajectory]
    rw [foldl_push_join]
    rfl

/-- C30: the region case analysis of `DistanceTo(segment)` is exhaustive.  For a segment
longer than the tolerance with neither end point strictly inside the box, the normalised
code of the first end point is `(1, 1)` or `(1, 0)`, the code `gx2 * 3 + gy2` of the second
matches a `case` label of the `switch` entered, and the result of the function is the
value of that `switch` whatever the final `return` after it gives: that `return` is not
reached. -/
theorem DistanceTo_segment_exhaustive (m : Libm α) (eps : α) (b : Box2d α)
    (seg : LineSegment2d α) (hlen : eps < seg.length)
    (h1 : ¬ (-b.half_length < (b.Global2Local (seg.start.sub b.center)).x ∧
      (b.Global2Local (seg.start.sub b.center)).x < b.half_length ∧
      -b.half_width < (b.Global2Local (seg.start.sub b.center)).y ∧
      (b.Global2Local (seg.start.sub b.center)).y < b.half_width))
    (h2 : ¬ (-b.half_length < (b.Global2Local (seg.end_.sub b.center)).x ∧
      (b.Global2Local (seg.end_.sub b.center)).x < b.half_length ∧
      -b.half_width < (b.Global2Local (seg.end_.sub b.center)).y ∧
      (b.Global2Local (seg.end_.sub b.center)).y < b.half_width)) :
    ∃ gx1 gy1 gx2 gy2 : Int,
      (gx1, gy1, gx2, gy2) =
        normCodes (regionCode (b.Global2Local (seg.start.sub b.center)).x b.half_length)
          (regionCode (b.Global2Local (seg.start.sub b.center)).y b.half_width)
          (regionCode (b.Global2Local (seg.end_.sub b.center)).x b.half_length)
          (regionCode (b.Global2Local (seg.end_.sub b.center)).y b.half_width) ∧
      ((gx1 = 1 ∧ gy1 = 1) ∨ (gx1 = 1 ∧ gy1 = 0)) ∧
      (caseLabel gx1 gy1 gx2 gy2).isSome = true ∧
      ∃ sbox_x sbox_y sx1 sy1 sx2 sy2 : α, ∀ dflt : Option α,
        b.DistanceTo_segment m eps seg =
          segCasesOr m dflt sbox_x sbox_y sx1 sy1 gx1 gy1 sx2 sy2 gx2 gy2 seg.length := by
  have c1 : ¬ (regionCode (b.Global2Local (seg.start.sub b.center)).x b.half_length = 0 ∧
      regionCode (b.Global2Local (seg.start.sub b.center)).y b.half_width = 0) := by
    rintro ⟨hx, hy⟩
    exact h1 ⟨(regionCode_eq_zero hx).1, (regionCode_eq_zero hx).2,
      (regionCode_eq_zero hy).1, (regionCode_eq_zero hy).2⟩
  have c2 : ¬ (regionCode (b.Global2Local (seg.end_.sub b.center)).x b.half_length = 0 ∧
      regionCode (b.Global2Local (seg.end_.sub b.center)).y b.half_width = 0) := by
    rintro ⟨hx, hy⟩
    exact h2 ⟨(regionCode_eq_zero hx).1, (regionCode_eq_zero hx).2,
      (regionCode_eq_zero hy).1, (regionCode_eq_zero hy).2⟩
  obtain ⟨hclass, hlabel⟩ := normCodes_handled _ _ _ _ (regionCode_range _ _)
    (regionCode_range _ _) (regionCode_range _ _) (regionCode_range _ _) c1 c2
  obtain ⟨sbox_x, sbox_y, sx1, sy1, sx2, sy2, hseg⟩ := segLocal_codes m b.half_length
    b.half_width (b.Global2Local (seg.start.sub b.center)).x
    (b.Global2Local (seg.start.sub b.center)).y (b.Global2Local (seg.end_.sub b.center)).x
    (b.Global2Local (seg.end_.sub b.center)).y seg.length c1 c2
  refine ⟨_, _, _, _, rfl, hclass, hlabel, sbox_x, sbox_y, sx1, sy1, sx2, sy2, fun dflt => ?_⟩
  rw [DistanceTo_segment_eq m eps b seg (not_le.2 hlen), hseg]
  exact (segCasesOr_eq m dflt _ _ _ _ _ _ _ _ _ _ _ hlabel).symm

/-- C30 at a concrete input: the box of size 4 x 2 at the origin and the segment from
`(5, 3)` to `(6, -3)`, tolerance `1e-10`. -/
theorem DistanceTo_segment_exhaustive_witness :
    ∃ gx1 gy1 gx2 gy2 : Int,
      (gx1, gy1, gx2, gy2) =
        normCodes
          (regionCode ((Box2d.new (⟨Real.cos, Real.sin, fun x y => Real.sqrt (x * x + y * y)⟩ : Libm ℝ) ⟨0, 0⟩ 0 4 2).Global2Local
            ((LineSegment2d.new (⟨Real.cos, Real.sin, fun x y => Real.sqrt (x * x + y * y)⟩ : Libm ℝ) ⟨5, 3⟩ ⟨6, -3⟩).start.sub (Box2d.new (⟨Real.cos, Real.sin, fun x y => Real.sqrt (x * x + y * y)⟩ : Libm ℝ) ⟨0, 0⟩ 0 4 2).center)).x (Box2d.new (⟨Real.cos, Real.sin, fun x y => Real.sqrt (x * x + y * y)⟩ : Libm ℝ) ⟨0, 0⟩ 0 4 2).half_length)
          (regionCode ((Box2d.new (⟨Real.cos, Real.sin, fun x y => Real.sqrt (x * x + y * y)⟩ : Libm ℝ) ⟨0, 0⟩ 0 4 2).Global2Local
            ((LineSegment2d.new (⟨Real.cos, Real.sin, fun x y => Real.sqrt (x * x + y * y)⟩ : Libm ℝ) ⟨5, 3⟩ ⟨6, -3⟩).start.sub (Box2d.new (⟨Real.cos, Real.sin, fun x y => Real.sqrt (x * x + y * y)⟩ : Libm ℝ) ⟨0, 0⟩ 0 4 2).center)).y (Box2d.new (⟨Real.cos, Real.sin, fun x y => Real.sqrt (x * x + y * y)⟩ : Libm ℝ) ⟨0, 0⟩ 0 4 2).half_width)
          (regionCode ((Box2d.new (⟨Real.cos, Real.sin, fun x y => Real.sqrt (x * x + y * y)⟩ : Libm ℝ) ⟨0, 0⟩ 0 4 2).Global2Local
            ((LineSegment2d.new (⟨Real.cos, Real.sin, fun x y => Real.sqrt (x * x + y * y)⟩ : Libm ℝ) ⟨5, 3⟩ ⟨6, -3⟩).end_.sub (Box2d.new (⟨Real.cos, Real.sin, fun x y => Real.sqrt (x * x + y * y)⟩ : Libm ℝ) ⟨0, 0⟩ 0 4 2).center)).x (Box2d.new (⟨Real.cos, Real.sin, fun x y => Real.sqrt (x * x + y * y)⟩ : Libm ℝ) ⟨0, 0⟩ 0 4 2).half_length)
          (regionCode ((Box2d.new (⟨Real.cos, Real.sin, fun x y => Real.sqrt (x * x + y * y)⟩ : Libm ℝ) ⟨0, 0⟩ 0 4 2).Global2Local
            ((LineSegment2d.new (⟨Real.cos, Real.sin, fun x y => Real.sqrt (x * x + y * y)⟩ : Libm ℝ) ⟨5, 3⟩ ⟨6, -3⟩).end_.sub (Box2d.new (⟨Real.cos, Real.sin, fun x y => Real.sqrt (x * x + y * y)⟩ : Libm ℝ) ⟨0, 0⟩ 0 4 2).center)).y (Box2d.new (⟨Real.cos, Real.sin, fun x y => Real.sqrt (x * x + y * y)⟩ : Libm ℝ) ⟨0, 0⟩ 0 4 2).half_width) ∧
      ((gx1 = 1 ∧ gy1 = 1) ∨ (gx1 = 1 ∧ gy1 = 0)) ∧
      (caseLabel gx1 gy1 gx2 gy2).isSome = true ∧
      ∃ sbox_x sbox_y sx1 sy1 sx2 sy2 : ℝ, ∀ dflt : Option ℝ,
        (Box2d.new (⟨Real.cos, Real.sin, fun x y => Real.sqrt (x * x + y * y)⟩ : Libm ℝ) ⟨0, 0⟩ 0 4 2).DistanceTo_segment (⟨Real.cos, Real.sin, fun x y => Real.sqrt (x * x + y * y)⟩ : Libm ℝ) (1 / 10000000000) (LineSegment2d.new (⟨Real.cos, Real.sin, fun x y => Real.sqrt (x * x + y * y)⟩ : Libm ℝ) ⟨5, 3⟩ ⟨6, -3⟩) =
          segCasesOr (⟨Real.cos, Real.sin, fun x y => Real.sqrt (x * x + y * y)⟩ : Libm ℝ) dflt sbox_x sbox_y sx1 sy1 gx1 gy1 sx2 sy2 gx2 gy2
            (LineSegment2d.new (⟨Real.cos, Real.sin, fun x y => Real.sqrt (x * x + y * y)⟩ : Libm ℝ) ⟨5, 3⟩ ⟨6, -3⟩).length :=
  DistanceTo_segment_exhaustive _ (1 / 10000000000) _ _
    (by
      show (1 / 10000000000 : ℝ) < Real.sqrt ((6 - 5) * (6 - 5) + (-3 - 3) * (-3 - 3))
      rw [Real.lt_sqrt (by norm_num)]
      norm_num)
    (by
      simp only [Box2d.Global2Local, Vector2d.sub, LineSegment2d.new, new_center,
        new_cos_heading, new_sin_heading, new_half_length, new_half_width, Real.cos_zero,
        Real.sin_zero]
      norm_num)
    (by
      simp only [Box2d.Global2Local, Vector2d.sub, LineSegment2d.new, new_center,
        new_cos_heading, new_sin_heading, new_half_length, new_half_width, Real.cos_zero,
        Real.sin_zero]
      norm_num)

/-- In exact arithmetic, for every box (a result of `InitCorners`, as after the constructor
and after each mutator) `Shift(v)` adds `v` to the centre and to each of the four corners,
adds `v.x` to `min_x` and `max_x` and `v.y` to `min_y` and `max_y`, and leaves the heading,
its cosine and sine, the length, the width and the half extents as they were. -/
theorem Shift_frame (b : Box2d α) (shift_vec : Vector2d α) :
    ((Box2d.InitCorners b).Shift shift_vec).center = (Box2d.InitCorners b).center.add shift_vec ∧
    ((Box2d.InitCorners b).Shift shift_vec).corners.col0 =
      (Box2d.InitCorners b).corners.col0.add shift_vec ∧
    ((Box2d.InitCorners b).Shift shift_vec).corners.col1 =
      (Box2d.InitCorners b).corners.col1.add shift_vec ∧
    ((Box2d.InitCorners b).Shift shift_vec).corners.col2 =
      (Box2d.InitCorners b).corners.col2.add shift_vec ∧
    ((Box2d.InitCorners b).Shift shift_vec).corners.col3 =
      (Box2d.InitCorners b).corners.col3.add shift_vec ∧
    ((Box2d.InitCorners b).Shift shift_vec).min_x = (Box2d.InitCorners b).min_x + shift_vec.x ∧
    ((Box2d.InitCorners b).Shift shift_vec).max_x = (Box2d.InitCorners b).max_x + shift_vec.x ∧
    ((Box2d.InitCorners b).Shift shift_vec).min_y = (Box2d.InitCorners b).min_y + shift_vec.y ∧
    ((Box2d.InitCorners b).Shift shift_vec).max_y = (Box2d.InitCorners b).max_y + shift_vec.y ∧
    ((Box2d.InitCorners b).Shift shift_vec).heading = (Box2d.InitCorners b).heading ∧
    ((Box2d.InitCorners b).Shift shift_vec).cos_heading = (Box2d.InitCorners b).cos_heading ∧
    ((Box2d.InitCorners b).Shift shift_vec).sin_heading = (Box2d.InitCorners b).sin_heading ∧
    ((Box2d.InitCorners b).Shift shift_vec).length = (Box2d.InitCorners b).length ∧
    ((Box2d.InitCorners b).Shift shift_vec).width = (Box2d.InitCorners b).width ∧
    ((Box2d.InitCorners b).Shift shift_vec).half_length = (Box2d.InitCorners b).half_length ∧
    ((Box2d.InitCorners b).Shift shift_vec).half_width = (Box2d.InitCorners b).half_width := by
  obtain ⟨e1, e2, e3, e4⟩ := InitCorners_extents b
  obtain ⟨f1, f2, f3, f4⟩ := InitCorners_extents
    { Box2d.InitCorners b with center := (Box2d.InitCorners b).center.add shift_vec }
  refine ⟨rfl, ?_, ?_, ?_, ?_, ?_, ?_, ?_, ?_, rfl, rfl, rfl, rfl, rfl, rfl, rfl⟩
  · ext <;> simp only [Box2d.Shift, Box2d.InitCorners, Box2d.Local2Global, Vector2d.add] <;> ring
  · ext <;> simp only [Box2d.Shift, Box2d.InitCorners, Box2d.Local2Global, Vector2d.add] <;> ring
  · ext <;> simp only [Box2d.Shift, Box2d.InitCorners, Box2d.Local2Global, Vector2d.add] <;> ring
  · ext <;> simp only [Box2d.Shift, Box2d.InitCorners, Box2d.Local2Global, Vector2d.add] <;> ring
  · rw [e2]
    refine f2.trans ?_
    simp only [Box2d.InitCorners, Vector2d.add]
    ring
  · rw [e1]
    refine f1.trans ?_
    simp only [Box2d.InitCorners, Vector2d.add]
    ring
  · rw [e4]
    refine f4.trans ?_
    simp only [Box2d.InitCorners, Vector2d.add]
    ring
  · rw [e3]
    refine f3.trans ?_
    simp only [Box2d.InitCorners, Vector2d.add]
    ring

/-- C31, counterexample: in the arithmetic of `double` the box with centre `(0.1, 0)`,
heading 0, length 0.6 and width 1 is shifted by `(0.2, 0)`.  The corner of index 2 and
`min_x` are at `-0.19999999999999998` before; after the shift they are recomputed from the
rounded centre `0.30000000000000004` and are `2^-54` (about 5.55e-17), whereas the old value
plus 0.2 is `2^-55` (about 2.78e-17). -/
theorem Shift_rounded_corner :
    ((Box2d.new_rounded binary64
      (⟨Real.cos, Real.sin, fun x y => Real.sqrt (x * x + y * y)⟩ : Libm ℝ)
      ⟨binary64 0.1, 0⟩ 0 (binary64 0.6) 1).Shift_rounded binary64
      ⟨binary64 0.2, 0⟩).corners.col2.x =
      1 / 18014398509481984 ∧
    (Box2d.new_rounded binary64
      (⟨Real.cos, Real.sin, fun x y => Real.sqrt (x * x + y * y)⟩ : Libm ℝ)
      ⟨binary64 0.1, 0⟩ 0 (binary64 0.6) 1).corners.col2.x + binary64 0.2 =
      1 / 36028797018963968 ∧
    ((Box2d.new_rounded binary64
      (⟨Real.cos, Real.sin, fun x y => Real.sqrt (x * x + y * y)⟩ : Libm ℝ)
      ⟨binary64 0.1, 0⟩ 0 (binary64 0.6) 1).Shift_rounded binary64
      ⟨binary64 0.2, 0⟩).min_x =
      1 / 18014398509481984 ∧
    (Box2d.new_rounded binary64
      (⟨Real.cos, Real.sin, fun x y => Real.sqrt (x * x + y * y)⟩ : Libm ℝ)
      ⟨binary64 0.1, 0⟩ 0 (binary64 0.6) 1).min_x + binary64 0.2 =
      1 / 36028797018963968 := by
  have r1 : binary64 (1 / 10 : ℝ) =
      ((7205759403792794 : Int) : ℝ) / 2 ^ 56 :=
    roundToFormat_dyadic 53 (-1022) _ 1 7205759403792794
      10 56
      (by norm_num) (by decide) (by decide) (by decide) (by decide) (by decide) (by decide)
  have r2 : binary64 (3 / 5 : ℝ) =
      ((5404319552844595 : Int) : ℝ) / 2 ^ 53 :=
    roundToFormat_dyadic 53 (-1022) _ 3 5404319552844595
      5 53
      (by norm_num) (by decide) (by decide) (by decide) (by decide) (by decide) (by decide)
  have r3 : binary64 (1 / 5 : ℝ) =
      ((7205759403792794 : Int) : ℝ) / 2 ^ 55 :=
    roundToFormat_dyadic 53 (-1022) _ 1 7205759403792794
      5 55
      (by norm_num) (by decide) (by decide) (by decide) (by decide) (by decide) (by decide)
  have r4 : binary64 (5404319552844595 / 18014398509481984 : ℝ) =
      ((5404319552844595 : Int) : ℝ) / 2 ^ 54 :=
    roundToFormat_dyadic 53 (-1022) _ 5404319552844595 5404319552844595
      18014398509481984 54
      (by norm_num) (by decide) (by decide) (by decide) (by decide) (by decide) (by decide)
  have r5 : binary64 (1 / 2 : ℝ) =
      ((4503599627370496 : Int) : ℝ) / 2 ^ 53 :=
    roundToFormat_dyadic 53 (-1022) _ 1 4503599627370496
      2 53
      (by norm_num) (by decide) (by decide) (by decide) (by decide) (by decide) (by decide)
  have r6 : binary64 (0 : ℝ) = 0 := roundToFormat_zero 53 (-1022)
  have r7 : binary64 (-(1 / 2) : ℝ) =
      ((-4503599627370496 : Int) : ℝ) / 2 ^ 53 :=
    roundToFormat_dyadic 53 (-1022) _ (-1) (-4503599627370496)
      2 53
      (by norm_num) (by decide) (by decide) (by decide) (by decide) (by decide) (by decide)
  have r8 : binary64 (14411518807585587 / 36028797018963968 : ℝ) =
      ((7205759403792794 : Int) : ℝ) / 2 ^ 54 :=
    roundToFormat_dyadic 53 (-1022) _ 14411518807585587 7205759403792794
      36028797018963968 54
      (by norm_num) (by decide) (by decide) (by decide) (by decide) (by decide) (by decide)
  have r9 : binary64 (-(5404319552844595 / 18014398509481984) : ℝ) =
      ((-5404319552844595 : Int) : ℝ) / 2 ^ 54 :=
    roundToFormat_dyadic 53 (-1022) _ (-5404319552844595) (-5404319552844595)
      18014398509481984 54
      (by norm_num) (by decide) (by decide) (by decide) (by decide) (by decide) (by decide)
  have r10 : binary64 (-(7205759403792793 / 36028797018963968) : ℝ) =
      ((-7205759403792793 : Int) : ℝ) / 2 ^ 55 :=
    roundToFormat_dyadic 53 (-1022) _ (-7205759403792793) (-7205759403792793)
      36028797018963968 55
      (by norm_num) (by decide) (by decide) (by decide) (by decide) (by decide) (by decide)
  have r11 : binary64 (10808639105689191 / 36028797018963968 : ℝ) =
      ((5404319552844596 : Int) : ℝ) / 2 ^ 54 :=
    roundToFormat_dyadic 53 (-1022) _ 10808639105689191 5404319552844596
      36028797018963968 54
      (by norm_num) (by decide) (by decide) (by decide) (by decide) (by decide) (by decide)
  have r12 : binary64 (10808639105689191 / 18014398509481984 : ℝ) =
      ((5404319552844596 : Int) : ℝ) / 2 ^ 53 :=
    roundToFormat_dyadic 53 (-1022) _ 10808639105689191 5404319552844596
      18014398509481984 53
      (by norm_num) (by decide) (by decide) (by decide) (by decide) (by decide) (by decide)
  have r13 : binary64 (1 / 18014398509481984 : ℝ) =
      ((4503599627370496 : Int) : ℝ) / 2 ^ 106 :=
    roundToFormat_dyadic 53 (-1022) _ 1 4503599627370496
      18014398509481984 106
      (by norm_num) (by decide) (by decide) (by decide) (by decide) (by norm_num)
      (by norm_num)
  norm_num [Box2d.Shift_rounded, Box2d.new_rounded, Box2d.InitCorners_rounded,
    Box2d.Local2Global_rounded, Vector2d.add_rounded, Real.cos_zero, Real.sin_zero,
    max_def, min_def, r1, r2, r3, r4, r5, r6, r7, r8, r9, r10, r11, r12, r13]

/-- C31 (amended): for every box (a result of `InitCorners`) and whatever the rounding `rnd`
of the operations, `Shift(v)` replaces the centre by the rounded sum of the centre and `v`,
leaves the heading, its cosine and sine, the length, the width and the half extents as they
were, and recomputes the corners and the extents from the new centre.  Let `E0` bound the
rounding error of the corner coordinates before the shift and `E1` that of the corner
coordinates recomputed by the shift.  Then each of the four new corners differs from the old
corner plus `v` by at most `E0 + E1` in each coordinate, and so do `min_x` and `max_x` from
the old ones plus `v.x` and `min_y` and `max_y` from the old ones plus `v.y`.  In exact
arithmetic `E0 = E1 = 0`. -/
theorem Shift_rounded_frame (rnd : α → α) (b : Box2d α) (shift_vec : Vector2d α) (E0 E1 : α)
    (hold : (Box2d.InitCorners_rounded rnd b).corners.Near E0 (Box2d.InitCorners b).corners)
    (hnew : ((Box2d.InitCorners_rounded rnd b).Shift_rounded rnd shift_vec).corners.Near E1
      ((Box2d.InitCorners b).Shift shift_vec).corners) :
    ((Box2d.InitCorners_rounded rnd b).Shift_rounded rnd shift_vec).center =
      (Box2d.InitCorners_rounded rnd b).center.add_rounded rnd shift_vec ∧
    (Box2d.InitCorners_rounded rnd b).Shift_rounded rnd shift_vec =
      Box2d.InitCorners_rounded rnd
        { Box2d.InitCorners_rounded rnd b with
          center := (Box2d.InitCorners_rounded rnd b).center.add_rounded rnd shift_vec } ∧
    ((Box2d.InitCorners_rounded rnd b).Shift_rounded rnd shift_vec).heading =
      (Box2d.InitCorners_rounded rnd b).heading ∧
    ((Box2d.InitCorners_rounded rnd b).Shift_rounded rnd shift_vec).cos_heading =
      (Box2d.InitCorners_rounded rnd b).cos_heading ∧
    ((Box2d.InitCorners_rounded rnd b).Shift_rounded rnd shift_vec).sin_heading =
      (Box2d.InitCorners_rounded rnd b).sin_heading ∧
    ((Box2d.InitCorners_rounded rnd b).Shift_rounded rnd shift_vec).length =
      (Box2d.InitCorners_rounded rnd b).length ∧
    ((Box2d.InitCorners_rounded rnd b).Shift_rounded rnd shift_vec).width =
      (Box2d.InitCorners_rounded rnd b).width ∧
    ((Box2d.InitCorners_rounded rnd b).Shift_rounded rnd shift_vec).half_length =
      (Box2d.InitCorners_rounded rnd b).half_length ∧
    ((Box2d.InitCorners_rounded rnd b).Shift_rounded rnd shift_vec).half_width =
      (Box2d.InitCorners_rounded rnd b).half_width ∧
    ((Box2d.InitCorners_rounded rnd b).Shift_rounded rnd shift_vec).corners.Near (E0 + E1)
      ⟨(Box2d.InitCorners_rounded rnd b).corners.col0.add shift_vec,
        (Box2d.InitCorners_rounded rnd b).corners.col1.add shift_vec,
        (Box2d.InitCorners_rounded rnd b).corners.col2.add shift_vec,
        (Box2d.InitCorners_rounded rnd b).corners.col3.add shift_vec⟩ ∧
    |((Box2d.InitCorners_rounded rnd b).Shift_rounded rnd shift_vec).min_x -
      ((Box2d.InitCorners_rounded rnd b).min_x + shift_vec.x)| ≤ E0 + E1 ∧
    |((Box2d.InitCorners_rounded rnd b).Shift_rounded rnd shift_vec).max_x -
      ((Box2d.InitCorners_rounded rnd b).max_x + shift_vec.x)| ≤ E0 + E1 ∧
    |((Box2d.InitCorners_rounded rnd b).Shift_rounded rnd shift_vec).min_y -
      ((Box2d.InitCorners_rounded rnd b).min_y + shift_vec.y)| ≤ E0 + E1 ∧
    |((Box2d.InitCorners_rounded rnd b).Shift_rounded rnd shift_vec).max_y -
      ((Box2d.InitCorners_rounded rnd b).max_y + shift_vec.y)| ≤ E0 + E1 := by
  obtain ⟨-, s0, s1, s2, s3, smin_x, smax_x, smin_y, smax_y, -⟩ := Shift_frame b shift_vec
  obtain ⟨ox1, ox0, oy1, oy0⟩ := extents_near rnd id b b E0 hold
  rw [InitCorners_rounded_id] at ox1 ox0 oy1 oy0
  obtain ⟨nx1, nx0, ny1, ny0⟩ := extents_near rnd id
    { Box2d.InitCorners_rounded rnd b with
      center := (Box2d.InitCorners_rounded rnd b).center.add_rounded rnd shift_vec }
    { Box2d.InitCorners b with center := (Box2d.InitCorners b).center.add shift_vec } E1 hnew
  have e1 : Box2d.InitCorners_rounded rnd
      { Box2d.InitCorners_rounded rnd b with
        center := (Box2d.InitCorners_rounded rnd b).center.add_rounded rnd shift_vec } =
      (Box2d.InitCorners_rounded rnd b).Shift_rounded rnd shift_vec := rfl
  have e2 : Box2d.InitCorners_rounded id
      { Box2d.InitCorners b with center := (Box2d.InitCorners b).center.add shift_vec } =
      (Box2d.InitCorners b).Shift shift_vec := rfl
  rw [e1, e2] at nx1 nx0 ny1 ny0
  rw [smax_x] at nx1
  rw [smin_x] at nx0
  rw [smax_y] at ny1
  rw [smin_y] at ny0
  obtain ⟨⟨a0x, a0y⟩, ⟨a1x, a1y⟩, ⟨a2x, a2y⟩, ⟨a3x, a3y⟩⟩ := hold
  obtain ⟨⟨c0x, c0y⟩, ⟨c1x, c1y⟩, ⟨c2x, c2y⟩, ⟨c3x, c3y⟩⟩ := hnew
  rw [s0] at c0x c0y
  rw [s1] at c1x c1y
  rw [s2] at c2x c2y
  rw [s3] at c3x c3y
  exact ⟨rfl, rfl, rfl, rfl, rfl, rfl, rfl, rfl, rfl,
    ⟨⟨abs_sub_add_le c0x a0x, abs_sub_add_le c0y a0y⟩,
      ⟨abs_sub_add_le c1x a1x, abs_sub_add_le c1y a1y⟩,
      ⟨abs_sub_add_le c2x a2x, abs_sub_add_le c2y a2y⟩,
      abs_sub_add_le c3x a3x, abs_sub_add_le c3y a3y⟩,
    abs_sub_add_le nx0 ox0, abs_sub_add_le nx1 ox1, abs_sub_add_le ny0 oy0,
    abs_sub_add_le ny1 oy1⟩

/-- C31 at a concrete input, in the arithmetic of `double`: the box with centre
`(0.1, 0)`, heading 0, length 0.6 and width 1 is shifted by `(0.2, 0)`; the corner
coordinates are within `2^-55` of the exact ones before the shift and within `3 * 2^-55`
after it, so `min_x` after the shift is within `4 * 2^-55` of the old `min_x` plus 0.2. -/
theorem Shift_rounded_frame_witness :
    |((Box2d.InitCorners_rounded binary64 (Box2d.new_rounded binary64
      (⟨Real.cos, Real.sin, fun x y => Real.sqrt (x * x + y * y)⟩ : Libm ℝ)
      ⟨binary64 0.1, 0⟩ 0 (binary64 0.6) 1)).Shift_rounded binary64 ⟨binary64 0.2, 0⟩).min_x -
      ((Box2d.InitCorners_rounded binary64 (Box2d.new_rounded binary64
      (⟨Real.cos, Real.sin, fun x y => Real.sqrt (x * x + y * y)⟩ : Libm ℝ)
      ⟨binary64 0.1, 0⟩ 0 (binary64 0.6) 1)).min_x + binary64 0.2)| ≤
      1 / 2 ^ 55 + 3 / 2 ^ 55 := by
  have r1 : binary64 (1 / 10 : ℝ) =
      ((7205759403792794 : Int) : ℝ) / 2 ^ 56 :=
    roundToFormat_dyadic 53 (-1022) _ 1 7205759403792794
      10 56
      (by norm_num) (by decide) (by decide) (by decide) (by decide) (by decide) (by decide)
  have r2 : binary64 (3 / 5 : ℝ) =
      ((5404319552844595 : Int) : ℝ) / 2 ^ 53 :=
    roundToFormat_dyadic 53 (-1022) _ 3 5404319552844595
      5 53
      (by norm_num) (by decide) (by decide) (by decide) (by decide) (by decide) (by decide)
  have r3 : binary64 (1 / 5 : ℝ) =
      ((7205759403792794 : Int) : ℝ) / 2 ^ 55 :=
    roundToFormat_dyadic 53 (-1022) _ 1 7205759403792794
      5 55
      (by norm_num) (by decide) (by decide) (by decide) (by decide) (by decide) (by decide)
  have r4 : binary64 (5404319552844595 / 18014398509481984 : ℝ) =
      ((5404319552844595 : Int) : ℝ) / 2 ^ 54 :=
    roundToFormat_dyadic 53 (-1022) _ 5404319552844595 5404319552844595
      18014398509481984 54
      (by norm_num) (by decide) (by decide) (by decide) (by decide) (by decide) (by decide)
  have r5 : binary64 (1 / 2 : ℝ) =
      ((4503599627370496 : Int) : ℝ) / 2 ^ 53 :=
    roundToFormat_dyadic 53 (-1022) _ 1 4503599627370496
      2 53
      (by norm_num) (by decide) (by decide) (by decide) (by decide) (by decide) (by decide)
  have r6 : binary64 (0 : ℝ) = 0 := roundToFormat_zero 53 (-1022)
  have r7 : binary64 (-(1 / 2) : ℝ) =
      ((-4503599627370496 : Int) : ℝ) / 2 ^ 53 :=
    roundToFormat_dyadic 53 (-1022) _ (-1) (-4503599627370496)
      2 53
      (by norm_num) (by decide) (by decide) (by decide) (by decide) (by decide) (by decide)
  have r8 : binary64 (14411518807585587 / 36028797018963968 : ℝ) =
      ((7205759403792794 : Int) : ℝ) / 2 ^ 54 :=
    roundToFormat_dyadic 53 (-1022) _ 14411518807585587 7205759403792794
      36028797018963968 54
      (by norm_num) (by decide) (by decide) (by decide) (by decide) (by decide) (by decide)
  have r9 : binary64 (-(5404319552844595 / 18014398509481984) : ℝ) =
      ((-5404319552844595 : Int) : ℝ) / 2 ^ 54 :=
    roundToFormat_dyadic 53 (-1022) _ (-5404319552844595) (-5404319552844595)
      18014398509481984 54
      (by norm_num) (by decide) (by decide) (by decide) (by decide) (by decide) (by decide)
  have r10 : binary64 (-(7205759403792793 / 36028797018963968) : ℝ) =
      ((-7205759403792793 : Int) : ℝ) / 2 ^ 55 :=
    roundToFormat_dyadic 53 (-1022) _ (-7205759403792793) (-7205759403792793)
      36028797018963968 55
      (by norm_num) (by decide) (by decide) (by decide) (by decide) (by decide) (by decide)
  have r11 : binary64 (10808639105689191 / 36028797018963968 : ℝ) =
      ((5404319552844596 : Int) : ℝ) / 2 ^ 54 :=
    roundToFormat_dyadic 53 (-1022) _ 10808639105689191 5404319552844596
      36028797018963968 54
      (by norm_num) (by decide) (by decide) (by decide) (by decide) (by decide) (by decide)
  have r12 : binary64 (10808639105689191 / 18014398509481984 : ℝ) =
      ((5404319552844596 : Int) : ℝ) / 2 ^ 53 :=
    roundToFormat_dyadic 53 (-1022) _ 10808639105689191 5404319552844596
      18014398509481984 53
      (by norm_num) (by decide) (by decide) (by decide) (by decide) (by decide) (by decide)
  have r13 : binary64 (1 / 18014398509481984 : ℝ) =
      ((4503599627370496 : Int) : ℝ) / 2 ^ 106 :=
    roundToFormat_dyadic 53 (-1022) _ 1 4503599627370496
      18014398509481984 106
      (by norm_num) (by decide) (by decide) (by decide) (by decide) (by norm_num)
      (by norm_num)
  exact (Shift_rounded_frame binary64 (Box2d.new_rounded binary64
      (⟨Real.cos, Real.sin, fun x y => Real.sqrt (x * x + y * y)⟩ : Libm ℝ)
      ⟨binary64 0.1, 0⟩ 0 (binary64 0.6) 1) ⟨binary64 0.2, 0⟩ (1 / 2 ^ 55) (3 / 2 ^ 55)
    (by
      simp only [Corners.Near, Vector2d.Near, Box2d.new_rounded, Box2d.InitCorners_rounded, Box2d.InitCorners,
      Box2d.Local2Global_rounded, Box2d.Local2Global, Vector2d.add_rounded, Vector2d.add,
      Real.cos_zero, Real.sin_zero]
      norm_num [abs_le, r1, r2, r3, r4, r5, r6, r7, r8, r9, r10, r11, r12, r13])
    (by
      simp only [Corners.Near, Vector2d.Near, Box2d.Shift_rounded, Box2d.Shift, Box2d.new_rounded, Box2d.InitCorners_rounded, Box2d.InitCorners,
      Box2d.Local2Global_rounded, Box2d.Local2Global, Vector2d.add_rounded, Vector2d.add,
      Real.cos_zero, Real.sin_zero]
      norm_num [abs_le, r1, r2, r3, r4, r5, r6, r7, r8, r9, r10, r11, r12, r13])).2.2.2.2.2.2.2.2.2.2.1

/-- C32, failing input: the node `(5, 5, 0)` with the parent node `(5, 6, 0)`, of which it
is a successor.  The successor `(5, 6, 0)`, at the position of the parent, is handed to
`AddSuccessor`: the parent is not excluded. -/
theorem GetSuccessors_goes_back :
    (⟨5, 6, 0, MovementType.STRAIGHT_FORWARD⟩ : HybridState4DNode ℝ).IsSuccessor
      ⟨Real.cos, Real.sin, fun x y => Real.sqrt (x * x + y * y)⟩
      ⟨5, 5, 0, MovementType.STRAIGHT_FORWARD⟩ ∧
    ∃ successors,
      (⟨5, 5, 0, MovementType.STRAIGHT_FORWARD⟩ : HybridState4DNode ℝ).GetSuccessors_parent
        ⟨Real.cos, Real.sin, fun x y => Real.sqrt (x * x + y * y)⟩
        (some ⟨5, 6, 0, MovementType.STRAIGHT_FORWARD⟩) = some successors ∧
      ∃ s ∈ successors, s.x_ = 5 ∧ s.y_ = 6 := by
  constructor
  · exact grid_successor _ _ _ 5 6 (by norm_num) (by norm_num) (by norm_num) (by norm_num)
      (by norm_num) (by norm_num) rfl rfl
      (Or.inr (Or.inl ⟨by norm_num, by norm_num, by decide⟩))
  · obtain ⟨successors, h, hs⟩ : (⟨5, 5, 0, MovementType.STRAIGHT_FORWARD⟩ :
        HybridState4DNode ℝ).IsSuccessor
        ⟨Real.cos, Real.sin, fun x y => Real.sqrt (x * x + y * y)⟩
        ⟨5, 6, 0, MovementType.STRAIGHT_FORWARD⟩ :=
      grid_successor _ _ _ 5 5 (by norm_num) (by norm_num) (by norm_num) (by norm_num)
        (by norm_num) (by norm_num) rfl rfl
        (Or.inr (Or.inr (Or.inr ⟨by norm_num, by norm_num, by decide⟩)))
    exact ⟨successors, h, _, hs, rfl, rfl⟩

/-- C33: for a node whose truncated coordinates `x_int`, `y_int` and their neighbours are
values of type `int`, `GetSuccessors` returns; it adds at most four successors, each with
integer coordinates at Manhattan distance 1 from `(x_int, y_int)`, inside the 20 x 30 map on
a cell with `GetMap < 9`, with heading 0 and type `STRAIGHT_FORWARD`; and a neighbour cell
is added exactly when it is free. -/
theorem GetSuccessors_grid [FloorRing α] (m : Libm α) (n : HybridState4DNode α)
    (x_int y_int : Int) (hx : static_cast_int n.x_ = some x_int)
    (hy : static_cast_int n.y_ = some y_int)
    (hx1 : -2147483647 ≤ x_int) (hx2 : x_int ≤ 2147483646)
    (hy1 : -2147483647 ≤ y_int) (hy2 : y_int ≤ 2147483646) :
    ∃ successors, n.GetSuccessors m = some successors ∧ successors.length ≤ 4 ∧
      (∀ s ∈ successors, ∃ a b : Int, s.x_ = a ∧ s.y_ = b ∧
        |a - x_int| + |b - y_int| = 1 ∧ 0 ≤ a ∧ a < 20 ∧ 0 ≤ b ∧ b < 30 ∧ GetMap a b < 9 ∧
        s.theta_ = 0 ∧ s.type_ = MovementType.STRAIGHT_FORWARD) ∧
      ∀ a b : Int, |a - x_int| + |b - y_int| = 1 →
        ((cellNode (a, b) : HybridState4DNode α) ∈ successors ↔ GetMap a b < 9) := by
  have hsucc := GetSuccessors_of_trunc m n x_int y_int hx hy hx1 hx2 hy1 hy2
  have hall : ∀ s : HybridState4DNode α, n.IsSuccessor m s → ∃ a b : Int, s.x_ = a ∧ s.y_ = b ∧
      |a - x_int| + |b - y_int| = 1 ∧ 0 ≤ a ∧ a < 20 ∧ 0 ≤ b ∧ b < 30 ∧ GetMap a b < 9 ∧
      s.theta_ = 0 ∧ s.type_ = MovementType.STRAIGHT_FORWARD := by
    intro s hs
    obtain ⟨xi, yi, h1, h2, ht, hty, h⟩ := GetSuccessors_mem m n s hs
    rw [hx] at h1
    rw [hy] at h2
    obtain rfl := Option.some.inj h1
    obtain rfl := Option.some.inj h2
    rcases h with ⟨e1, e2, hc⟩ | ⟨e1, e2, hc⟩ | ⟨e1, e2, hc⟩ | ⟨e1, e2, hc⟩
    · obtain ⟨g1, g2, g3, g4⟩ := GetMap_lt hc
      exact ⟨_, _, e1, e2, manhattan_one.2 (by omega), g1, g2, g3, g4, hc, ht, hty⟩
    · obtain ⟨g1, g2, g3, g4⟩ := GetMap_lt hc
      exact ⟨_, _, e1, e2, manhattan_one.2 (by omega), g1, g2, g3, g4, hc, ht, hty⟩
    · obtain ⟨g1, g2, g3, g4⟩ := GetMap_lt hc
      exact ⟨_, _, e1, e2, manhattan_one.2 (by omega), g1, g2, g3, g4, hc, ht, hty⟩
    · obtain ⟨g1, g2, g3, g4⟩ := GetMap_lt hc
      exact ⟨_, _, e1, e2, manhattan_one.2 (by omega), g1, g2, g3, g4, hc, ht, hty⟩
  refine ⟨_, hsucc, ?_, fun s hs => hall s ⟨_, hsucc, hs⟩, ?_⟩
  · simp only [List.length_append]
    split_ifs <;> simp
  · intro a b hab
    constructor
    · intro hmem
      obtain ⟨a2, b2, e1, e2, -, -, -, -, -, hc, -, -⟩ := hall _ ⟨_, hsucc, hmem⟩
      have ea : a = a2 := Int.cast_injective e1
      have eb : b = b2 := Int.cast_injective e2
      rw [ea, eb]
      exact hc
    · intro hc
      simp only [List.mem_append]
      rcases manhattan_one.1 hab with ⟨e1, e2⟩ | ⟨e1, e2⟩ | ⟨e1, e2⟩ | ⟨e1, e2⟩
      · have ea : a = x_int - 1 := by omega
        have eb : b = y_int := by omega
        subst ea eb
        exact Or.inl (Or.inl (Or.inl (by rw [if_pos hc]; exact List.mem_singleton_self _)))
      · have ea : a = x_int := by omega
        have eb : b = y_int - 1 := by omega
        subst ea eb
        exact Or.inl (Or.inl (Or.inr (by rw [if_pos hc]; exact List.mem_singleton_self _)))
      · have ea : a = x_int + 1 := by omega
        have eb : b = y_int := by omega
        subst ea eb
        exact Or.inl (Or.inr (by rw [if_pos hc]; exact List.mem_singleton_self _))
      · have ea : a = x_int := by omega
        have eb : b = y_int + 1 := by omega
        subst ea eb
        exact Or.inr (by rw [if_pos hc]; exact List.mem_singleton_self _)

/-- C33 at a concrete input: the node `(5.5, 6.25, 0.3)` of type `LEFTTURN_FORWARD`, whose
truncated cell is `(5, 6)`. -/
theorem GetSuccessors_grid_witness :
    static_cast_int (5.5 : ℝ) = some 5 ∧ static_cast_int (6.25 : ℝ) = some 6 ∧
    ∃ successors,
      (⟨5.5, 6.25, 0.3, MovementType.LEFTTURN_FORWARD⟩ : HybridState4DNode ℝ).GetSuccessors
        ⟨Real.cos, Real.sin, fun x y => Real.sqrt (x * x + y * y)⟩ = some successors ∧
      successors.length ≤ 4 ∧
      (∀ s ∈ successors, ∃ a b : Int, s.x_ = a ∧ s.y_ = b ∧
        |a - 5| + |b - 6| = 1 ∧ 0 ≤ a ∧ a < 20 ∧ 0 ≤ b ∧ b < 30 ∧ GetMap a b < 9 ∧
        s.theta_ = 0 ∧ s.type_ = MovementType.STRAIGHT_FORWARD) ∧
      ∀ a b : Int, |a - 5| + |b - 6| = 1 →
        ((cellNode (a, b) : HybridState4DNode ℝ) ∈ successors ↔ GetMap a b < 9) :=
  ⟨trunc_example.1, trunc_example.2,
    GetSuccessors_grid ⟨Real.cos, Real.sin, fun x y => Real.sqrt (x * x + y * y)⟩
      ⟨5.5, 6.25, 0.3, MovementType.LEFTTURN_FORWARD⟩ 5 6 trunc_example.1 trunc_example.2
      (by decide) (by decide) (by decide) (by decide)⟩

/-- C34: `GetMap(x, y)` is 9 when `x < 0`, `x ≥ 20`, `y < 0` or `y ≥ 30`; otherwise the
index `y * 20 + x` lies in `[0, 600)`, within the 600 entries of `world_map`, and the
value read there is 1 or 9. -/
theorem GetMap_spec (x y : Int) :
    world_map.length = 600 ∧
    ((x < 0 ∨ x ≥ 20 ∨ y < 0 ∨ y ≥ 30) → GetMap x y = 9) ∧
    (¬ (x < 0 ∨ x ≥ 20 ∨ y < 0 ∨ y ≥ 30) →
      0 ≤ y * 20 + x ∧ y * 20 + x < 600 ∧
      (∃ h : (y * 20 + x).toNat < world_map.length,
        GetMap x y = world_map.get ⟨(y * 20 + x).toNat, h⟩) ∧
      (GetMap x y = 1 ∨ GetMap x y = 9)) := by
  refine ⟨world_map_length, ?_, ?_⟩
  · intro h
    unfold GetMap _MAP_WIDTH _MAP_HEIGHT
    rw [if_pos h]
  · intro h
    obtain ⟨h1, h2, h3, h4⟩ := GetMap_in x y (by omega) (by omega) (by omega) (by omega)
    refine ⟨h1, h2, ⟨h3, h4⟩, ?_⟩
    rw [h4]
    exact world_map_values _ (List.get_mem _ _ _)

/-- C35: on the built-in map the default start cell `(5, 6)` and the default goal cell
`(11, 24)` are free, and a chain of `GetSuccessors` moves leads from the start node
`(5, 6, 0)` to the goal node `(11, 24, 0)`. -/
theorem goal_reachable [FloorRing α] (m : Libm α) :
    GetMap 5 6 < 9 ∧ GetMap 11 24 < 9 ∧
    ∃ path : List (HybridState4DNode α),
      List.Chain (HybridState4DNode.IsSuccessor m)
        ⟨5, 6, 0, MovementType.STRAIGHT_FORWARD⟩ path ∧
      path.getLast? = some ⟨11, 24, 0, MovementType.STRAIGHT_FORWARD⟩ := by
  refine ⟨start_goal_free.1, start_goal_free.2, startGoalWalk.map cellNode, ?_, ?_⟩
  · exact chain_of_cellWalk m startGoalWalk _ (5, 6) (by norm_num) (by norm_num) (by norm_num)
      (by norm_num) (by norm_num) (by norm_num) startGoalWalk_ok
  · rw [List.getLast?_map, startGoalWalk_last]
    simp [cellNode]

/-- C36: `IsSameState` is reflexive and symmetric, does not read the headings or the
motion types, and for two nodes with integer coordinates it is true exactly when the
coordinates are equal. -/
theorem IsSameState_spec (m : Libm α) (hm : m.Sound) (n r : HybridState4DNode α) :
    n.IsSameState m n = true ∧
    n.IsSameState m r = r.IsSameState m n ∧
    (∀ (t1 t2 : α) (ty1 ty2 : MovementType),
      HybridState4DNode.IsSameState m ⟨n.x_, n.y_, t1, ty1⟩ ⟨r.x_, r.y_, t2, ty2⟩ =
        n.IsSameState m r) ∧
    ∀ a b c d : Int, n.x_ = a → n.y_ = b → r.x_ = c → r.y_ = d →
      (n.IsSameState m r = true ↔ a = c ∧ b = d) := by
  refine ⟨?_, ?_, fun _ _ _ _ => rfl, fun a b c d h1 h2 h3 h4 =>
    IsSameState_int hm n r a b c d h1 h2 h3 h4⟩
  · simp only [HybridState4DNode.IsSameState, sub_self, hypot_zero hm, tenth_eq]
    norm_num
  · simp only [HybridState4DNode.IsSameState]
    rw [hypot_swap hm]

/-- C36 at a concrete input: the default start `(5, 6, 0)` and goal `(11, 24, 0)`. -/
theorem IsSameState_spec_witness :
    (⟨5, 6, 0, MovementType.STRAIGHT_FORWARD⟩ : HybridState4DNode ℝ).IsSameState
      ⟨Real.cos, Real.sin, fun x y => Real.sqrt (x * x + y * y)⟩
      ⟨11, 24, 0, MovementType.STRAIGHT_FORWARD⟩ = true ↔ (5 : Int) = 11 ∧ (6 : Int) = 24 :=
  (IsSameState_spec ⟨Real.cos, Real.sin, fun x y => Real.sqrt (x * x + y * y)⟩ real_sound
    ⟨5, 6, 0, MovementType.STRAIGHT_FORWARD⟩ ⟨11, 24, 0, MovementType.STRAIGHT_FORWARD⟩).2.2.2
    5 6 11 24 (by norm_num) (by norm_num) (by norm_num) (by norm_num)

/-- C37, counterexample: in the arithmetic of `double`, for a window of three elements,
after `setaveragevector(0.1)` the call `movingaverage(0.1)` leaves the window as it is and
returns `(0.1 + 0.1 + 0.1) / 3 = 0.10000000000000002`, the `double` after `0.1`. -/
theorem movingaverage_constant_differs :
    ((lowpass.new 3 : lowpass 3 ℝ).setaveragevector (binary64 0.1)).movingaverage
        (meanOfThree binary64) (binary64 0.1) =
      (7205759403792795 / 72057594037927936,
        (lowpass.new 3 : lowpass 3 ℝ).setaveragevector (binary64 0.1)) ∧
    (7205759403792795 / 72057594037927936 : ℝ) ≠ binary64 0.1 := by
  have r1 : binary64 (1 / 10 : ℝ) =
      ((7205759403792794 : Int) : ℝ) / 2 ^ 56 :=
    roundToFormat_dyadic 53 (-1022) _ 1 7205759403792794
      10 56
      (by norm_num) (by decide) (by decide) (by decide) (by decide) (by decide) (by decide)
  have r2 : binary64 (3602879701896397 / 18014398509481984 : ℝ) =
      ((7205759403792794 : Int) : ℝ) / 2 ^ 55 :=
    roundToFormat_dyadic 53 (-1022) _ 3602879701896397 7205759403792794
      18014398509481984 55
      (by norm_num) (by decide) (by decide) (by decide) (by decide) (by decide) (by decide)
  have r3 : binary64 (10808639105689191 / 36028797018963968 : ℝ) =
      ((5404319552844596 : Int) : ℝ) / 2 ^ 54 :=
    roundToFormat_dyadic 53 (-1022) _ 10808639105689191 5404319552844596
      36028797018963968 54
      (by norm_num) (by decide) (by decide) (by decide) (by decide) (by decide) (by decide)
  have r4 : binary64 (1351079888211149 / 13510798882111488 : ℝ) =
      ((7205759403792795 : Int) : ℝ) / 2 ^ 56 :=
    roundToFormat_dyadic 53 (-1022) _ 1351079888211149 7205759403792795
      13510798882111488 56
      (by norm_num) (by decide) (by decide) (by decide) (by decide) (by decide) (by decide)
  constructor
  · rw [movingaverage_constant]
    norm_num [meanOfThree, r1, r2, r3, r4]
  · norm_num [r1, r2, r3, r4]

/-- C37 (amended): `mean()` is computed by Eigen, outside the sources; for every function
`mean` in its place and a window of `num_lowpass ≥ 1` elements, every call
`movingaverage(x)` returns `mean` of the new window, which is the old one without its first
element and with `x` appended.  The call number `k + 1` of a run with the inputs
`x 0, x 1, ...` returns, when `k + 1 ≥ num_lowpass`, `mean` of the last `num_lowpass`
inputs, whatever the initial window was.  After `setaveragevector(v)` the call
`movingaverage(v)` leaves the window unchanged and returns `mean` of `num_lowpass` copies
of `v`; that is `v` when `mean` is the exact arithmetic mean. -/
theorem movingaverage_spec (num_lowpass : Nat) (hN : 1 ≤ num_lowpass)
    (mean : (Fin num_lowpass → α) → α) (lp : lowpass num_lowpass α) (x : Nat → α) (v : α) :
    ((lp.movingaverage mean v).1 = mean (lp.movingaverage mean v).2.averagevector ∧
      (∀ (i : Fin num_lowpass) (h : i.val + 1 < num_lowpass),
        (lp.movingaverage mean v).2.averagevector i = lp.averagevector ⟨i.val + 1, h⟩) ∧
      ∀ i : Fin num_lowpass, i.val + 1 = num_lowpass →
        (lp.movingaverage mean v).2.averagevector i = v) ∧
    (∀ k : Nat, num_lowpass ≤ k + 1 →
      (∀ i : Fin num_lowpass,
        ((lowpass.after mean lp x k).movingaverage mean (x k)).2.averagevector i =
          x (k + 1 - num_lowpass + i.val)) ∧
      ((lowpass.after mean lp x k).movingaverage mean (x k)).1 =
        mean (fun i : Fin num_lowpass => x (k + 1 - num_lowpass + i.val))) ∧
    (lp.setaveragevector v).movingaverage mean v =
      (mean (fun _ => v), lp.setaveragevector v) ∧
    ((∀ w : Fin num_lowpass → α, mean w = Finset.univ.sum w / (num_lowpass : α)) →
      (lp.setaveragevector v).movingaverage mean v = (v, lp.setaveragevector v)) := by
  have hne : (num_lowpass : α) ≠ 0 := by
    have h : (0 : α) < (num_lowpass : α) := by exact_mod_cast hN
    exact h.ne'
  refine ⟨?_, ?_, movingaverage_constant mean lp v, ?_⟩
  · obtain ⟨h1, hshift⟩ := movingaverage_eq mean lp v
    refine ⟨h1, fun i h => ?_, fun i h => ?_⟩
    · rw [hshift i, dif_pos h]
    · rw [hshift i, dif_neg (by omega)]
  · intro k hk
    have hval : ∀ i : Fin num_lowpass,
        ((lowpass.after mean lp x k).movingaverage mean (x k)).2.averagevector i =
          x (k + 1 - num_lowpass + i.val) := by
      intro i
      have h := after_window mean lp x (k + 1) i
      rw [dif_neg (by omega)] at h
      rw [show k + 1 - num_lowpass + i.val = k + 1 + i.val - num_lowpass by omega]
      exact h
    refine ⟨hval, ?_⟩
    rw [(movingaverage_eq mean _ _).1, funext hval]
  · intro hmean
    rw [movingaverage_constant, hmean, Finset.sum_const, Finset.card_univ, Fintype.card_fin,
      nsmul_eq_mul, mul_div_cancel_left₀ v hne]

/-- C37 at a concrete input: in the arithmetic of `double`, a window of three elements set
to 2 is unchanged by `movingaverage(2)`, which returns the mean of three copies of 2 as it
is computed. -/
theorem movingaverage_spec_witness :
    1 ≤ 3 ∧
    ((lowpass.new 3 : lowpass 3 ℝ).setaveragevector 2).movingaverage (meanOfThree binary64) 2 =
      (meanOfThree binary64 (fun _ => 2),
        (lowpass.new 3 : lowpass 3 ℝ).setaveragevector 2) :=
  ⟨by decide,
    (movingaverage_spec 3 (by decide) (meanOfThree binary64) (lowpass.new 3) (fun _ => 0)
      2).2.2.1⟩

end Theorems

end ASV
